import Mathlib

/-!
Roachprod: cluster naming and lifecycle orchestration

A shallow embedding of `pkg/roachprod/roachprod.go`.

* Go strings are embedded as Lean strings (sequences of Unicode scalar values); `len` is the
  UTF-8 byte length, as in Go.
* Calls that leave the file (cloud providers, the file system, the `install` and `vm` packages)
  are answered by an environment `Env`.  Each answer is a function of the calls made so far, and
  every call is appended to the `trace` of the program state, so that "no provider call was made"
  and "exactly one destroy call was made" are statements about the trace.
* Every place where the source builds an error value is a constructor of `Error`; errors that
  are produced outside the file are wrapped by `Error.ext`.
* Output is left out: writes to standard output and standard error, the log, and
  `PrintDetails`.
* `List` deletes from the map of a cloud that `Clone` returned; it is embedded over the maps of
  clusters in memory (`Maps`), so that which map a `delete` changes, and which it leaves as it
  is, can be stated.
-/

namespace Roachprod

/-! ## Data model -/

/-- An error value produced by a callee that lives outside `roachprod.go`. -/
structure ExtErr where
  msg : String
deriving DecidableEq, Repr

/-- The error values built in `roachprod.go`, one constructor per construction site. -/
inductive Error where
  /-- an error returned by an external callee, passed on unchanged -/
  | ext (e : ExtErr)
  /-- Stands for `cluster name cannot be blank` -/
  | blankClusterName
  /-- Stands for `cluster name must match %s` -/
  | clusterNameMustMatch (pattern : String)
  /-- Stands for `malformed cluster name %s, did you mean one of %s` -/
  | malformedClusterName (clusterName : String) (suggestions : List String)
  /-- Stands for `no cluster specified` -/
  | noClusterSpecified
  /-- Stands for `invalid cluster name: %s` -/
  | invalidClusterName (name : String)
  /-- Stands for `unknown cluster: %s`, with the sorted list of known clusters as a hint -/
  | unknownCluster (name : String) (available : List String)
  /-- Stands for `invalid node spec %s, cluster contains %d nodes` -/
  | invalidNodeSpec (nodeNames : String) (numVMs : Nat)
  /-- the error of `regexp.Compile` on a pattern it does not accept -/
  | regexpCompileFailed (pattern : String)
  /-- Stands for `'mine' option cannot be combined with 'pattern'` -/
  | mineWithPattern
  /-- Stands for `could not compile regex pattern: %s` wrapping the compile error -/
  | couldNotCompilePattern (pattern : String) (cause : Error)
  /-- Stands for `creating lock file %q` wrapping the error of `os.Create` -/
  | creatingLockFile (lockFile : String) (cause : Error)
  /-- Stands for `acquiring lock on %q` wrapping the error of `unix.Flock` -/
  | acquiringLock (cause : Error)
  /-- Stands for `could not find %s in list of cluster` -/
  | couldNotFindCluster (name : String)
  /-- Stands for `failed to retrieve authorized keys from gcloud` wrapping the cause -/
  | failedAuthorizedKeys (cause : Error)
  /-- Stands for `no cluster name provided` -/
  | noClusterNameProvided
  /-- Stands for `--all-mine cannot be combined with cluster names` -/
  | allMineWithClusterNames
  /-- Stands for `cluster %s does not exist` -/
  | clusterDoesNotExist (name : String)
  /-- the value of type `*clusterAlreadyExistsError` -/
  | clusterAlreadyExists (name : String)
  /-- Stands for `number of nodes must be in [1..999]` -/
  | numNodesOutOfRange
  /-- Stands for `creating a node with --filesystem=zfs is currently only supported on gce` -/
  | zfsOnlyOnGce
  /-- Stands for `errors.WithSecondaryError primary secondary` -/
  | withSecondary (primary secondary : Error)
  /-- a run-time panic (index out of range); no error value is returned -/
  | runtimePanic
  /-- `create tmpfile for pprof download` wrapping the cause -/
  | createTmpfile (cause : Error)
  /-- `unexpected status from pprof endpoint: %s` -/
  | unexpectedStatus (status : String)
  /-- the process ends with `exit.WithCode(exit.UnspecifiedError())`; nothing is returned -/
  | exitUnspecified
  /-- `empty ip: %v` -/
  | emptyIP (ips : List String)
  /-- `have nodes %v, but urls %v from ips %v` -/
  | urlsMismatch (nodes : List Int) (urls ips : List String)
deriving DecidableEq, Repr

/-- A virtual machine of a cloud cluster (`vm.VM`), with the fields the file reads. -/
structure VM where
  Name : String
  Provider : String
  PublicIP : String
deriving DecidableEq, Repr

/-- A cluster as listed by the cloud (`cld.Cluster`). -/
structure Cluster where
  Name : String
  VMs : List VM
deriving DecidableEq, Repr

/-- The listed state of all clusters (`cld.Cloud`); `Clusters` is the map from name to cluster,
kept as an association list that is read with `List.lookup`. -/
structure Cloud where
  Clusters : List (String × Cluster)
deriving DecidableEq, Repr

/-- The maps of clusters in memory, by address.  `Sync` returns a pointer to a cloud and
`Clone` a pointer to another; `delete` changes the map it is given, which is the map of every
cloud that shares it. -/
abbrev Maps := Nat → List (String × Cluster)

/-- The options of `cld.CreateCluster` (`vm.CreateOpts`), with the fields the file touches;
`FileSystem` stands for `SSDOpts.FileSystem`. -/
structure CreateOpts where
  ClusterName : String
  VMProviders : List String
  FileSystem : String
deriving DecidableEq, Repr

/-- A cluster of the in-memory registry and the options of an operation
(`install.SyncedCluster`). -/
structure SyncedCluster where
  Name : String
  Tag : String
  CertsDir : String
  Secure : Bool
  Quiet : Bool
  UseTreeDist : Bool
  Args : List String
  Env : List String
  NumRacks : Int
  MaxConcurrency : Int
  /-- whether `Impl` has been set to `install.Cockroach{}` -/
  ImplCockroach : Bool
  Localities : List String
  VMs : List String
  Users : List String
  Nodes : List Int
  AuthorizedKeys : String
deriving DecidableEq, Repr

/-- The calls that leave `roachprod.go`, in the order in which the trace records them. -/
inductive Call where
  | FindActiveAccounts
  | ListCloud
  | CreateCluster (numNodes : Int) (opts : CreateOpts)
  | DestroyCluster (c : Cluster)
  | GCClusters (cloud : Cloud) (dryrun : Bool)
  | GCAWSKeyPairs (dryrun : Bool)
  | OsCreate (path : String)
  | Flock
  | FileClose
  | SyncHosts (cloud : Cloud)
  | SyncDNS (vms : List VM)
  | CleanSSH (provider : String)
  | ConfigSSH (provider : String)
  | OsRemove (path : String)
  | OsRemoveAll (path : String)
  | OsMkdirAll (path : String)
  | LoadClusters
  | SshKeygenR (publicIP : String)
  | Wait (c : SyncedCluster)
  | GetUserAuthorizedKeys
  | InstallSetupSSH (c : SyncedCluster)
  | Wipe (c : SyncedCluster) (preserveCerts : Bool)
  | IsTerminal
  | NodePort (node : Int)
  | GetInternalIP (node : Int)
  | TempFile (dir : String)
  | HttpGet (url : String)
  | BodyClose
  | IoCopy (file : String)
  | FileSync (file : String)
  | TempFileClose (file : String)
  | OsRename (oldpath newpath : String)
  | CmdStart (port : Int) (file : String)
  | CmdWait (port : Int) (file : String)
deriving DecidableEq, Repr

/-- The program state: the calls made so far and the two package-level variables the file
writes, `install.Clusters` and `config.SlackToken`. -/
structure State where
  trace : List Call
  Clusters : List (String × SyncedCluster)
  SlackToken : String
deriving DecidableEq, Repr

/-- Append a call to the trace. -/
def State.record (st : State) (c : Call) : State :=
  { st with trace := st.trace ++ [c] }

/-- Everything `roachprod.go` uses and does not define.  The constants are those of the
packages `config`, `vm`, `gce`, `aws` and `local`; the functions of a trace are the answers of
the external callees, given the calls made before. -/
structure Env where
  /-- Stands for `config.Local`, the reserved name of the local cluster -/
  Local : String
  /-- Stands for `gce.ProviderName` -/
  gceProviderName : String
  /-- Stands for `aws.ProviderName` -/
  awsProviderName : String
  /-- Stands for `local.ProviderName` -/
  localProviderName : String
  /-- Stands for `vm.Zfs` -/
  Zfs : String
  /-- Stands for `config.OSUser.Username` -/
  OSUser : String
  /-- Stands for `os.ExpandEnv` of `$HOME/.roachprod/LOCK` -/
  lockFile : String
  /-- Stands for `os.ExpandEnv` of `${HOME}/local/%d` for a node number -/
  localDir : Int → String
  /-- Stands for `filepath.Join(os.ExpandEnv(config.DefaultHostDir), name)` -/
  hostFile : String → String
  /-- Stands for `vm.AllProviderNames()` -/
  AllProviderNames : List String
  /-- Stands for `vm.DNSSafeAccount` -/
  DNSSafeAccount : String → String
  /-- Stands for `install.ListNodes` -/
  ListNodes : String → Nat → Except ExtErr (List Int)
  /-- Stands for `vm.Providers[name].Active()` -/
  ProviderActive : String → Bool
  /-- Stands for `GetProjects()` of the GCE provider -/
  gceProjects : List String
  /-- Stands for `gce.DefaultProject()` -/
  gceDefaultProject : String
  /-- Stands for `vm.FindActiveAccounts()` -/
  FindActiveAccounts : List Call → Except ExtErr (List String)
  /-- Stands for `cld.ListCloud()` -/
  ListCloud : List Call → Except ExtErr Cloud
  /-- Stands for `cld.CreateCluster` -/
  CreateCluster : List Call → Int → CreateOpts → Option ExtErr
  /-- Stands for `cld.DestroyCluster` -/
  DestroyCluster : List Call → Cluster → Option ExtErr
  /-- Stands for `cld.GCClusters` -/
  GCClusters : List Call → Cloud → Bool → Option ExtErr
  /-- Stands for `cld.GCAWSKeyPairs` -/
  GCAWSKeyPairs : List Call → Bool → Option ExtErr
  /-- Stands for `os.Create` -/
  OsCreate : List Call → String → Option ExtErr
  /-- Stands for `unix.Flock(fd, LOCK_EX)` -/
  Flock : List Call → Option ExtErr
  /-- Stands for `syncHosts` -/
  SyncHosts : List Call → Cloud → Option ExtErr
  /-- Stands for `gce.SyncDNS` -/
  SyncDNS : List Call → List VM → Option ExtErr
  /-- Stands for `CleanSSH()` of the named provider -/
  CleanSSH : List Call → String → Option ExtErr
  /-- Stands for `ConfigSSH()` of the named provider -/
  ConfigSSH : List Call → String → Option ExtErr
  /-- Stands for `os.Remove` -/
  OsRemove : List Call → String → Option ExtErr
  /-- Stands for `os.RemoveAll` -/
  OsRemoveAll : List Call → String → Option ExtErr
  /-- Stands for `os.MkdirAll` -/
  OsMkdirAll : List Call → String → Option ExtErr
  /-- Stands for `LoadClusters()`: its error and the registry it leaves behind, started from
  an empty one -/
  LoadClusters : List Call → Option ExtErr × List (String × SyncedCluster)
  /-- Stands for `Wait()` of an install cluster -/
  Wait : List Call → SyncedCluster → Option ExtErr
  /-- Stands for `gce.GetUserAuthorizedKeys()`: the keys and the error it returns -/
  GetUserAuthorizedKeys : List Call → String × Option ExtErr
  /-- Stands for `SetupSSH()` of an install cluster -/
  InstallSetupSSH : List Call → SyncedCluster → Option ExtErr
  /-- Stands for `term.IsTerminal(int(os.Stdout.Fd()))` -/
  IsTerminal : List Call → Bool
  /-- Stands for `ServerNodes()` of an install cluster -/
  ServerNodes : SyncedCluster → List Int
  /-- Stands for `c.Impl.NodePort(c, node)` -/
  NodePort : SyncedCluster → Int → Int
  /-- Stands for `install.GetAdminUIPort` -/
  GetAdminUIPort : Int → Int
  /-- Stands for `c.Impl.NodeURL(c, ip, port)` -/
  NodeURL : SyncedCluster → String → Int → String
  /-- Stands for `GetInternalIP(node)` of an install cluster: the address and the error -/
  GetInternalIP : List Call → SyncedCluster → Int → String × Option ExtErr
  /-- Stands for `timeutil.Now().Unix()` -/
  NowUnix : List Call → Int
  /-- Stands for `filepath.Dir` -/
  filepathDir : String → String
  /-- Stands for `ioutil.TempFile(dir, ".pprof")`: the name of the file made -/
  TempFile : List Call → String → Except ExtErr String
  /-- Stands for `httpClient.Get`: the status code and the status text of the response -/
  HttpGet : List Call → String → Except ExtErr (Int × String)
  /-- Stands for `io.Copy(file, resp.Body)` -/
  IoCopy : List Call → String → Option ExtErr
  /-- Stands for `file.Sync()` -/
  FileSync : List Call → String → Option ExtErr
  /-- Stands for `file.Close()` of the temporary file -/
  TempFileClose : List Call → String → Option ExtErr
  /-- Stands for `os.Rename` -/
  OsRename : List Call → String → String → Option ExtErr
  /-- Stands for `cmd.Start()` of `go tool pprof -http :port file` -/
  CmdStart : List Call → Int → String → Option ExtErr
  /-- Stands for `cmd.Wait()` of that command -/
  CmdWait : List Call → Int → String → Option ExtErr
  /-- Stands for `regexp.Compile` on a pattern given by the user: the method `MatchString` of
  the compiled expression, or the error -/
  CompilePattern : String → Except ExtErr (String → Bool)
  /-- Stands for `Clone()` of a `cld.Cloud`, given the maps of clusters in memory and the
  address of the map of the receiver: the maps afterwards, and the address of the map of the
  cloud it returns -/
  Clone : Maps → Nat → Maps × Nat

/-! ## Cluster names -/

/-- The character class `[a-zA-Z0-9\-]`. -/
def alphaNumClass (c : Char) : Bool :=
  (decide ('a' ≤ c) && decide (c ≤ 'z')) || (decide ('A' ≤ c) && decide (c ≤ 'Z')) ||
    (decide ('0' ≤ c) && decide (c ≤ '9')) || c == '-'

/-- The text of the pattern compiled in `verifyClusterName`, as `alphaNum.String()` prints it. -/
def alphaNumPattern : String := "^[a-zA-Z0-9\\-]+$"

/-- Whether `alphaNum.MatchString(s)` holds for the compiled pattern `^[a-zA-Z0-9\-]+$`: one or
more characters, from the first to the last, all of the class. -/
def alphaNumMatchString (s : String) : Bool :=
  !s.data.isEmpty && s.data.all alphaNumClass

/-- The function `strings.HasPrefix(s, pre)`. -/
def HasPrefix (s pre : String) : Bool :=
  pre.data.isPrefixOf s.data

/-- The loop of `verifyClusterName` over the active accounts: an account not seen before is
marked as seen and its DNS-safe form is appended to `accounts`. -/
def collectAccounts (clean : String → String) :
    List String → List String → List String → List String
  | [], _, accounts => accounts
  | account :: rest, seenAccounts, accounts =>
    if seenAccounts.contains account then
      collectAccounts clean rest seenAccounts accounts
    else
      collectAccounts clean rest (account :: seenAccounts) (accounts ++ [clean account])

/-- The distinct members of a list in the order of their first occurrence: the head, then
the distinct members of the tail without the head. -/
def firstOccurrences : List String → List String
  | [] => []
  | a :: rest => a :: (firstOccurrences rest).filter (fun x => x != a)

/-- The part of `clusterName` picked as the suggested cluster name: what follows the first
`-` (`clusterName[i+1:]` for `i = strings.Index(clusterName, "-")`), or the whole name when
there is no `-` (`i == -1`). -/
def suggestionSuffix (clusterName : String) : String :=
  match clusterName.data.dropWhile (fun c => c != '-') with
  | [] => clusterName
  | _ :: rest => String.mk rest

/-- The tail of `verifyClusterName`, once the candidate `accounts` are known. -/
def verifyAgainstAccounts (clusterName : String) (accounts : List String) :
    Except Error String :=
  if accounts.any (fun account =>
      HasPrefix clusterName (account ++ "-") &&
        decide (clusterName.utf8ByteSize > account.utf8ByteSize + 1)) then
    Except.ok clusterName
  else
    Except.error (Error.malformedClusterName clusterName
      (accounts.map (fun account => account ++ "-" ++ suggestionSuffix clusterName)))

/-- The function `verifyClusterName(clusterName, username)`.  The pattern is a constant that
compiles, so the error branch of its `regexp.Compile` is never taken. -/
def verifyClusterName (env : Env) (clusterName username : String) (st : State) :
    Except Error String × State :=
  if clusterName.utf8ByteSize = 0 then
    (Except.error Error.blankClusterName, st)
  else if clusterName = env.Local then
    (Except.ok clusterName, st)
  else if !alphaNumMatchString clusterName then
    (Except.error (Error.clusterNameMustMatch alphaNumPattern), st)
  else if username.utf8ByteSize > 0 then
    (verifyAgainstAccounts clusterName [username], st)
  else
    match env.FindActiveAccounts st.trace with
    | Except.error err => (Except.error (Error.ext err), st.record Call.FindActiveAccounts)
    | Except.ok active =>
      (verifyAgainstAccounts clusterName (collectAccounts env.DNSSafeAccount active [] []),
        st.record Call.FindActiveAccounts)

/-! ## Ownership pattern

The package `regexp` of the Go library is embedded for the syntax that
`userClusterNameRegexp` writes: literal characters, escaped punctuation, `^`, groups and
alternation. -/

/-- A compiled regular expression. -/
inductive Regexp where
  /-- matches the empty string: the empty pattern and the empty alternative -/
  | emptyMatch
  /-- a literal character -/
  | lit (c : Char)
  /-- the anchor `^`, the beginning of the text -/
  | bol
  /-- concatenation -/
  | cat (r1 r2 : Regexp)
  /-- alternation `r1|r2` -/
  | alt (r1 r2 : Regexp)
  /-- a group `(r)` -/
  | group (r : Regexp)
deriving DecidableEq, Repr

/-- The positions at which a match of `r` that starts at position `i` of `text` can end. -/
def Regexp.ends : Regexp → List Char → Nat → List Nat
  | Regexp.emptyMatch, _, i => [i]
  | Regexp.lit c, text, i => if text.get? i = some c then [i + 1] else []
  | Regexp.bol, _, i => if i = 0 then [i] else []
  | Regexp.cat r1 r2, text, i => (r1.ends text i).flatMap (fun j => r2.ends text j)
  | Regexp.alt r1 r2, text, i => r1.ends text i ++ r2.ends text i
  | Regexp.group r, text, i => r.ends text i

/-- The method `MatchString`: whether some part of `s` matches `r`. -/
def Regexp.MatchString (r : Regexp) (s : String) : Bool :=
  (List.range (s.data.length + 1)).any (fun i => !(r.ends s.data i).isEmpty)

/-- The bytes that `regexp.QuoteMeta` escapes (`specialBytes` of package `regexp`). -/
def specialBytes : List Char := "\\.+*?()|[]\x7b\x7d^$".data

/-- The function `regexp.QuoteMeta`: a backslash is put before every special character. -/
def QuoteMeta (s : String) : String :=
  String.mk (s.data.flatMap (fun c => if c ∈ specialBytes then ['\\', c] else [c]))

/-- The tokens of the embedded pattern syntax. -/
inductive Token where
  | lit (c : Char)
  | caret
  | lparen
  | rparen
  | bar
deriving DecidableEq, Repr

/-- Split a pattern into tokens; `none` for syntax outside the embedded part: an unescaped
`.+*?[]{}$`, a backslash followed by a letter, a digit or a character outside ASCII, and a
trailing backslash. -/
def tokenize : List Char → Option (List Token)
  | [] => some []
  | '\\' :: c :: rest =>
    if c.toNat < 128 && !c.isAlphanum then (tokenize rest).map (fun ts => Token.lit c :: ts)
    else none
  | '(' :: rest => (tokenize rest).map (fun ts => Token.lparen :: ts)
  | ')' :: rest => (tokenize rest).map (fun ts => Token.rparen :: ts)
  | '|' :: rest => (tokenize rest).map (fun ts => Token.bar :: ts)
  | '^' :: rest => (tokenize rest).map (fun ts => Token.caret :: ts)
  | c :: rest =>
    if c ∈ specialBytes then none else (tokenize rest).map (fun ts => Token.lit c :: ts)

/-- The concatenation of a list of expressions, the empty match for the empty list. -/
def catList : List Regexp → Regexp
  | [] => Regexp.emptyMatch
  | [r] => r
  | r :: rs => Regexp.cat r (catList rs)

/-- The alternation of the alternatives `r :: rs`. -/
def altList : Regexp → List Regexp → Regexp
  | r, [] => r
  | r, r2 :: rs => Regexp.alt r (altList r2 rs)

/-- An open level of the parser: the alternatives closed so far and the atoms of the
alternative being read, both in reading order. -/
structure Frame where
  alts : List Regexp
  cur : List Regexp
deriving DecidableEq, Repr

/-- The alternation of a list of alternatives, the empty match for the empty list. -/
def altsOf : List Regexp → Regexp
  | [] => Regexp.emptyMatch
  | r :: rs => altList r rs

/-- The expression of a level once it is closed. -/
def Frame.close (f : Frame) : Regexp :=
  altsOf (f.alts ++ [catList f.cur])

/-- Parse the tokens with a stack of open levels: `top` is the innermost, `stack` holds the
enclosing ones.  `none` for unbalanced parentheses. -/
def parseTokens : List Token → Frame → List Frame → Option Regexp
  | [], top, [] => some top.close
  | [], _, _ :: _ => none
  | Token.lit c :: ts, top, stack =>
    parseTokens ts { top with cur := top.cur ++ [Regexp.lit c] } stack
  | Token.caret :: ts, top, stack =>
    parseTokens ts { top with cur := top.cur ++ [Regexp.bol] } stack
  | Token.bar :: ts, top, stack =>
    parseTokens ts { alts := top.alts ++ [catList top.cur], cur := [] } stack
  | Token.lparen :: ts, top, stack =>
    parseTokens ts { alts := [], cur := [] } (top :: stack)
  | Token.rparen :: _, _, [] => none
  | Token.rparen :: ts, top, parent :: stack =>
    parseTokens ts { parent with cur := parent.cur ++ [Regexp.group top.close] } stack

/-- The function `regexp.Compile`, on the embedded syntax. -/
def regexpCompile (pattern : String) : Except Error Regexp :=
  match tokenize pattern.data with
  | none => Except.error (Error.regexpCompileFailed pattern)
  | some ts =>
    match parseTokens ts { alts := [], cur := [] } [] with
    | none => Except.error (Error.regexpCompileFailed pattern)
    | some r => Except.ok r

/-- The loop of `userClusterNameRegexp`: an account not seen before adds the alternative
`(^account-)`, with the account quoted, to the pattern. -/
def userClusterNamePattern : List String → List String → String → String
  | [], _, pattern => pattern
  | account :: rest, seenAccounts, pattern =>
    if seenAccounts.contains account then
      userClusterNamePattern rest seenAccounts pattern
    else
      userClusterNamePattern rest (account :: seenAccounts)
        ((if pattern.utf8ByteSize > 0 then pattern ++ "|" else pattern) ++
          ("(^" ++ QuoteMeta account ++ "-)"))

/-- The text of the alternative that `userClusterNameRegexp` writes for an account:
`fmt.Sprintf("(^%s-)", regexp.QuoteMeta(account))`. -/
def ownerGroupText (account : String) : String :=
  "(^" ++ QuoteMeta account ++ "-)"

/-- The tokens of the alternative of an account: the account is read as literal
characters. -/
def ownerGroupTokens (account : String) : List Token :=
  Token.lparen :: Token.caret :: ((account.data ++ ['-']).map Token.lit ++ [Token.rparen])

/-- The expression of the alternative of an account: at the beginning of the text, the
characters of the account and a hyphen. -/
def ownerGroup (account : String) : Regexp :=
  Regexp.group (catList (Regexp.bol :: (account.data ++ ['-']).map Regexp.lit))

/-- The function `userClusterNameRegexp()`. -/
def userClusterNameRegexp (env : Env) (st : State) : Except Error Regexp × State :=
  match env.FindActiveAccounts st.trace with
  | Except.error err => (Except.error (Error.ext err), st.record Call.FindActiveAccounts)
  | Except.ok accounts =>
    (regexpCompile (userClusterNamePattern accounts [] ""), st.record Call.FindActiveAccounts)

/-! ## The in-memory registry -/

/-- The function `sortedClusters()`: the names of the registry, sorted. -/
def sortedClusters (st : State) : List String :=
  (st.Clusters.map Prod.fst).mergeSort (fun a b => !decide (b < a))

/-- The pieces of a text between the occurrences of `sep`; `cur` is the piece being read. -/
def splitChars (sep : Char) : List Char → List Char → List (List Char)
  | [], cur => [cur]
  | c :: rest, cur =>
    if c = sep then cur :: splitChars sep rest [] else splitChars sep rest (cur ++ [c])

/-- The function `strings.Split(s, sep)` for a separator of one character. -/
def stringsSplit (s : String) (sep : Char) : List String :=
  (splitChars sep s.data []).map String.mk

/-- The key under which `newCluster` looks a cluster up: the part of the name before `:`. -/
def registryKey (name : String) : String :=
  (stringsSplit name ':').headD name

/-- Write a cluster through the pointer held by the registry under `name`. -/
def setCluster (st : State) (name : String) (c : SyncedCluster) : State :=
  { st with Clusters := st.Clusters.map (fun e => if e.1 = name then (e.1, c) else e) }

/-- The rack loop of `newCluster`: the locality at index `i` gets `rack=<i % NumRacks>`
appended, after a comma when it was not empty. -/
def addRacks (numRacks : Int) (localities : List String) : List String :=
  localities.enum.map (fun il =>
    il.2 ++ ((if il.2 != "" then "," else "") ++ ("rack=" ++ toString ((il.1 : Int) % numRacks))))

/-- The end of `newCluster`, once the nodes are known to lie in the cluster: the options are
copied into the cluster. -/
def newClusterOptions (env : Env) (opts : SyncedCluster) (name : String) (nodes : List Int)
    (c2 : SyncedCluster) (st : State) : Except Error SyncedCluster × State :=
  let c3 := { c2 with
    Nodes := nodes, Secure := opts.Secure, CertsDir := opts.CertsDir, Env := opts.Env,
    Args := opts.Args, Tag := if opts.Tag != "" then "/" ++ opts.Tag else c2.Tag,
    UseTreeDist := opts.UseTreeDist }
  if opts.Quiet then
    (Except.ok { c3 with Quiet := true, MaxConcurrency := opts.MaxConcurrency },
      setCluster st name { c3 with Quiet := true, MaxConcurrency := opts.MaxConcurrency })
  else
    (Except.ok { c3 with
        Quiet := !env.IsTerminal st.trace, MaxConcurrency := opts.MaxConcurrency },
      (setCluster st name { c3 with
        Quiet := !env.IsTerminal st.trace, MaxConcurrency := opts.MaxConcurrency }).record
          Call.IsTerminal)

/-- The first assignments of `newCluster` to the cluster found: `Impl`, `NumRacks` and, when
`NumRacks > 0`, the rack of every locality. -/
def withRacks (opts : SyncedCluster) (c0 : SyncedCluster) : SyncedCluster :=
  let c1 := { c0 with ImplCockroach := true, NumRacks := opts.NumRacks }
  if c1.NumRacks > 0 then
    { c1 with Localities := addRacks opts.NumRacks c1.Localities }
  else c1

/-- The part of `newCluster` on the cluster `c0` found in the registry under `name`. -/
def newClusterFound (env : Env) (opts : SyncedCluster) (name nodeNames : String)
    (c0 : SyncedCluster) (st : State) : Except Error SyncedCluster × State :=
  match env.ListNodes nodeNames (withRacks opts c0).VMs.length with
  | Except.error err => (Except.error (Error.ext err), setCluster st name (withRacks opts c0))
  | Except.ok nodes =>
    if nodes.any (fun n => decide (n > ((withRacks opts c0).VMs.length : Int))) then
      (Except.error (Error.invalidNodeSpec nodeNames (withRacks opts c0).VMs.length),
        setCluster st name (withRacks opts c0))
    else
      newClusterOptions env opts name nodes (withRacks opts c0) st

/-- The function `newCluster(opts)`.  The cluster `c` is the pointer stored in
`install.Clusters`, so every assignment to a field of `c` is written to the registry. -/
def newCluster (env : Env) (opts : SyncedCluster) (st : State) :
    Except Error SyncedCluster × State :=
  match stringsSplit opts.Name ':' with
  | [] => (Except.error Error.noClusterSpecified, st)
  | _ :: _ :: _ :: _ => (Except.error (Error.invalidClusterName opts.Name), st)
  | name :: more =>
    match st.Clusters.lookup name with
    | none => (Except.error (Error.unknownCluster name (sortedClusters st)), st)
    | some c0 =>
      newClusterFound env opts name (match more with | [n] => n | _ => "all") c0 st

/-! ## Errors -/

/-- The function `errors.CombineErrors` of the errors library: `err`, or `otherErr` when `err`
is nil; when both are set, `otherErr` is attached to `err` as a secondary error. -/
def CombineErrors : Option Error → Option Error → Option Error
  | none, otherErr => otherErr
  | some err, none => some err
  | some err, some otherErr => some (Error.withSecondary err otherErr)

/-- The test `errors.HasType(err, (*clusterAlreadyExistsError)(nil))`: whether the error or
one of its causes is a `clusterAlreadyExistsError`.  The type is private to the package, so an
error made elsewhere never has it. -/
def isClusterAlreadyExists : Error → Bool
  | Error.clusterAlreadyExists _ => true
  | Error.couldNotCompilePattern _ cause => isClusterAlreadyExists cause
  | Error.creatingLockFile _ cause => isClusterAlreadyExists cause
  | Error.acquiringLock cause => isClusterAlreadyExists cause
  | Error.failedAuthorizedKeys cause => isClusterAlreadyExists cause
  | Error.createTmpfile cause => isClusterAlreadyExists cause
  | Error.withSecondary primary _ => isClusterAlreadyExists primary
  | _ => false

/-- Turn the error of an external callee into an error of this file. -/
def liftErr (e : Option ExtErr) : Option Error :=
  e.map Error.ext

/-! ## Sync -/

/-- Modelled from the spec: `vm.ProvidersSequential`, declared in package `vm` outside this
file, "runs `fn` once per named provider, short-circuiting on first error"; the providers are
visited in the order of the list. -/
def ProvidersSequential (named : List String)
    (action : String → State → Option ExtErr × State) (st : State) : Option Error × State :=
  match named with
  | [] => (none, st)
  | name :: rest =>
    match action name st with
    | (some err, st1) => (some (Error.ext err), st1)
    | (none, st1) => ProvidersSequential rest action st1

/-- The decision of `Sync` whether the DNS entries are refreshed (`refreshDNS`). -/
def refreshDNS (env : Env) : Bool :=
  let r0 := true
  let r1 :=
    if !env.ProviderActive env.gceProviderName then false
    else
      let defaultProjectFound := env.gceProjects.any (fun prj => prj == env.gceDefaultProject)
      if !defaultProjectFound then false else r0
  if !env.ProviderActive env.awsProviderName then false else r1

/-- The DNS step of `Sync`: when `refreshDNS` holds, `gce.SyncDNS(vms)` is called; its error
is printed and dropped. -/
def syncDNSStep (env : Env) (vms : List VM) (st : State) : State :=
  if refreshDNS env then
    match env.SyncDNS st.trace vms with
    | some _ => st.record (Call.SyncDNS vms)
    | none => st.record (Call.SyncDNS vms)
  else st

/-- The end of `Sync`: `CleanSSH` and `ConfigSSH` of every provider, then the removal of the
lock file. -/
def syncSSHAndUnlock (env : Env) (cloud : Cloud) (st : State) : Except Error Cloud × State :=
  match ProvidersSequential env.AllProviderNames
      (fun p s => (env.CleanSSH s.trace p, s.record (Call.CleanSSH p))) st with
  | (some err, st4) => (Except.error err, st4)
  | (none, st4) =>
    match ProvidersSequential env.AllProviderNames
        (fun p s => (env.ConfigSSH s.trace p, s.record (Call.ConfigSSH p))) st4 with
    | (some err, st5) => (Except.error err, st5)
    | (none, st5) =>
      match env.OsRemove st5.trace env.lockFile with
      | some err => (Except.error (Error.ext err), st5.record (Call.OsRemove env.lockFile))
      | none => (Except.ok cloud, st5.record (Call.OsRemove env.lockFile))

/-- The part of `Sync` that runs after `defer f.Close()` has been registered. -/
def syncLocked (env : Env) (st : State) : Except Error Cloud × State :=
  match env.ListCloud st.trace with
  | Except.error err => (Except.error (Error.ext err), st.record Call.ListCloud)
  | Except.ok cloud =>
    match env.SyncHosts (st.record Call.ListCloud).trace cloud with
    | some err =>
      (Except.error (Error.ext err), (st.record Call.ListCloud).record (Call.SyncHosts cloud))
    | none =>
      syncSSHAndUnlock env cloud
        (syncDNSStep env (cloud.Clusters.flatMap (fun nc => nc.2.VMs))
          ((st.record Call.ListCloud).record (Call.SyncHosts cloud)))

/-- The function `Sync(quiet)`; `quiet` only selects what is printed. -/
def Sync (env : Env) (_quiet : Bool) (st : State) : Except Error Cloud × State :=
  match env.OsCreate st.trace env.lockFile with
  | some err =>
    (Except.error (Error.creatingLockFile env.lockFile (Error.ext err)),
      st.record (Call.OsCreate env.lockFile))
  | none =>
    match env.Flock (st.record (Call.OsCreate env.lockFile)).trace with
    | some err =>
      (Except.error (Error.acquiringLock (Error.ext err)),
        (st.record (Call.OsCreate env.lockFile)).record Call.Flock)
    | none =>
      ((syncLocked env ((st.record (Call.OsCreate env.lockFile)).record Call.Flock)).1,
        (syncLocked env ((st.record (Call.OsCreate env.lockFile)).record Call.Flock)).2.record
          Call.FileClose)

/-! ## SetupSSH -/

/-- The loop of `SetupSSH` over `installCluster.VMs`: `Users[i]` becomes `config.OSUser` when
`cloudCluster.VMs[i]` is a GCE machine; `none` when an index is out of range. -/
def setGceUsers (env : Env) (cloudVMs : List VM) :
    Nat → Nat → List String → Option (List String)
  | 0, _, users => some users
  | n + 1, i, users =>
    match cloudVMs.get? i with
    | none => none
    | some v =>
      if v.Provider = env.gceProviderName then
        if i < users.length then setGceUsers env cloudVMs n (i + 1) (users.set i env.OSUser)
        else none
      else setGceUsers env cloudVMs n (i + 1) users

/-- The end of `SetupSSH`: wait for the nodes, fetch the authorized keys, which are assigned
to the install cluster together with the error, and set up SSH on the install cluster. -/
def setupSSHKeys (env : Env) (clusterOpts : SyncedCluster) (ic1 : SyncedCluster)
    (st : State) : Option Error × State :=
  match env.Wait st.trace ic1 with
  | some err => (some (Error.ext err), st.record (Call.Wait ic1))
  | none =>
    match (env.GetUserAuthorizedKeys (st.record (Call.Wait ic1)).trace).2 with
    | some err =>
      (some (Error.failedAuthorizedKeys (Error.ext err)),
        setCluster ((st.record (Call.Wait ic1)).record Call.GetUserAuthorizedKeys)
          (registryKey clusterOpts.Name)
          { ic1 with
            AuthorizedKeys := (env.GetUserAuthorizedKeys (st.record (Call.Wait ic1)).trace).1 })
    | none =>
      (liftErr (env.InstallSetupSSH
          ((st.record (Call.Wait ic1)).record Call.GetUserAuthorizedKeys).trace
          { ic1 with
            AuthorizedKeys := (env.GetUserAuthorizedKeys (st.record (Call.Wait ic1)).trace).1 }),
        (setCluster ((st.record (Call.Wait ic1)).record Call.GetUserAuthorizedKeys)
          (registryKey clusterOpts.Name)
          { ic1 with
            AuthorizedKeys :=
              (env.GetUserAuthorizedKeys (st.record (Call.Wait ic1)).trace).1 }).record
            (Call.InstallSetupSSH
              { ic1 with
                AuthorizedKeys :=
                  (env.GetUserAuthorizedKeys (st.record (Call.Wait ic1)).trace).1 }))

/-- The part of `SetupSSH` on the install cluster: the registry is emptied and loaded again,
the cluster is looked up and the users of its GCE machines are set. -/
def setupSSHInstall (env : Env) (clusterOpts : SyncedCluster) (cloudCluster : Cluster)
    (st : State) : Option Error × State :=
  match (env.LoadClusters st.trace).1 with
  | some err =>
    (some (Error.ext err),
      { st.record Call.LoadClusters with Clusters := (env.LoadClusters st.trace).2 })
  | none =>
    match newCluster env clusterOpts
        { st.record Call.LoadClusters with Clusters := (env.LoadClusters st.trace).2 } with
    | (Except.error err, st5) => (some err, st5)
    | (Except.ok installCluster, st5) =>
      match setGceUsers env cloudCluster.VMs installCluster.VMs.length 0
          installCluster.Users with
      | none => (some Error.runtimePanic, st5)
      | some users =>
        setupSSHKeys env clusterOpts { installCluster with Users := users }
          (setCluster st5 (registryKey clusterOpts.Name) { installCluster with Users := users })

/-- The function `SetupSSH(clusterOpts, username)`. -/
def SetupSSH (env : Env) (clusterOpts : SyncedCluster) (username : String) (st : State) :
    Option Error × State :=
  match verifyClusterName env clusterOpts.Name username st with
  | (Except.error err, st1) => (some err, st1)
  | (Except.ok clusterName, st1) =>
    match Sync env clusterOpts.Quiet st1 with
    | (Except.error err, st2) => (some err, st2)
    | (Except.ok cloud, st2) =>
      match cloud.Clusters.lookup clusterName with
      | none => (some (Error.couldNotFindCluster clusterName), st2)
      | some cloudCluster =>
        setupSSHInstall env clusterOpts cloudCluster
          (cloudCluster.VMs.foldl (fun s v => s.record (Call.SshKeygenR v.PublicIP)) st2)

/-! ## Destroy -/

/-- The function `destroyCluster(cloud, clusterName)`. -/
def destroyCluster (env : Env) (cloud : Cloud) (clusterName : String) (st : State) :
    Option Error × State :=
  match cloud.Clusters.lookup clusterName with
  | none => (some (Error.clusterDoesNotExist clusterName), st)
  | some c => (liftErr (env.DestroyCluster st.trace c), st.record (Call.DestroyCluster c))

/-- The loop of `destroyLocalCluster` that removes the directory of every node. -/
def removeNodeDirs (env : Env) : List Int → State → Option Error × State
  | [], st => (none, st)
  | i :: rest, st =>
    match env.OsRemoveAll st.trace (env.localDir i) with
    | some err => (some (Error.ext err), st.record (Call.OsRemoveAll (env.localDir i)))
    | none => removeNodeDirs env rest (st.record (Call.OsRemoveAll (env.localDir i)))

/-- The function `destroyLocalCluster(clusterOpts)`. -/
def destroyLocalCluster (env : Env) (clusterOpts : SyncedCluster) (st : State) :
    Option Error × State :=
  match st.Clusters.lookup env.Local with
  | none => (some (Error.clusterDoesNotExist env.Local), st)
  | some _ =>
    match newCluster env { clusterOpts with Name := env.Local } st with
    | (Except.error err, st1) => (some err, st1)
    | (Except.ok c, st1) =>
      match removeNodeDirs env c.Nodes (st1.record (Call.Wipe c false)) with
      | (some err, st2) => (some err, st2)
      | (none, st2) =>
        (liftErr (env.OsRemove st2.trace (env.hostFile c.Name)),
          st2.record (Call.OsRemove (env.hostFile c.Name)))

/-- Modelled from the spec: `ctxgroup.GroupWorkers`, declared in package `ctxgroup` outside
this file, runs "one worker per cluster, errors combined across all workers rather than
short-circuited"; the workers are run one after the other, in index order. -/
def GroupWorkers (num : Nat) (f : Nat → State → Option Error × State) (st : State) :
    Option Error × State :=
  (List.range num).foldl
    (fun acc idx => ((CombineErrors acc.1 (f idx acc.2).1), (f idx acc.2).2)) (none, st)

/-- The end of `Destroy`: one worker per collected cluster calls `destroyCluster`. -/
def destroyCollected (env : Env) (cns : List (String × Cloud)) (st : State) :
    Option Error × State :=
  GroupWorkers cns.length
    (fun idx s =>
      match cns.get? idx with
      | some cn => destroyCluster env cn.2 cn.1 s
      | none => (some Error.runtimePanic, s))
    st

/-- The loop of `Destroy` over the named clusters: `cloud` is listed at the first remote name,
a remote name is collected in `cns`, the local cluster is destroyed on the spot. -/
def collectNamed (env : Env) (username : String) :
    List SyncedCluster → Option Cloud → List (String × Cloud) → State →
      Except Error (List (String × Cloud)) × State
  | [], _, cns, st => (Except.ok cns, st)
  | cluster :: rest, cloud, cns, st =>
    match verifyClusterName env cluster.Name username st with
    | (Except.error err, st1) => (Except.error err, st1)
    | (Except.ok clusterName, st1) =>
      if clusterName ≠ env.Local then
        match cloud with
        | some cl => collectNamed env username rest (some cl) (cns ++ [(clusterName, cl)]) st1
        | none =>
          match env.ListCloud st1.trace with
          | Except.error err => (Except.error (Error.ext err), st1.record Call.ListCloud)
          | Except.ok cl =>
            collectNamed env username rest (some cl) (cns ++ [(clusterName, cl)])
              (st1.record Call.ListCloud)
      else
        match destroyLocalCluster env cluster st1 with
        | (some err, st2) => (Except.error err, st2)
        | (none, st2) => collectNamed env username rest cloud cns st2

/-- The function `Destroy(clusters, destroyAllMine, username)`. -/
def Destroy (env : Env) (clusters : List SyncedCluster) (destroyAllMine : Bool)
    (username : String) (st : State) : Option Error × State :=
  match clusters with
  | [] =>
    if !destroyAllMine then (some Error.noClusterNameProvided, st)
    else
      match userClusterNameRegexp env st with
      | (Except.error err, st1) => (some err, st1)
      | (Except.ok destroyPattern, st1) =>
        match env.ListCloud st1.trace with
        | Except.error err => (some (Error.ext err), st1.record Call.ListCloud)
        | Except.ok cloud =>
          destroyCollected env
            ((cloud.Clusters.filter (fun nc => destroyPattern.MatchString nc.1)).map
              (fun nc => (nc.1, cloud)))
            (st1.record Call.ListCloud)
  | _ :: _ =>
    if destroyAllMine then (some Error.allMineWithClusterNames, st)
    else
      match collectNamed env username clusters none [] st with
      | (Except.error err, st1) => (some err, st1)
      | (Except.ok cns, st1) => destroyCollected env cns st1

/-! ## Create -/

/-- The function `cleanupFailedCreate(clusterName)`. -/
def cleanupFailedCreate (env : Env) (clusterName : String) (st : State) :
    Option Error × State :=
  match env.ListCloud st.trace with
  | Except.error err => (some (Error.ext err), st.record Call.ListCloud)
  | Except.ok cloud =>
    match cloud.Clusters.lookup clusterName with
    | none => (none, st.record Call.ListCloud)
    | some c =>
      (liftErr (env.DestroyCluster (st.record Call.ListCloud).trace c),
        (st.record Call.ListCloud).record (Call.DestroyCluster c))

/-- The deferred function of `Create`, run with the value `retErr` that `Create` is about to
return; while a panic unwinds `retErr` is still nil.  The outcome of the cleanup is only
printed. -/
def createDeferred (env : Env) (clusterName : String) (retErr : Option Error) (st : State) :
    State :=
  match retErr with
  | none => st
  | some Error.runtimePanic => st
  | some err =>
    if clusterName = env.Local then st
    else if isClusterAlreadyExists err then st
    else (cleanupFailedCreate env clusterName st).2

/-- The loop of `Create` that makes the directory of every node of the local cluster. -/
def makeNodeDirs (env : Env) : List Nat → State → Option Error × State
  | [], st => (none, st)
  | i :: rest, st =>
    match env.OsMkdirAll st.trace (env.localDir ((i : Int) + 1)) with
    | some err =>
      (some (Error.ext err), st.record (Call.OsMkdirAll (env.localDir ((i : Int) + 1))))
    | none => makeNodeDirs env rest (st.record (Call.OsMkdirAll (env.localDir ((i : Int) + 1))))

/-- The part of `Create` from the file-system check on; `createVMOpts` has its cluster name
and providers set. -/
def createProvision (env : Env) (numNodes : Int) (username : String)
    (createVMOpts : CreateOpts) (clusterOpts : SyncedCluster) (clusterName : String)
    (st : State) : Option Error × State :=
  if createVMOpts.FileSystem = env.Zfs ∧
      createVMOpts.VMProviders.any (fun provider => provider != env.gceProviderName) then
    (some Error.zfsOnlyOnGce, st)
  else
    match env.CreateCluster st.trace numNodes createVMOpts with
    | some createErr =>
      (some (Error.ext createErr), st.record (Call.CreateCluster numNodes createVMOpts))
    | none =>
      let st1 := st.record (Call.CreateCluster numNodes createVMOpts)
      if clusterName = env.Local then
        makeNodeDirs env (List.range numNodes.toNat) st1
      else
        SetupSSH env clusterOpts username st1

/-- The part of `Create` that the deferred function guards: the existence check and the
provisioning. -/
def createGuarded (env : Env) (numNodes : Int) (username : String)
    (createVMOpts : CreateOpts) (clusterOpts : SyncedCluster) (clusterName : String)
    (st : State) : Option Error × State :=
  if clusterName ≠ env.Local then
    match env.ListCloud st.trace with
    | Except.error err => (some (Error.ext err), st.record Call.ListCloud)
    | Except.ok cloud =>
      match cloud.Clusters.lookup clusterName with
      | some _ => (some (Error.clusterAlreadyExists clusterName), st.record Call.ListCloud)
      | none =>
        createProvision env numNodes username createVMOpts clusterOpts clusterName
          (st.record Call.ListCloud)
  else
    match st.Clusters.lookup clusterName with
    | some _ => (some (Error.clusterAlreadyExists clusterName), st)
    | none =>
      createProvision env numNodes username
        { createVMOpts with VMProviders := [env.localProviderName] } clusterOpts clusterName st

/-- The function `Create(numNodes, username, createVMOpts, clusterOpts)`. -/
def Create (env : Env) (numNodes : Int) (username : String) (createVMOpts : CreateOpts)
    (clusterOpts : SyncedCluster) (st : State) : Option Error × State :=
  if numNodes ≤ 0 ∨ numNodes ≥ 1000 then
    (some Error.numNodesOutOfRange, st)
  else
    match verifyClusterName env clusterOpts.Name username st with
    | (Except.error err, st1) => (some err, st1)
    | (Except.ok clusterName, st1) =>
      let r := createGuarded env numNodes username
        { createVMOpts with ClusterName := clusterName } clusterOpts clusterName st1
      (r.1, createDeferred env clusterName r.1 r.2)

/-! ## GC -/

/-- The function `GC(dryrun, slackToken)`. -/
def GC (env : Env) (dryrun : Bool) (slackToken : String) (st : State) :
    Option Error × State :=
  let st0 := { st with SlackToken := slackToken }
  let st1 := st0.record Call.ListCloud
  match env.ListCloud st0.trace with
  | Except.ok cloud =>
    let err := liftErr (env.GCClusters st1.trace cloud dryrun)
    let st2 := st1.record (Call.GCClusters cloud dryrun)
    let otherErr := liftErr (env.GCAWSKeyPairs st2.trace dryrun)
    (CombineErrors err otherErr, st2.record (Call.GCAWSKeyPairs dryrun))
  | Except.error e =>
    let err := some (Error.ext e)
    let otherErr := liftErr (env.GCAWSKeyPairs st1.trace dryrun)
    (CombineErrors err otherErr, st1.record (Call.GCAWSKeyPairs dryrun))

/-! ## Node addresses -/

/-- Modelled from the spec: `ParallelE` of an install cluster, declared in package `install`
outside this file, "executes `fn` once per index in `[0, itemCount)`", "never aborts early"
and returns "the full list of per-index failures" in index order "and a single combined error
that is non-nil iff the failure list is non-empty"; the workers are run one after the other,
in index order, on a state of type `σ` that they share. -/
def ParallelE {σ : Type} (count : Nat) (fn : Nat → σ → Option Error × σ) (s : σ) :
    List (Nat × Error) × Option Error × σ :=
  (List.range count).foldl
    (fun acc i =>
      match fn i acc.2.2 with
      | (some err, s1) => (acc.1 ++ [(i, err)], CombineErrors acc.2.1 (some err), s1)
      | (none, s1) => (acc.1, acc.2.1, s1))
    ([], none, s)

/-- Modelled from the spec: `Parallel` of an install cluster, the executor of `ParallelE`
used where the file takes no result from it; the failures are not returned. -/
def Parallel {σ : Type} (count : Nat) (fn : Nat → σ → Option Error × σ) (s : σ) : σ :=
  (ParallelE count fn s).2.2

/-- The element `c.VMs[node-1]`; `none` when the index is out of range. -/
def vmOfNode (c : SyncedCluster) (node : Int) : Option String :=
  if node - 1 < 0 then none else c.VMs[(node - 1).toNat]?

/-- The loop `ips[i] = c.VMs[nodes[i]-1]` of `IP` and `PgURL` over the indices of `nodes`;
`none` when an index is out of range. -/
def externalIPs (c : SyncedCluster) : List Int → Option (List String)
  | [] => some []
  | node :: rest =>
    match vmOfNode c node with
    | none => none
    | some ip =>
      match externalIPs c rest with
      | none => none
      | some ips => some (ip :: ips)

/-- The worker of `IP` and `PgURL` for the internal addresses:
`ips[i], err = c.GetInternalIP(nodes[i])`. -/
def internalIPWorker (env : Env) (c : SyncedCluster) (nodes : List Int) (i : Nat)
    (s : State × List String) : Option Error × (State × List String) :=
  match nodes[i]? with
  | none => (some Error.runtimePanic, s)
  | some node =>
    (liftErr (env.GetInternalIP s.1.trace c node).2,
      (s.1.record (Call.GetInternalIP node),
        s.2.set i (env.GetInternalIP s.1.trace c node).1))

/-- The addresses collected by `IP` and `PgURL` for the nodes `nodes` of the cluster `c`. -/
def nodeIPs (env : Env) (c : SyncedCluster) (nodes : List Int) (external : Bool)
    (st : State) : Option (List String) × State :=
  if external then (externalIPs c nodes, st)
  else
    (some (Parallel nodes.length (internalIPWorker env c nodes)
        (st, List.replicate nodes.length "")).2,
      (Parallel nodes.length (internalIPWorker env c nodes)
        (st, List.replicate nodes.length "")).1)

/-- The function `IP(clusterOpts, external)`. -/
def IP (env : Env) (clusterOpts : SyncedCluster) (external : Bool) (st : State) :
    Except Error (List String) × State :=
  match newCluster env clusterOpts st with
  | (Except.error err, st1) => (Except.error err, st1)
  | (Except.ok c, st1) =>
    match nodeIPs env c (env.ServerNodes c) external st1 with
    | (none, st2) => (Except.error Error.runtimePanic, st2)
    | (some ips, st2) => (Except.ok ips, st2)

/-- The loop of `PgURL` over `ips`: an empty address is an error, else the URL of the node
`nodes[i]` is appended to `urls`. -/
def pgURLs (env : Env) (c : SyncedCluster) (nodes : List Int) (allIPs : List String) :
    Nat → List String → List String → State → Except Error (List String) × State
  | _, [], urls, st => (Except.ok urls, st)
  | i, ip :: rest, urls, st =>
    if ip = "" then (Except.error (Error.emptyIP allIPs), st)
    else
      match nodes[i]? with
      | none => (Except.error Error.runtimePanic, st)
      | some node =>
        pgURLs env c nodes allIPs (i + 1) rest
          (urls ++ [env.NodeURL c ip (env.NodePort c node)]) (st.record (Call.NodePort node))

/-- The function `PgURL(clusterOpts, external)`. -/
def PgURL (env : Env) (clusterOpts : SyncedCluster) (external : Bool) (st : State) :
    Option Error × State :=
  match newCluster env clusterOpts st with
  | (Except.error err, st1) => (some err, st1)
  | (Except.ok c, st1) =>
    match nodeIPs env c (env.ServerNodes c) external st1 with
    | (none, st2) => (some Error.runtimePanic, st2)
    | (some ips, st2) =>
      match pgURLs env c (env.ServerNodes c) ips 0 ips [] st2 with
      | (Except.error err, st3) => (some err, st3)
      | (Except.ok urls, st3) =>
        if urls.length ≠ (env.ServerNodes c).length then
          (some (Error.urlsMismatch (env.ServerNodes c) urls ips), st3)
        else (none, st3)

/-! ## Pprof -/

/-- The verb `%04d` for a number that is not negative: at least four digits, zeros first. -/
def pad4 (n : Nat) : String :=
  String.mk (List.replicate (4 - (toString n).length) '0') ++ toString n

/-- The end of a worker of `Pprof` once the response is there: the status is checked, the
body is copied into the temporary file, which is synced, closed and renamed to the output
file.  The second component is the output file when every step has worked. -/
def pprofSave (env : Env) (file outputFile : String) (resp : Int × String) (st : State) :
    Option Error × Option String × State :=
  if resp.1 ≠ 200 then (some (Error.unexpectedStatus resp.2), none, st)
  else
    match env.IoCopy st.trace file with
    | some err => (some (Error.ext err), none, st.record (Call.IoCopy file))
    | none =>
      match env.FileSync (st.record (Call.IoCopy file)).trace file with
      | some err =>
        (some (Error.ext err), none, (st.record (Call.IoCopy file)).record (Call.FileSync file))
      | none =>
        match env.TempFileClose
            ((st.record (Call.IoCopy file)).record (Call.FileSync file)).trace file with
        | some err =>
          (some (Error.ext err), none,
            ((st.record (Call.IoCopy file)).record (Call.FileSync file)).record
              (Call.TempFileClose file))
        | none =>
          (liftErr (env.OsRename
              (((st.record (Call.IoCopy file)).record (Call.FileSync file)).record
                (Call.TempFileClose file)).trace file outputFile),
            (match env.OsRename
                (((st.record (Call.IoCopy file)).record (Call.FileSync file)).record
                  (Call.TempFileClose file)).trace file outputFile with
              | some _ => none
              | none => some outputFile),
            (((st.record (Call.IoCopy file)).record (Call.FileSync file)).record
              (Call.TempFileClose file)).record (Call.OsRename file outputFile))

/-- The part of a worker of `Pprof` between the creation of the temporary file and its
deferred functions: the profile is fetched from `pprofURL`; `resp.Body.Close()` is deferred
once the response is there. -/
def pprofDownload (env : Env) (file outputFile pprofURL : String) (st : State) :
    Option Error × Option String × State :=
  match env.HttpGet st.trace pprofURL with
  | Except.error err => (some (Error.ext err), none, st.record (Call.HttpGet pprofURL))
  | Except.ok resp =>
    ((pprofSave env file outputFile resp (st.record (Call.HttpGet pprofURL))).1,
      (pprofSave env file outputFile resp (st.record (Call.HttpGet pprofURL))).2.1,
      (pprofSave env file outputFile resp (st.record (Call.HttpGet pprofURL))).2.2.record
        Call.BodyClose)

/-- The worker that `Pprof` hands to `ParallelE`, for the index `i`.  The state it shares
with the other workers is the program state and `outputFiles`.  The deferred close and
removal of the temporary file only print their errors. -/
def pprofWorker (env : Env) (c : SyncedCluster) (profType : String) (startTime : Int)
    (pprofPath : String) (i : Nat) (s : State × List String) :
    Option Error × (State × List String) :=
  match c.VMs[i]? with
  | none => (some Error.runtimePanic, s)
  | some host =>
    let port := env.GetAdminUIPort (env.NodePort c (i : Int))
    let scheme := if c.Secure then "https" else "http"
    let outputFile :=
      "pprof-" ++ profType ++ "-" ++ toString startTime ++ "-" ++ c.Name ++ "-" ++
        pad4 (i + 1) ++ ".out"
    let outputDir := env.filepathDir outputFile
    let st1 := s.1.record (Call.NodePort (i : Int))
    match env.TempFile st1.trace outputDir with
    | Except.error err =>
      (some (Error.createTmpfile (Error.ext err)), (st1.record (Call.TempFile outputDir), s.2))
    | Except.ok file =>
      let pprofURL := scheme ++ "://" ++ host ++ ":" ++ toString port ++ "/" ++ pprofPath
      let r := pprofDownload env file outputFile pprofURL (st1.record (Call.TempFile outputDir))
      (r.1,
        ((r.2.2.record (Call.TempFileClose file)).record (Call.OsRemove file),
          match r.2.1 with
          | some created => s.2 ++ [created]
          | none => s.2))

/-- The first loop of the `open` branch of `Pprof`: `go tool pprof` is started for every
output file, on the port `startingPort + i`. -/
def pprofStart (env : Env) (startingPort : Int) :
    Nat → List String → State → Option Error × State
  | _, [], st => (none, st)
  | i, file :: rest, st =>
    match env.CmdStart st.trace (startingPort + (i : Int)) file with
    | some err =>
      (some (Error.ext err), st.record (Call.CmdStart (startingPort + (i : Int)) file))
    | none =>
      pprofStart env startingPort (i + 1) rest
        (st.record (Call.CmdStart (startingPort + (i : Int)) file))

/-- The second loop of the `open` branch of `Pprof`: wait for every command started. -/
def pprofWait (env : Env) (startingPort : Int) :
    Nat → List String → State → Option Error × State
  | _, [], st => (none, st)
  | i, file :: rest, st =>
    match env.CmdWait st.trace (startingPort + (i : Int)) file with
    | some err =>
      (some (Error.ext err), st.record (Call.CmdWait (startingPort + (i : Int)) file))
    | none =>
      pprofWait env startingPort (i + 1) rest
        (st.record (Call.CmdWait (startingPort + (i : Int)) file))

/-- The part of `Pprof` on the cluster `c` that `newCluster` returned. -/
def pprofCluster (env : Env) (c : SyncedCluster) (seconds : Int) (heap openProfiles : Bool)
    (startingPort : Int) (st : State) : Option Error × State :=
  let profType := if heap then "heap" else "profile"
  let pprofPath := "debug/pprof/" ++ profType ++ "?seconds=" ++ toString seconds
  let startTime := env.NowUnix st.trace
  let r := ParallelE (env.ServerNodes c).length (pprofWorker env c profType startTime pprofPath)
    (st, [])
  match r.2.1 with
  | some _ => (some Error.exitUnspecified, r.2.2.1)
  | none =>
    if openProfiles then
      match pprofStart env startingPort 0 r.2.2.2 r.2.2.1 with
      | (some err, st1) => (some err, st1)
      | (none, st1) => pprofWait env startingPort 0 r.2.2.2 st1
    else (none, r.2.2.1)

/-- The function `Pprof(clusterOpts, duration, heap, open, startingPort)`.  The duration
enters through `seconds`, which stands for `int(duration.Seconds())`; the timeout of the
HTTP client is left out. -/
def Pprof (env : Env) (clusterOpts : SyncedCluster) (seconds : Int)
    (heap openProfiles : Bool) (startingPort : Int) (st : State) : Option Error × State :=
  match newCluster env clusterOpts st with
  | (Except.error err, st1) => (some err, st1)
  | (Except.ok c, st1) => pprofCluster env c seconds heap openProfiles startingPort st1

/-! ## List -/

/-- The first part of `List`: the pattern the clusters are listed by, as its method
`MatchString`.  It starts as `regexp.MustCompile(".*")`, which matches every name. -/
def listPattern (env : Env) (listMine : Bool) (clusterNamePattern : String) (st : State) :
    Except Error (String → Bool) × State :=
  if clusterNamePattern = "" then
    if listMine then
      match userClusterNameRegexp env st with
      | (Except.error err, st1) => (Except.error err, st1)
      | (Except.ok r, st1) => (Except.ok r.MatchString, st1)
    else (Except.ok (fun _ => true), st)
  else
    if listMine then (Except.error Error.mineWithPattern, st)
    else
      match env.CompilePattern clusterNamePattern with
      | Except.error err =>
        (Except.error (Error.couldNotCompilePattern clusterNamePattern (Error.ext err)), st)
      | Except.ok matcher => (Except.ok matcher, st)

/-- The statement `delete(m, name)` on a map of clusters. -/
def deleteCluster (m : List (String × Cluster)) (name : String) : List (String × Cluster) :=
  m.filter (fun e => e.1 != name)

/-- The memory when `Sync` has returned `cloud`: the map `cloud.Clusters` is at address 0,
and there is no other map. -/
def syncedMaps (cloud : Cloud) : Maps :=
  fun addr => if addr = 0 then cloud.Clusters else []

/-- The statement `delete(m, name)` on the map `m` at the address `addr`. -/
def deleteAt (maps : Maps) (addr : Nat) (name : String) : Maps :=
  fun a => if a = addr then deleteCluster (maps a) name else maps a

/-- The loop of `List` over the names of `cloud.Clusters`: a name the pattern does not match
is deleted from `filteredCloud.Clusters`, the map at the address `filteredCloud`. -/
def filterClusters (matcher : String → Bool) : List String → Nat → Maps → Maps
  | [], _, maps => maps
  | name :: rest, filteredCloud, maps =>
    if !matcher name then
      filterClusters matcher rest filteredCloud (deleteAt maps filteredCloud name)
    else filterClusters matcher rest filteredCloud maps

/-- The loop of `List` and its return, when `Clone` has left the maps `cloned` and has
returned the cloud with its map at the address `filteredCloud`: the loop ranges over the
names of `cloud.Clusters`, the map at address 0, and the result is `*filteredCloud` together
with the maps in memory at the return. -/
def listLoop (matcher : String → Bool) (cloned : Maps) (filteredCloud : Nat) : Cloud × Maps :=
  ({ Clusters :=
      filterClusters matcher ((cloned 0).map Prod.fst) filteredCloud cloned filteredCloud },
    filterClusters matcher ((cloned 0).map Prod.fst) filteredCloud cloned)

/-- The function `List(quiet, listMine, clusterNamePattern)`, named `ListClusters` here
because `List` is the type of lists.  Next to the cloud that `List` returns, the result has
the maps of clusters in memory at the return, where address 0 is that of the map of the cloud
that `Sync` returned. -/
def ListClusters (env : Env) (quiet listMine : Bool) (clusterNamePattern : String)
    (st : State) : Except Error (Cloud × Maps) × State :=
  match listPattern env listMine clusterNamePattern st with
  | (Except.error err, st1) => (Except.error err, st1)
  | (Except.ok matcher, st1) =>
    match Sync env quiet st1 with
    | (Except.error err, st2) => (Except.error err, st2)
    | (Except.ok cloud, st2) =>
      (Except.ok (listLoop matcher (env.Clone (syncedMaps cloud) 0).1
          (env.Clone (syncedMaps cloud) 0).2),
        st2)

/-- Modelled from the spec: `vm.DNSSafeAccount`, declared in package `vm` outside this file,
"sanitizes" a provider account name "to a DNS-safe form"; here lower-case letters are kept,
upper-case letters are lowered and every other character is dropped. -/
def dnsSafeAccount (account : String) : String :=
  String.mk (account.data.filterMap (fun r =>
    if decide ('a' ≤ r) && decide (r ≤ 'z') then some r
    else if decide ('A' ≤ r) && decide (r ≤ 'Z') then some r.toLower
    else none))

/-- A quiet environment for examples: every external call succeeds, the cloud is empty and
no account is active. -/
def sampleEnv : Env where
  Local := "local"
  gceProviderName := "gce"
  awsProviderName := "aws"
  localProviderName := "local"
  Zfs := "zfs"
  OSUser := "ubuntu"
  lockFile := "/home/u/.roachprod/LOCK"
  localDir := fun i => "/home/u/local/" ++ toString i
  hostFile := fun name => "/home/u/.roachprod/hosts/" ++ name
  AllProviderNames := ["aws", "gce", "local"]
  DNSSafeAccount := dnsSafeAccount
  ListNodes := fun _ n => Except.ok ((List.range n).map (fun i => (i : Int) + 1))
  ProviderActive := fun _ => true
  gceProjects := ["cockroach-ephemeral"]
  gceDefaultProject := "cockroach-ephemeral"
  FindActiveAccounts := fun _ => Except.ok []
  ListCloud := fun _ => Except.ok { Clusters := [] }
  CreateCluster := fun _ _ _ => none
  DestroyCluster := fun _ _ => none
  GCClusters := fun _ _ _ => none
  GCAWSKeyPairs := fun _ _ => none
  OsCreate := fun _ _ => none
  Flock := fun _ => none
  SyncHosts := fun _ _ => none
  SyncDNS := fun _ _ => none
  CleanSSH := fun _ _ => none
  ConfigSSH := fun _ _ => none
  OsRemove := fun _ _ => none
  OsRemoveAll := fun _ _ => none
  OsMkdirAll := fun _ _ => none
  LoadClusters := fun _ => (none, [])
  Wait := fun _ _ => none
  GetUserAuthorizedKeys := fun _ => ("", none)
  InstallSetupSSH := fun _ _ => none
  IsTerminal := fun _ => true
  ServerNodes := fun c => c.Nodes
  NodePort := fun _ node => 26257 + (node - 1) * 2
  GetAdminUIPort := fun connPort => connPort + 1
  NodeURL := fun _ ip port => "postgres://root@" ++ ip ++ ":" ++ toString port
  GetInternalIP := fun _ _ node => ("10.1.0." ++ toString node, none)
  NowUnix := fun _ => 1600000000
  filepathDir := fun _ => "."
  TempFile := fun tr _ => Except.ok (".pprof" ++ toString tr.length)
  HttpGet := fun _ _ => Except.ok (200, "200 OK")
  IoCopy := fun _ _ => none
  FileSync := fun _ _ => none
  TempFileClose := fun _ _ => none
  OsRename := fun _ _ _ => none
  CmdStart := fun _ _ _ => none
  CmdWait := fun _ _ _ => none
  CompilePattern := fun pattern =>
    match regexpCompile pattern with
    | Except.ok r => Except.ok r.MatchString
    | Except.error _ => Except.error { msg := "error parsing regexp" }
  -- a map at the next address with the entries of the map of the receiver
  Clone := fun maps addr => (fun a => if a = addr + 1 then maps addr else maps a, addr + 1)

/-- Options of an operation that name the cluster `name` and are otherwise those of
`DefaultSyncedCluster()`. -/
def sampleOpts (name : String) : SyncedCluster :=
  { Name := name, Tag := "", CertsDir := "./certs", Secure := false, Quiet := false,
    UseTreeDist := true, Args := [],
    Env := ["COCKROACH_ENABLE_RPC_COMPRESSION=false",
      "COCKROACH_UI_RELEASE_NOTES_SIGNUP_DISMISSED=true"],
    NumRacks := 0, MaxConcurrency := 32, ImplCockroach := false, Localities := [], VMs := [],
    Users := [], Nodes := [], AuthorizedKeys := "" }

/-- Whether a call is a `cld.DestroyCluster`. -/
def Call.isDestroyCluster : Call → Bool
  | Call.DestroyCluster _ => true
  | _ => false

/-- Whether a call is a `gce.SyncDNS`. -/
def Call.isSyncDNS : Call → Bool
  | Call.SyncDNS _ => true
  | _ => false

/-- Whether a call is a `cld.CreateCluster`. -/
def Call.isCreateCluster : Call → Bool
  | Call.CreateCluster _ _ => true
  | _ => false

/-- A GCE machine of the cluster `alice-perf`. -/
def alicePerfVM : VM :=
  { Name := "alice-perf-0001", Provider := "gce", PublicIP := "10.0.0.1" }

/-- The cloud cluster `alice-perf` with one GCE machine. -/
def alicePerf : Cluster :=
  { Name := "alice-perf", VMs := [alicePerfVM] }

/-- An environment with the active account `alice` whose cloud holds the cluster
`alice-perf`. -/
def aliceEnv : Env :=
  { sampleEnv with
    FindActiveAccounts := fun _ => Except.ok ["alice"],
    ListCloud := fun _ => Except.ok { Clusters := [("alice-perf", alicePerf)] } }

/-- An environment with the active account `alice` in which `cld.CreateCluster` fails and
leaves the cluster `alice-perf` behind: the cloud is empty until `CreateCluster` has been
called, and the cleanup fails as well. -/
def failingCreateEnv : Env :=
  { sampleEnv with
    FindActiveAccounts := fun _ => Except.ok ["alice"],
    ListCloud := fun tr =>
      if tr.any Call.isCreateCluster then Except.ok { Clusters := [("alice-perf", alicePerf)] }
      else Except.ok { Clusters := [] },
    CreateCluster := fun _ _ _ => some { msg := "quota exceeded" },
    DestroyCluster := fun _ _ => some { msg := "destroy failed" } }

/-- An environment with the active account `alice` and an empty cloud. -/
def aliceEmptyEnv : Env :=
  { sampleEnv with FindActiveAccounts := fun _ => Except.ok ["alice"] }

/-- An environment with the active account `alice` in which the cluster `alice-perf` shows up
in the cloud between the first listing and the second. -/
def racingEnv : Env :=
  { sampleEnv with
    FindActiveAccounts := fun _ => Except.ok ["alice"],
    ListCloud := fun tr =>
      if tr.contains Call.ListCloud then Except.ok { Clusters := [("alice-perf", alicePerf)] }
      else Except.ok { Clusters := [] } }

/-- An environment in which all providers are active and the DNS refresh fails. -/
def failingDNSEnv : Env :=
  { aliceEnv with SyncDNS := fun _ _ => some { msg := "dns update failed" } }

/-- An environment in which the cloud cannot be listed. -/
def failingListEnv : Env :=
  { sampleEnv with ListCloud := fun _ => Except.error { msg := "cannot list gce" } }

/-- An environment in which the `CleanSSH` of every provider fails. -/
def failingCleanSSHEnv : Env :=
  { aliceEnv with CleanSSH := fun _ _ => some { msg := "cannot clean ssh" } }

/-- An environment with the active accounts `Alice`, `alice` and `Alice` again. -/
def twoAlicesEnv : Env :=
  { sampleEnv with FindActiveAccounts := fun _ => Except.ok ["Alice", "alice", "Alice"] }

/-- The registry entry of the local cluster with three nodes, the first without a locality. -/
def localCluster : SyncedCluster :=
  { sampleOpts "local" with
    Localities := ["", "zone=a", "zone=b"], VMs := ["h1", "h2", "h3"],
    Users := ["u", "u", "u"] }

/-- A state whose registry holds the local cluster and no call has been made. -/
def localState : State :=
  { trace := [], Clusters := [("local", localCluster)], SlackToken := "" }

/-- Options that name the local cluster, ask for two racks and are quiet. -/
def twoRacksOpts : SyncedCluster :=
  { sampleOpts "local" with NumRacks := 2, Quiet := true }

/-- An environment whose `install.ListNodes` reads the node list `2-3`. -/
def nodeListEnv : Env :=
  { sampleEnv with
    ListNodes := fun nodeNames n =>
      if nodeNames = "2-3" then Except.ok [2, 3]
      else Except.ok ((List.range n).map (fun i => (i : Int) + 1)) }

/-- Options that select the nodes 2 and 3 of the local cluster and are quiet. -/
def nodes23Opts : SyncedCluster :=
  { sampleOpts "local:2-3" with Quiet := true }

/-- The cloud cluster `bob-test` without machines. -/
def bobTest : Cluster :=
  { Name := "bob-test", VMs := [] }

/-- An environment with the active account `alice` whose cloud holds the clusters
`alice-perf` and `bob-test`. -/
def twoOwnersEnv : Env :=
  { sampleEnv with
    FindActiveAccounts := fun _ => Except.ok ["alice"],
    ListCloud := fun _ =>
      Except.ok { Clusters := [("alice-perf", alicePerf), ("bob-test", bobTest)] } }

/-- The expression that the pattern `(^alice-)` compiles to. -/
def aliceGroup : Regexp :=
  Regexp.group (catList (Regexp.bol :: "alice-".data.map Regexp.lit))

/-- The clusters of the cloud of `twoOwnersEnv`. -/
def twoOwnersClusters : List (String × Cluster) :=
  [("alice-perf", alicePerf), ("bob-test", bobTest)]

/-- The environment `twoOwnersEnv` with a `Clone` that returns a cloud sharing the map of
clusters of its receiver. -/
def sharedMapEnv : Env :=
  { twoOwnersEnv with Clone := fun maps addr => (maps, addr) }

/-- An environment with the active accounts `bob`, `alice` and `bob` again. -/
def bobAliceEnv : Env :=
  { sampleEnv with FindActiveAccounts := fun _ => Except.ok ["bob", "alice", "bob"] }

/-- The state of a process that has made no call yet and has an empty registry. -/
def initialState : State :=
  { trace := [], Clusters := [], SlackToken := "" }

/-! ## Theorems -/

theorem utf8ByteSize_eq_zero_iff (s : String) : s.utf8ByteSize = 0 ↔ s = "" := by
  cases s with
  | mk cs =>
    simp only [String.utf8ByteSize_mk, String.utf8Len_eq_zero]
    constructor
    · intro h; subst h; rfl
    · intro h; exact congrArg String.data h

theorem alphaNumMatchString_empty : alphaNumMatchString "" = false := rfl

/-- C1: a cluster name that does not match `^[a-zA-Z0-9\-]+$` (the empty name included) is
rejected by `verifyClusterName` with an error and no name, whatever the username override and
whatever the active accounts are; the accounts are not even looked up.  The reserved name
`config.Local` is declared outside the file and is assumed to match the pattern itself. -/
theorem verifyClusterName_rejects_unmatched (env : Env)
    (hLocal : alphaNumMatchString env.Local = true)
    (clusterName username : String) (st : State)
    (h : alphaNumMatchString clusterName = false) :
    verifyClusterName env clusterName username st =
      (Except.error (if clusterName = "" then Error.blankClusterName
        else Error.clusterNameMustMatch alphaNumPattern), st) := by
  unfold verifyClusterName
  by_cases h0 : clusterName = ""
  · subst h0
    simp [String.utf8ByteSize]
  · have hne : clusterName.utf8ByteSize ≠ 0 := fun hz => h0 ((utf8ByteSize_eq_zero_iff _).1 hz)
    have hl : clusterName ≠ env.Local := by
      intro heq
      rw [heq, hLocal] at h
      exact Bool.noConfusion h
    simp [hne, hl, h, h0]

theorem verifyClusterName_rejects_unmatched_witness :
    alphaNumMatchString sampleEnv.Local = true ∧ alphaNumMatchString "bad_name" = false ∧
    verifyClusterName sampleEnv "bad_name" "alice" initialState =
      (Except.error (if "bad_name" = "" then Error.blankClusterName
        else Error.clusterNameMustMatch alphaNumPattern), initialState) :=
  ⟨by decide, by decide,
    verifyClusterName_rejects_unmatched sampleEnv (by decide) "bad_name" "alice" initialState
      (by decide)⟩

theorem collectAccounts_subset (clean : String → String) (active seen accounts : List String) :
    ∀ x ∈ accounts, x ∈ collectAccounts clean active seen accounts := by
  induction active generalizing seen accounts with
  | nil => intro x hx; simpa [collectAccounts] using hx
  | cons a rest ih =>
    intro x hx
    unfold collectAccounts
    split
    · exact ih _ _ x hx
    · exact ih _ _ x (List.mem_append_left _ hx)

theorem collectAccounts_mem (clean : String → String) (active seen accounts : List String)
    (hseen : ∀ x ∈ seen, clean x ∈ accounts) (a : String) (ha : a ∈ active) :
    clean a ∈ collectAccounts clean active seen accounts := by
  induction active generalizing seen accounts with
  | nil => cases ha
  | cons b rest ih =>
    unfold collectAccounts
    by_cases hb : seen.contains b = true
    · rw [if_pos hb]
      rcases List.mem_cons.1 ha with rfl | hrest
      · have hmem : a ∈ seen := by simpa using hb
        exact collectAccounts_subset clean rest seen accounts _ (hseen a hmem)
      · exact ih seen accounts hseen hrest
    · rw [if_neg hb]
      have hseen2 : ∀ x ∈ b :: seen, clean x ∈ accounts ++ [clean b] := by
        intro x hx
        rcases List.mem_cons.1 hx with rfl | hx
        · simp
        · exact List.mem_append_left _ (hseen x hx)
      rcases List.mem_cons.1 ha with rfl | hrest
      · exact collectAccounts_subset clean rest _ _ _ (by simp)
      · exact ih _ _ hseen2 hrest

theorem HasPrefix_account_hyphen (account s : String) :
    HasPrefix (account ++ "-" ++ s) (account ++ "-") = true := by
  simp [HasPrefix, String.data_append]

theorem utf8ByteSize_account_hyphen (account s : String) (hs : s ≠ "") :
    (account ++ "-" ++ s).utf8ByteSize > account.utf8ByteSize + 1 := by
  have h1 : (account ++ "-" ++ s).utf8ByteSize
      = account.utf8ByteSize + 1 + s.utf8ByteSize := by
    have e : ∀ t : String, t.utf8ByteSize = String.utf8Len t.data := fun t => rfl
    rw [e, e, e, String.data_append, String.data_append, String.utf8Len_append,
      String.utf8Len_append]
    rfl
  have h2 : s.utf8ByteSize ≠ 0 := fun hz => hs ((utf8ByteSize_eq_zero_iff _).1 hz)
  omega

theorem verifyAgainstAccounts_accepts (account s : String) (accounts : List String)
    (hmem : account ∈ accounts) (hs : s ≠ "") :
    verifyAgainstAccounts (account ++ "-" ++ s) accounts = Except.ok (account ++ "-" ++ s) := by
  unfold verifyAgainstAccounts
  rw [if_pos]
  rw [List.any_eq_true]
  exact ⟨account, hmem, by
    simp [HasPrefix_account_hyphen, utf8ByteSize_account_hyphen account s hs]⟩

/-- C2 (as amended): with no username override and a successful account lookup, for every
active account `a`, with `a1 = vm.DNSSafeAccount(a)` its sanitized form, and every non-empty
suffix `s` such that `a1-s` matches `^[a-zA-Z0-9\-]+$`, `verifyClusterName` returns the name
`a1-s` unchanged and no error. -/
theorem verifyClusterName_accepts_sanitized_account (env : Env) (st : State)
    (active : List String) (a s : String)
    (hActive : env.FindActiveAccounts st.trace = Except.ok active)
    (ha : a ∈ active) (hs : s ≠ "")
    (hm : alphaNumMatchString (env.DNSSafeAccount a ++ "-" ++ s) = true) :
    (verifyClusterName env (env.DNSSafeAccount a ++ "-" ++ s) "" st).1 =
      Except.ok (env.DNSSafeAccount a ++ "-" ++ s) := by
  have hlen := utf8ByteSize_account_hyphen (env.DNSSafeAccount a) s hs
  have hne : (env.DNSSafeAccount a ++ "-" ++ s).utf8ByteSize ≠ 0 := by omega
  unfold verifyClusterName
  rw [if_neg hne]
  by_cases hl : env.DNSSafeAccount a ++ "-" ++ s = env.Local
  · rw [if_pos hl]
  · rw [if_neg hl]
    have hu : ¬ ("" : String).utf8ByteSize > 0 := by decide
    simp only [hm, Bool.not_true, Bool.false_eq_true, if_false, hu, hActive]
    exact verifyAgainstAccounts_accepts _ s _
      (collectAccounts_mem env.DNSSafeAccount active [] [] (by simp) a ha) hs

theorem verifyClusterName_accepts_sanitized_account_witness :
    (verifyClusterName { sampleEnv with FindActiveAccounts := fun _ => Except.ok ["Alice"] }
      (dnsSafeAccount "Alice" ++ "-" ++ "perf") "" initialState).1 =
      Except.ok (dnsSafeAccount "Alice" ++ "-" ++ "perf") :=
  verifyClusterName_accepts_sanitized_account
    { sampleEnv with FindActiveAccounts := fun _ => Except.ok ["Alice"] } initialState
    ["Alice"] "Alice" "perf" rfl (by decide) (by decide) (by decide)

/-- C2 (as stated) fails: with the single active account `Alice`, the name `Alice-perf`
matches the pattern and has the non-empty suffix `perf`, yet `verifyClusterName` rejects it,
because the candidate account is the sanitized `alice`. -/
theorem verifyClusterName_raw_account_rejected :
    "Alice" ∈ ["Alice"] ∧ "perf" ≠ "" ∧
    alphaNumMatchString ("Alice" ++ "-" ++ "perf") = true ∧
    (verifyClusterName { sampleEnv with FindActiveAccounts := fun _ => Except.ok ["Alice"] }
      ("Alice" ++ "-" ++ "perf") "" initialState).1 =
      Except.error (Error.malformedClusterName "Alice-perf" ["alice-perf"]) :=
  ⟨by decide, by decide, by decide, by rfl⟩

theorem emptyMatch_MatchString (name : String) :
    Regexp.emptyMatch.MatchString name = true := by
  unfold Regexp.MatchString
  rw [List.any_eq_true]
  exact ⟨0, by simp, by simp [Regexp.ends]⟩

/-- C3: when the account lookup succeeds with an empty list of active accounts,
`userClusterNameRegexp` does not fail: it compiles the empty pattern, which matches every
cluster name, those of other owners included. -/
theorem userClusterNameRegexp_no_account (env : Env) (st : State)
    (hActive : env.FindActiveAccounts st.trace = Except.ok []) :
    (userClusterNameRegexp env st).1 = Except.ok Regexp.emptyMatch ∧
      ∀ name : String, Regexp.emptyMatch.MatchString name = true := by
  refine ⟨?_, emptyMatch_MatchString⟩
  unfold userClusterNameRegexp
  rw [hActive]
  rfl

theorem userClusterNameRegexp_no_account_witness :
    (userClusterNameRegexp sampleEnv initialState).1 = Except.ok Regexp.emptyMatch ∧
      ∀ name : String, Regexp.emptyMatch.MatchString name = true :=
  userClusterNameRegexp_no_account sampleEnv initialState rfl

/-- With no active account, `Destroy` with `destroyAllMine` destroys the cluster `bob-test`
of another owner. -/
theorem Destroy_all_mine_no_account_example :
    Destroy
      { sampleEnv with
        ListCloud := fun _ =>
          Except.ok { Clusters := [("bob-test", { Name := "bob-test", VMs := [] })] } }
      [] true "" initialState =
    (none,
      { initialState with
        trace := [Call.FindActiveAccounts, Call.ListCloud,
          Call.DestroyCluster { Name := "bob-test", VMs := [] }] }) := by
  rfl

/-! ### Where the errors of `Create` come from -/

theorem verifyAgainstAccounts_ne_numNodes (clusterName : String) (accounts : List String) :
    verifyAgainstAccounts clusterName accounts ≠ Except.error Error.numNodesOutOfRange := by
  unfold verifyAgainstAccounts
  split <;> simp

theorem verifyClusterName_ne_numNodes (env : Env) (clusterName username : String)
    (st : State) :
    (verifyClusterName env clusterName username st).1 ≠
      Except.error Error.numNodesOutOfRange := by
  unfold verifyClusterName
  have h := verifyAgainstAccounts_ne_numNodes clusterName
  repeat' split
  all_goals first
    | exact h _
    | simp

theorem ProvidersSequential_ne_numNodes (named : List String)
    (action : String → State → Option ExtErr × State) (st : State) :
    (ProvidersSequential named action st).1 ≠ some Error.numNodesOutOfRange := by
  induction named generalizing st with
  | nil => simp [ProvidersSequential]
  | cons name rest ih =>
    unfold ProvidersSequential
    split
    · simp
    · exact ih _


theorem syncSSHAndUnlock_ne_numNodes (env : Env) (cloud : Cloud) (st : State) :
    (syncSSHAndUnlock env cloud st).1 ≠ Except.error Error.numNodesOutOfRange := by
  unfold syncSSHAndUnlock
  split
  · rename_i h
    intro hc
    simp only [Except.error.injEq] at hc
    subst hc
    exact ProvidersSequential_ne_numNodes _ _ _ (congrArg Prod.fst h)
  · split
    · rename_i h
      intro hc
      simp only [Except.error.injEq] at hc
      subst hc
      exact ProvidersSequential_ne_numNodes _ _ _ (congrArg Prod.fst h)
    · split <;> simp

theorem syncLocked_ne_numNodes (env : Env) (st : State) :
    (syncLocked env st).1 ≠ Except.error Error.numNodesOutOfRange := by
  unfold syncLocked
  split
  · simp
  · split
    · simp
    · exact syncSSHAndUnlock_ne_numNodes _ _ _

theorem Sync_ne_numNodes (env : Env) (quiet : Bool) (st : State) :
    (Sync env quiet st).1 ≠ Except.error Error.numNodesOutOfRange := by
  unfold Sync
  split
  · simp
  · split
    · simp
    · exact syncLocked_ne_numNodes _ _

theorem newClusterFound_ne_numNodes (env : Env) (opts : SyncedCluster)
    (name nodeNames : String) (c0 : SyncedCluster) (st : State) :
    (newClusterFound env opts name nodeNames c0 st).1 ≠
      Except.error Error.numNodesOutOfRange := by
  unfold newClusterFound
  split
  · simp
  · split
    · simp
    · unfold newClusterOptions
      simp only []
      split <;> simp

theorem newCluster_ne_numNodes (env : Env) (opts : SyncedCluster) (st : State) :
    (newCluster env opts st).1 ≠ Except.error Error.numNodesOutOfRange := by
  unfold newCluster
  split
  · simp
  · simp
  · split
    · simp
    · exact newClusterFound_ne_numNodes _ _ _ _ _ _

theorem setupSSHKeys_ne_numNodes (env : Env) (clusterOpts ic1 : SyncedCluster) (st : State) :
    (setupSSHKeys env clusterOpts ic1 st).1 ≠ some Error.numNodesOutOfRange := by
  unfold setupSSHKeys
  split
  · simp
  · split
    · simp
    · simp only [liftErr]
      cases env.InstallSetupSSH _ _ <;> simp

theorem setupSSHInstall_ne_numNodes (env : Env) (clusterOpts : SyncedCluster)
    (cloudCluster : Cluster) (st : State) :
    (setupSSHInstall env clusterOpts cloudCluster st).1 ≠ some Error.numNodesOutOfRange := by
  unfold setupSSHInstall
  split
  · simp
  · split
    · rename_i h
      intro hc
      simp only [Option.some.injEq] at hc
      subst hc
      exact newCluster_ne_numNodes _ _ _ (congrArg Prod.fst h)
    · split
      · simp
      · exact setupSSHKeys_ne_numNodes _ _ _ _

theorem SetupSSH_ne_numNodes (env : Env) (clusterOpts : SyncedCluster) (username : String)
    (st : State) :
    (SetupSSH env clusterOpts username st).1 ≠ some Error.numNodesOutOfRange := by
  unfold SetupSSH
  split
  · rename_i h
    intro hc
    simp only [Option.some.injEq] at hc
    subst hc
    exact verifyClusterName_ne_numNodes _ _ _ _ (congrArg Prod.fst h)
  · split
    · rename_i h
      intro hc
      simp only [Option.some.injEq] at hc
      subst hc
      exact Sync_ne_numNodes _ _ _ (congrArg Prod.fst h)
    · split
      · simp
      · exact setupSSHInstall_ne_numNodes _ _ _ _

theorem makeNodeDirs_ne_numNodes (env : Env) (nodes : List Nat) (st : State) :
    (makeNodeDirs env nodes st).1 ≠ some Error.numNodesOutOfRange := by
  induction nodes generalizing st with
  | nil => simp [makeNodeDirs]
  | cons i rest ih =>
    unfold makeNodeDirs
    split
    · simp
    · exact ih _

theorem createProvision_ne_numNodes (env : Env) (numNodes : Int) (username : String)
    (createVMOpts : CreateOpts) (clusterOpts : SyncedCluster) (clusterName : String)
    (st : State) :
    (createProvision env numNodes username createVMOpts clusterOpts clusterName st).1 ≠
      some Error.numNodesOutOfRange := by
  unfold createProvision
  split
  · simp
  · split
    · simp
    · simp only []
      split
      · exact makeNodeDirs_ne_numNodes _ _ _
      · exact SetupSSH_ne_numNodes _ _ _ _

theorem createGuarded_ne_numNodes (env : Env) (numNodes : Int) (username : String)
    (createVMOpts : CreateOpts) (clusterOpts : SyncedCluster) (clusterName : String)
    (st : State) :
    (createGuarded env numNodes username createVMOpts clusterOpts clusterName st).1 ≠
      some Error.numNodesOutOfRange := by
  unfold createGuarded
  split
  · split
    · simp
    · split
      · simp
      · exact createProvision_ne_numNodes _ _ _ _ _ _ _
  · split
    · simp
    · exact createProvision_ne_numNodes _ _ _ _ _ _ _

/-- C4: `Create` returns the error `number of nodes must be in [1..999]` exactly when
`numNodes <= 0` or `numNodes >= 1000`, and then the state is untouched: no account lookup, no
cloud listing, no provider call and no cleanup call has been made. -/
theorem Create_numNodes_out_of_range (env : Env) (numNodes : Int) (username : String)
    (createVMOpts : CreateOpts) (clusterOpts : SyncedCluster) (st : State) :
    ((Create env numNodes username createVMOpts clusterOpts st).1 =
        some Error.numNodesOutOfRange ↔ (numNodes ≤ 0 ∨ numNodes ≥ 1000)) ∧
      ((numNodes ≤ 0 ∨ numNodes ≥ 1000) →
        (Create env numNodes username createVMOpts clusterOpts st).2 = st) := by
  constructor
  · constructor
    · intro h
      by_contra hn
      unfold Create at h
      rw [if_neg hn] at h
      split at h
      · rename_i hv
        simp only [Option.some.injEq] at h
        subst h
        exact verifyClusterName_ne_numNodes _ _ _ _ (congrArg Prod.fst hv)
      · exact createGuarded_ne_numNodes _ _ _ _ _ _ _ h
    · intro h
      unfold Create
      rw [if_pos h]
  · intro h
    unfold Create
    rw [if_pos h]

theorem Create_numNodes_out_of_range_witness :
    (Create sampleEnv 1000 "" { ClusterName := "", VMProviders := ["gce"], FileSystem := "ext4" }
      (sampleOpts "alice-perf") initialState).2 = initialState :=
  (Create_numNodes_out_of_range sampleEnv 1000 ""
    { ClusterName := "", VMProviders := ["gce"], FileSystem := "ext4" }
    (sampleOpts "alice-perf") initialState).2 (Or.inr (by decide))

/-! ### The state after name resolution -/

theorem verifyClusterName_state (env : Env) (clusterName username : String) (st : State) :
    (verifyClusterName env clusterName username st).2 = st ∨
      (verifyClusterName env clusterName username st).2 = st.record Call.FindActiveAccounts := by
  unfold verifyClusterName
  split
  · exact Or.inl rfl
  · split
    · exact Or.inl rfl
    · split
      · exact Or.inl rfl
      · split
        · exact Or.inl rfl
        · split <;> exact Or.inr rfl

theorem verifyClusterName_trace (env : Env) (clusterName username : String) (st : State) :
    (verifyClusterName env clusterName username st).2.trace = st.trace ∨
      (verifyClusterName env clusterName username st).2.trace =
        st.trace ++ [Call.FindActiveAccounts] := by
  rcases verifyClusterName_state env clusterName username st with h | h
  · exact Or.inl (by rw [h])
  · exact Or.inr (by rw [h]; rfl)

theorem verifyClusterName_Clusters (env : Env) (clusterName username : String) (st : State) :
    (verifyClusterName env clusterName username st).2.Clusters = st.Clusters := by
  rcases verifyClusterName_state env clusterName username st with h | h
  · rw [h]
  · rw [h]; rfl

theorem Create_resolved (env : Env) (numNodes : Int) (username : String)
    (createVMOpts : CreateOpts) (clusterOpts : SyncedCluster) (st : State)
    (clusterName : String) (hn : 0 < numNodes ∧ numNodes < 1000)
    (hname : (verifyClusterName env clusterOpts.Name username st).1 = Except.ok clusterName) :
    Create env numNodes username createVMOpts clusterOpts st =
      ((createGuarded env numNodes username { createVMOpts with ClusterName := clusterName }
          clusterOpts clusterName (verifyClusterName env clusterOpts.Name username st).2).1,
        createDeferred env clusterName
          (createGuarded env numNodes username { createVMOpts with ClusterName := clusterName }
            clusterOpts clusterName (verifyClusterName env clusterOpts.Name username st).2).1
          (createGuarded env numNodes username { createVMOpts with ClusterName := clusterName }
            clusterOpts clusterName (verifyClusterName env clusterOpts.Name username st).2).2) := by
  have hrange : ¬ (numNodes ≤ 0 ∨ numNodes ≥ 1000) := by omega
  unfold Create
  rw [if_neg hrange]
  generalize verifyClusterName env clusterOpts.Name username st = r at hname ⊢
  obtain ⟨r1, r2⟩ := r
  simp only at hname
  subst hname
  rfl

/-- C5: for a valid node count and a name that resolves to a cluster that is already present
(in `install.Clusters` for the local name, in the cloud listed by the existence check for a
remote name), `Create` returns the `clusterAlreadyExistsError` of that name.  The state it
leaves is the state after name resolution, plus the one `ListCloud` call for a remote name:
the calls made are at most one `FindActiveAccounts` and one `ListCloud`, so neither
`cld.CreateCluster` nor the listing and `cld.DestroyCluster` of `cleanupFailedCreate`. -/
theorem Create_already_exists (env : Env) (numNodes : Int) (username : String)
    (createVMOpts : CreateOpts) (clusterOpts : SyncedCluster) (st : State)
    (clusterName : String) (hn : 0 < numNodes ∧ numNodes < 1000)
    (hname : (verifyClusterName env clusterOpts.Name username st).1 = Except.ok clusterName)
    (hexists :
      (clusterName = env.Local ∧ (st.Clusters.lookup clusterName).isSome = true) ∨
      (clusterName ≠ env.Local ∧ ∃ cloud,
        env.ListCloud (verifyClusterName env clusterOpts.Name username st).2.trace =
          Except.ok cloud ∧ (cloud.Clusters.lookup clusterName).isSome = true)) :
    (Create env numNodes username createVMOpts clusterOpts st).1 =
        some (Error.clusterAlreadyExists clusterName) ∧
      (Create env numNodes username createVMOpts clusterOpts st).2 =
        (if clusterName = env.Local then (verifyClusterName env clusterOpts.Name username st).2
         else (verifyClusterName env clusterOpts.Name username st).2.record Call.ListCloud) ∧
      ∃ calls, (Create env numNodes username createVMOpts clusterOpts st).2.trace =
          st.trace ++ calls ∧
        calls.count Call.FindActiveAccounts ≤ 1 ∧ calls.count Call.ListCloud ≤ 1 ∧
        ∀ c ∈ calls, c = Call.FindActiveAccounts ∨ c = Call.ListCloud := by
  rw [Create_resolved env numNodes username createVMOpts clusterOpts st clusterName hn hname]
  have htr := verifyClusterName_trace env clusterOpts.Name username st
  have hcl := verifyClusterName_Clusters env clusterOpts.Name username st
  generalize (verifyClusterName env clusterOpts.Name username st).2 = st1 at *
  rcases hexists with ⟨hl, hreg⟩ | ⟨hl, cloud, hcloud, hfound⟩
  · have hg : createGuarded env numNodes username
        { createVMOpts with ClusterName := clusterName } clusterOpts clusterName st1 =
        (some (Error.clusterAlreadyExists clusterName), st1) := by
      obtain ⟨c, hlook⟩ := Option.isSome_iff_exists.1 hreg
      unfold createGuarded
      rw [if_neg (by simpa using hl), hcl, hlook]
    rw [hg]
    refine ⟨rfl, ?_, ?_⟩
    · simp [createDeferred, hl]
    · simp only [createDeferred, hl, if_true]
      rcases htr with h | h
      · exact ⟨[], by simp [h], by simp, by simp, by simp⟩
      · exact ⟨[Call.FindActiveAccounts], h, by simp, by simp, by simp⟩
  · have hg : createGuarded env numNodes username
        { createVMOpts with ClusterName := clusterName } clusterOpts clusterName st1 =
        (some (Error.clusterAlreadyExists clusterName), st1.record Call.ListCloud) := by
      obtain ⟨c, hlook⟩ := Option.isSome_iff_exists.1 hfound
      unfold createGuarded
      rw [if_pos hl, hcloud]
      simp only [hlook]
    rw [hg]
    refine ⟨rfl, ?_, ?_⟩
    · simp [createDeferred, hl, isClusterAlreadyExists]
    · simp only [createDeferred, hl, if_false, isClusterAlreadyExists, if_true]
      rcases htr with h | h
      · exact ⟨[Call.ListCloud], by simp [State.record, h], by simp, by simp, by simp⟩
      · exact ⟨[Call.FindActiveAccounts, Call.ListCloud], by simp [State.record, h],
          by simp, by simp, by simp⟩

theorem Create_already_exists_witness :
    (Create aliceEnv 3 "" { ClusterName := "", VMProviders := ["gce"], FileSystem := "ext4" }
      (sampleOpts "alice-perf") initialState).1 =
        some (Error.clusterAlreadyExists "alice-perf") ∧
    (Create aliceEnv 3 "" { ClusterName := "", VMProviders := ["gce"], FileSystem := "ext4" }
      (sampleOpts "alice-perf") initialState).2.trace =
        [Call.FindActiveAccounts, Call.ListCloud] :=
  have h := Create_already_exists aliceEnv 3 ""
    { ClusterName := "", VMProviders := ["gce"], FileSystem := "ext4" }
    (sampleOpts "alice-perf") initialState "alice-perf" (by decide) (by rfl)
    (Or.inr ⟨by decide, { Clusters := [("alice-perf", alicePerf)] }, rfl, rfl⟩)
  ⟨h.1, by rw [h.2.1]; rfl⟩

/-- C6: for a remote name that is not yet in the listed cloud and passes the file-system
check, when `cld.CreateCluster` fails with the error `e` and the cloud listed again by the
cleanup holds a cluster `c` of that name, `Create` returns `e` itself and the calls it makes
after name resolution are the listing, `CreateCluster`, the second listing and one
`DestroyCluster`, on `c`; the answer of `cld.DestroyCluster` plays no part. -/
theorem Create_failure_cleans_up (env : Env) (numNodes : Int) (username : String)
    (createVMOpts : CreateOpts) (clusterOpts : SyncedCluster) (st : State)
    (clusterName : String) (cloud0 cloud1 : Cloud) (c : Cluster) (e : ExtErr)
    (hn : 0 < numNodes ∧ numNodes < 1000)
    (hname : (verifyClusterName env clusterOpts.Name username st).1 = Except.ok clusterName)
    (hremote : clusterName ≠ env.Local)
    (hlist : env.ListCloud (verifyClusterName env clusterOpts.Name username st).2.trace =
      Except.ok cloud0)
    (hfresh : cloud0.Clusters.lookup clusterName = none)
    (hfs : ¬ (createVMOpts.FileSystem = env.Zfs ∧
      createVMOpts.VMProviders.any (fun provider => provider != env.gceProviderName) = true))
    (hcreate : env.CreateCluster
      ((verifyClusterName env clusterOpts.Name username st).2.trace ++ [Call.ListCloud])
      numNodes { createVMOpts with ClusterName := clusterName } = some e)
    (hrelist : env.ListCloud
      ((verifyClusterName env clusterOpts.Name username st).2.trace ++ [Call.ListCloud] ++
        [Call.CreateCluster numNodes { createVMOpts with ClusterName := clusterName }]) =
      Except.ok cloud1)
    (hrelisted : cloud1.Clusters.lookup clusterName = some c) :
    (Create env numNodes username createVMOpts clusterOpts st).1 = some (Error.ext e) ∧
      (Create env numNodes username createVMOpts clusterOpts st).2.trace =
        (verifyClusterName env clusterOpts.Name username st).2.trace ++
          [Call.ListCloud,
            Call.CreateCluster numNodes { createVMOpts with ClusterName := clusterName },
            Call.ListCloud, Call.DestroyCluster c] ∧
      ((Create env numNodes username createVMOpts clusterOpts st).2.trace.drop
          st.trace.length).filter Call.isDestroyCluster = [Call.DestroyCluster c] := by
  rw [Create_resolved env numNodes username createVMOpts clusterOpts st clusterName hn hname]
  have htr := verifyClusterName_trace env clusterOpts.Name username st
  generalize (verifyClusterName env clusterOpts.Name username st).2 = st1 at *
  have hg : createGuarded env numNodes username
      { createVMOpts with ClusterName := clusterName } clusterOpts clusterName st1 =
      (some (Error.ext e), (st1.record Call.ListCloud).record
        (Call.CreateCluster numNodes { createVMOpts with ClusterName := clusterName })) := by
    unfold createGuarded
    rw [if_pos hremote, hlist]
    simp only [hfresh]
    unfold createProvision
    rw [if_neg hfs]
    have hc2 : env.CreateCluster (st1.record Call.ListCloud).trace numNodes
        { createVMOpts with ClusterName := clusterName } = some e := hcreate
    simp only [hc2]
  have hd : createDeferred env clusterName (some (Error.ext e))
      ((st1.record Call.ListCloud).record
        (Call.CreateCluster numNodes { createVMOpts with ClusterName := clusterName })) =
      (((st1.record Call.ListCloud).record
        (Call.CreateCluster numNodes { createVMOpts with ClusterName := clusterName })).record
          Call.ListCloud).record (Call.DestroyCluster c) := by
    have hr2 : env.ListCloud ((st1.record Call.ListCloud).record
        (Call.CreateCluster numNodes { createVMOpts with ClusterName := clusterName })).trace =
        Except.ok cloud1 := hrelist
    simp only [createDeferred, hremote, if_false, isClusterAlreadyExists, cleanupFailedCreate,
      hr2, hrelisted]
    rfl
  rw [hg]
  simp only [hd]
  refine ⟨by simp, by simp [State.record], ?_⟩
  rcases htr with h | h
  · simp [State.record, h, Call.isDestroyCluster]
  · simp [State.record, h, Call.isDestroyCluster]

theorem Create_failure_cleans_up_witness :
    (Create failingCreateEnv 3 ""
      { ClusterName := "", VMProviders := ["gce"], FileSystem := "ext4" }
      (sampleOpts "alice-perf") initialState).1 = some (Error.ext { msg := "quota exceeded" }) ∧
    (Create failingCreateEnv 3 ""
      { ClusterName := "", VMProviders := ["gce"], FileSystem := "ext4" }
      (sampleOpts "alice-perf") initialState).2.trace =
      [Call.FindActiveAccounts, Call.ListCloud,
        Call.CreateCluster 3
          { ClusterName := "alice-perf", VMProviders := ["gce"], FileSystem := "ext4" },
        Call.ListCloud, Call.DestroyCluster alicePerf] :=
  have h := Create_failure_cleans_up failingCreateEnv 3 ""
    { ClusterName := "", VMProviders := ["gce"], FileSystem := "ext4" }
    (sampleOpts "alice-perf") initialState "alice-perf" { Clusters := [] }
    { Clusters := [("alice-perf", alicePerf)] } alicePerf { msg := "quota exceeded" }
    (by decide) (by rfl) (by decide) (by rfl) (by rfl) (by decide) (by rfl) (by rfl) (by rfl)
  ⟨h.1, by rw [h.2.1]; rfl⟩

theorem cleanupFailedCreate_trace (env : Env) (clusterName : String) (st : State) :
    (cleanupFailedCreate env clusterName st).2.trace = st.trace ++ [Call.ListCloud] ∨
      ∃ c, (cleanupFailedCreate env clusterName st).2.trace =
        st.trace ++ [Call.ListCloud, Call.DestroyCluster c] := by
  unfold cleanupFailedCreate
  split
  · exact Or.inl rfl
  · split
    · exact Or.inl rfl
    · rename_i c _
      exact Or.inr ⟨c, by simp [State.record]⟩

/-- C7 (as stated) fails: with the file system `zfs` and the provider `aws`, `Create` of the
remote name `alice-perf` returns the zfs error after it has listed the cloud for the existence
check, and the deferred cleanup runs and lists the cloud again; when the cluster has shown up
in the meantime the cleanup calls `cld.DestroyCluster` on it. -/
theorem Create_zfs_lists_and_cleans_up :
    Create aliceEmptyEnv 3 ""
        { ClusterName := "", VMProviders := ["aws"], FileSystem := "zfs" }
        (sampleOpts "alice-perf") initialState =
      (some Error.zfsOnlyOnGce,
        { initialState with
          trace := [Call.FindActiveAccounts, Call.ListCloud, Call.ListCloud] }) ∧
    Create racingEnv 3 ""
        { ClusterName := "", VMProviders := ["aws"], FileSystem := "zfs" }
        (sampleOpts "alice-perf") initialState =
      (some Error.zfsOnlyOnGce,
        { initialState with
          trace := [Call.FindActiveAccounts, Call.ListCloud, Call.ListCloud,
            Call.DestroyCluster alicePerf] }) :=
  ⟨by rfl, by rfl⟩

/-- C7 (as amended): for a remote name that is not yet in the cloud listed by the existence
check, when the file system is zfs and some requested provider is not gce, `Create` returns
the zfs error and has not called `cld.CreateCluster`.  The cloud has been listed once before
the check, and the deferred cleanup `cleanupFailedCreate` runs on the state after that
listing. -/
theorem Create_zfs_rejected (env : Env) (numNodes : Int) (username : String)
    (createVMOpts : CreateOpts) (clusterOpts : SyncedCluster) (st : State)
    (clusterName : String) (cloud0 : Cloud)
    (hn : 0 < numNodes ∧ numNodes < 1000)
    (hname : (verifyClusterName env clusterOpts.Name username st).1 = Except.ok clusterName)
    (hremote : clusterName ≠ env.Local)
    (hlist : env.ListCloud (verifyClusterName env clusterOpts.Name username st).2.trace =
      Except.ok cloud0)
    (hfresh : cloud0.Clusters.lookup clusterName = none)
    (hzfs : createVMOpts.FileSystem = env.Zfs)
    (hprov : ∃ provider ∈ createVMOpts.VMProviders, provider ≠ env.gceProviderName) :
    (Create env numNodes username createVMOpts clusterOpts st).1 = some Error.zfsOnlyOnGce ∧
      (Create env numNodes username createVMOpts clusterOpts st).2 =
        (cleanupFailedCreate env clusterName
          ((verifyClusterName env clusterOpts.Name username st).2.record Call.ListCloud)).2 ∧
      ∀ c ∈ (Create env numNodes username createVMOpts clusterOpts st).2.trace.drop
          st.trace.length, Call.isCreateCluster c = false := by
  rw [Create_resolved env numNodes username createVMOpts clusterOpts st clusterName hn hname]
  have htr := verifyClusterName_trace env clusterOpts.Name username st
  generalize (verifyClusterName env clusterOpts.Name username st).2 = st1 at *
  have hany : createVMOpts.VMProviders.any
      (fun provider => provider != env.gceProviderName) = true := by
    obtain ⟨provider, hmem, hne⟩ := hprov
    rw [List.any_eq_true]
    exact ⟨provider, hmem, by simpa using hne⟩
  have hg : createGuarded env numNodes username
      { createVMOpts with ClusterName := clusterName } clusterOpts clusterName st1 =
      (some Error.zfsOnlyOnGce, st1.record Call.ListCloud) := by
    unfold createGuarded
    rw [if_pos hremote, hlist]
    simp only [hfresh]
    unfold createProvision
    rw [if_pos ⟨hzfs, hany⟩]
  rw [hg]
  have hd : createDeferred env clusterName (some Error.zfsOnlyOnGce)
      (st1.record Call.ListCloud) =
      (cleanupFailedCreate env clusterName (st1.record Call.ListCloud)).2 := by
    simp [createDeferred, hremote, isClusterAlreadyExists]
  simp only [hd]
  refine ⟨by simp, by simp, ?_⟩
  intro c hc
  rcases cleanupFailedCreate_trace env clusterName (st1.record Call.ListCloud) with h | ⟨d, h⟩
  · rw [h] at hc
    rcases htr with h1 | h1
    · simp [State.record, h1] at hc
      subst hc
      rfl
    · simp [State.record, h1] at hc
      rcases hc with rfl | rfl | rfl <;> rfl
  · rw [h] at hc
    rcases htr with h1 | h1
    · simp [State.record, h1] at hc
      rcases hc with rfl | rfl | rfl <;> rfl
    · simp [State.record, h1] at hc
      rcases hc with rfl | rfl | rfl | rfl <;> rfl

theorem Create_zfs_rejected_witness :
    (Create racingEnv 3 "" { ClusterName := "", VMProviders := ["aws"], FileSystem := "zfs" }
      (sampleOpts "alice-perf") initialState).1 = some Error.zfsOnlyOnGce :=
  (Create_zfs_rejected racingEnv 3 ""
    { ClusterName := "", VMProviders := ["aws"], FileSystem := "zfs" }
    (sampleOpts "alice-perf") initialState "alice-perf" { Clusters := [] }
    (by decide) (by rfl) (by decide) (by rfl) (by rfl) (by rfl)
    ⟨"aws", by decide, by decide⟩).1

/-- C8: `Destroy` with a non-empty list of clusters and `destroyAllMine` set returns an error
with the state untouched, so before any name resolution, cloud listing or destruction; with
an empty list and `destroyAllMine` unset it returns an error with the state untouched as
well. -/
theorem Destroy_conflicting_selection (env : Env) (cluster : SyncedCluster)
    (clusters : List SyncedCluster) (username : String) (st : State) :
    Destroy env (cluster :: clusters) true username st =
        (some Error.allMineWithClusterNames, st) ∧
      Destroy env [] false username st = (some Error.noClusterNameProvided, st) :=
  ⟨rfl, rfl⟩

theorem GC_listed (env : Env) (dryrun : Bool) (slackToken : String) (st : State)
    (cloud : Cloud) (hl : env.ListCloud st.trace = Except.ok cloud) :
    GC env dryrun slackToken st =
      (CombineErrors (liftErr (env.GCClusters (st.trace ++ [Call.ListCloud]) cloud dryrun))
          (liftErr (env.GCAWSKeyPairs
            (st.trace ++ [Call.ListCloud, Call.GCClusters cloud dryrun]) dryrun)),
        { trace := st.trace ++
            [Call.ListCloud, Call.GCClusters cloud dryrun, Call.GCAWSKeyPairs dryrun],
          Clusters := st.Clusters, SlackToken := slackToken }) := by
  unfold GC
  simp only [State.record, List.append_assoc, List.singleton_append, List.cons_append,
    List.nil_append, hl]

theorem GC_not_listed (env : Env) (dryrun : Bool) (slackToken : String) (st : State)
    (e : ExtErr) (hl : env.ListCloud st.trace = Except.error e) :
    GC env dryrun slackToken st =
      (CombineErrors (some (Error.ext e))
          (liftErr (env.GCAWSKeyPairs (st.trace ++ [Call.ListCloud]) dryrun)),
        { trace := st.trace ++ [Call.ListCloud, Call.GCAWSKeyPairs dryrun],
          Clusters := st.Clusters, SlackToken := slackToken }) := by
  unfold GC
  simp only [State.record, List.append_assoc, List.singleton_append, List.cons_append,
    List.nil_append, hl]

/-- C9: in `GC` the cloud is listed first and the key-pair scan is the last call of every
execution.  When the listing succeeds the cluster scan runs in between, `GC` returns nil
exactly when both scans return nil, and when both fail the key-pair error is attached to the
cluster-scan error.  When the listing fails the cluster scan does not run, `GC` does not return
nil, and when the key-pair scan fails too its error is attached to the listing error. -/
theorem GC_scans (env : Env) (dryrun : Bool) (slackToken : String) (st : State) :
    match env.ListCloud st.trace with
    | Except.ok cloud =>
      (GC env dryrun slackToken st).2.trace =
          st.trace ++ [Call.ListCloud, Call.GCClusters cloud dryrun, Call.GCAWSKeyPairs dryrun] ∧
        ((GC env dryrun slackToken st).1 = none ↔
          env.GCClusters (st.trace ++ [Call.ListCloud]) cloud dryrun = none ∧
            env.GCAWSKeyPairs (st.trace ++ [Call.ListCloud, Call.GCClusters cloud dryrun])
              dryrun = none) ∧
        ∀ e1 e2, env.GCClusters (st.trace ++ [Call.ListCloud]) cloud dryrun = some e1 →
          env.GCAWSKeyPairs (st.trace ++ [Call.ListCloud, Call.GCClusters cloud dryrun])
            dryrun = some e2 →
          (GC env dryrun slackToken st).1 =
            some (Error.withSecondary (Error.ext e1) (Error.ext e2))
    | Except.error e =>
      (GC env dryrun slackToken st).2.trace =
          st.trace ++ [Call.ListCloud, Call.GCAWSKeyPairs dryrun] ∧
        (GC env dryrun slackToken st).1 ≠ none ∧
        (env.GCAWSKeyPairs (st.trace ++ [Call.ListCloud]) dryrun = none →
          (GC env dryrun slackToken st).1 = some (Error.ext e)) ∧
        ∀ e2, env.GCAWSKeyPairs (st.trace ++ [Call.ListCloud]) dryrun = some e2 →
          (GC env dryrun slackToken st).1 =
            some (Error.withSecondary (Error.ext e) (Error.ext e2)) := by
  cases hl : env.ListCloud st.trace with
  | ok cloud =>
    simp only [GC_listed env dryrun slackToken st cloud hl]
    refine ⟨trivial, ?_, ?_⟩
    · cases env.GCClusters (st.trace ++ [Call.ListCloud]) cloud dryrun <;>
        cases env.GCAWSKeyPairs (st.trace ++ [Call.ListCloud, Call.GCClusters cloud dryrun])
          dryrun <;> simp [CombineErrors, liftErr]
    · intro e1 e2 h1 h2
      simp [h1, h2, CombineErrors, liftErr]
  | error e =>
    simp only [GC_not_listed env dryrun slackToken st e hl]
    refine ⟨trivial, ?_, ?_, ?_⟩
    · cases env.GCAWSKeyPairs (st.trace ++ [Call.ListCloud]) dryrun <;>
        simp [CombineErrors, liftErr]
    · intro h2
      simp [h2, CombineErrors, liftErr]
    · intro e2 h2
      simp [h2, CombineErrors, liftErr]

/-! ### Sync -/

theorem syncDNSStep_eq (env : Env) (vms : List VM) (st : State) :
    syncDNSStep env vms st = if refreshDNS env then st.record (Call.SyncDNS vms) else st := by
  unfold syncDNSStep
  split
  · split <;> rfl
  · rfl

theorem refreshDNS_iff (env : Env) :
    refreshDNS env = true ↔
      (env.ProviderActive env.gceProviderName = true ∧
        env.gceDefaultProject ∈ env.gceProjects ∧
        env.ProviderActive env.awsProviderName = true) := by
  unfold refreshDNS
  have hany : env.gceProjects.any (fun prj => prj == env.gceDefaultProject) = true ↔
      env.gceDefaultProject ∈ env.gceProjects := by
    rw [List.any_eq_true]
    constructor
    · rintro ⟨x, hx, hxe⟩
      have : x = env.gceDefaultProject := by simpa using hxe
      exact this ▸ hx
    · intro h
      exact ⟨_, h, by simp⟩
  cases h1 : env.ProviderActive env.gceProviderName <;>
    cases h2 : env.ProviderActive env.awsProviderName <;>
    cases h3 : env.gceProjects.any (fun prj => prj == env.gceDefaultProject) <;>
    simp [← hany, h3]

theorem ProvidersSequential_calls (named : List String)
    (answer : List Call → String → Option ExtErr) (mk : String → Call) (st : State) :
    ∃ visited : List String,
      (ProvidersSequential named (fun p s => (answer s.trace p, s.record (mk p))) st).2.trace =
        st.trace ++ visited.map mk := by
  induction named generalizing st with
  | nil => exact ⟨[], by simp [ProvidersSequential]⟩
  | cons name rest ih =>
    unfold ProvidersSequential
    cases h : answer st.trace name with
    | some err => exact ⟨[name], by simp [h, State.record]⟩
    | none =>
      obtain ⟨visited, hv⟩ := ih (st.record (mk name))
      refine ⟨name :: visited, ?_⟩
      simp only [h]
      rw [hv]
      simp [State.record]

theorem ProvidersSequential_ok (named : List String)
    (answer : List Call → String → Option ExtErr) (mk : String → Call) (st : State)
    (hok : ∀ tr p, answer tr p = none) :
    (ProvidersSequential named (fun p s => (answer s.trace p, s.record (mk p))) st).1 = none := by
  induction named generalizing st with
  | nil => simp [ProvidersSequential]
  | cons name rest ih =>
    unfold ProvidersSequential
    rw [hok st.trace name]
    exact ih _

theorem syncSSHAndUnlock_calls (env : Env) (cloud : Cloud) (st : State) :
    ∃ calls : List Call, (syncSSHAndUnlock env cloud st).2.trace = st.trace ++ calls ∧
      calls.any Call.isSyncDNS = false := by
  unfold syncSSHAndUnlock
  obtain ⟨v1, h1⟩ := ProvidersSequential_calls env.AllProviderNames env.CleanSSH
    Call.CleanSSH st
  have hm1 : ∀ v : List String, (v.map Call.CleanSSH).any Call.isSyncDNS = false := by
    intro v; induction v <;> simp_all [Call.isSyncDNS]
  have hm2 : ∀ v : List String, (v.map Call.ConfigSSH).any Call.isSyncDNS = false := by
    intro v; induction v <;> simp_all [Call.isSyncDNS]
  generalize ProvidersSequential env.AllProviderNames
    (fun p s => (env.CleanSSH s.trace p, s.record (Call.CleanSSH p))) st = r1 at h1 ⊢
  obtain ⟨e1, s1⟩ := r1
  cases e1 with
  | some err => exact ⟨_, h1, hm1 _⟩
  | none =>
    simp only at h1 ⊢
    obtain ⟨v2, h2⟩ := ProvidersSequential_calls env.AllProviderNames env.ConfigSSH
      Call.ConfigSSH s1
    generalize ProvidersSequential env.AllProviderNames
      (fun p s => (env.ConfigSSH s.trace p, s.record (Call.ConfigSSH p))) s1 = r2 at h2 ⊢
    obtain ⟨e2, s2⟩ := r2
    cases e2 with
    | some err =>
      refine ⟨v1.map Call.CleanSSH ++ v2.map Call.ConfigSSH, ?_, ?_⟩
      · simp only at h2 ⊢
        rw [h2, h1, List.append_assoc]
      · simp [hm1, hm2]
    | none =>
      simp only at h2 ⊢
      refine ⟨v1.map Call.CleanSSH ++ v2.map Call.ConfigSSH ++ [Call.OsRemove env.lockFile],
        ?_, ?_⟩
      · split <;> simp [State.record, h2, h1]
      · simp [hm1, hm2, Call.isSyncDNS]

theorem syncLocked_SyncDNS_irrelevant (env : Env) (answer : List Call → List VM → Option ExtErr)
    (st : State) :
    syncLocked { env with SyncDNS := answer } st = syncLocked env st := by
  unfold syncLocked
  simp only [syncDNSStep_eq]
  rfl

theorem Sync_SyncDNS_irrelevant (env : Env) (answer : List Call → List VM → Option ExtErr)
    (quiet : Bool) (st : State) :
    Sync { env with SyncDNS := answer } quiet st = Sync env quiet st := by
  unfold Sync
  simp only [syncLocked_SyncDNS_irrelevant]

theorem syncSSHAndUnlock_ok (env : Env) (cloud : Cloud) (st : State)
    (hclean : ∀ tr p, env.CleanSSH tr p = none) (hconfig : ∀ tr p, env.ConfigSSH tr p = none)
    (hremove : ∀ tr, env.OsRemove tr env.lockFile = none) :
    (syncSSHAndUnlock env cloud st).1 = Except.ok cloud := by
  unfold syncSSHAndUnlock
  have h1 := ProvidersSequential_ok env.AllProviderNames env.CleanSSH Call.CleanSSH st hclean
  generalize ProvidersSequential env.AllProviderNames
    (fun p s => (env.CleanSSH s.trace p, s.record (Call.CleanSSH p))) st = r1 at h1 ⊢
  obtain ⟨e1, s1⟩ := r1
  simp only at h1
  subst h1
  simp only
  have h2 := ProvidersSequential_ok env.AllProviderNames env.ConfigSSH Call.ConfigSSH s1 hconfig
  generalize ProvidersSequential env.AllProviderNames
    (fun p s => (env.ConfigSSH s.trace p, s.record (Call.ConfigSSH p))) s1 = r2 at h2 ⊢
  obtain ⟨e2, s2⟩ := r2
  simp only at h2
  subst h2
  simp only [hremove]

theorem Sync_listed (env : Env) (quiet : Bool) (st : State) (cloud : Cloud)
    (hcreate : env.OsCreate st.trace env.lockFile = none)
    (hflock : env.Flock (st.trace ++ [Call.OsCreate env.lockFile]) = none)
    (hlist : env.ListCloud (st.trace ++ [Call.OsCreate env.lockFile, Call.Flock]) =
      Except.ok cloud)
    (hpersist : env.SyncHosts
      (st.trace ++ [Call.OsCreate env.lockFile, Call.Flock, Call.ListCloud]) cloud = none) :
    Sync env quiet st =
      ((syncSSHAndUnlock env cloud
          (syncDNSStep env (cloud.Clusters.flatMap (fun nc => nc.2.VMs))
            { st with trace := st.trace ++ [Call.OsCreate env.lockFile, Call.Flock,
              Call.ListCloud, Call.SyncHosts cloud] })).1,
        (syncSSHAndUnlock env cloud
          (syncDNSStep env (cloud.Clusters.flatMap (fun nc => nc.2.VMs))
            { st with trace := st.trace ++ [Call.OsCreate env.lockFile, Call.Flock,
              Call.ListCloud, Call.SyncHosts cloud] })).2.record Call.FileClose) := by
  unfold Sync syncLocked
  simp only [State.record, List.append_assoc, List.singleton_append, List.cons_append,
    List.nil_append, hcreate, hflock, hlist, hpersist]

/-- C10: in `Sync`, once the lock is taken and the cloud has been listed and persisted, a
`gce.SyncDNS` call is among the calls made exactly when the GCE provider is active, its
projects contain the default project and the AWS provider is active.  The answer of
`gce.SyncDNS` has no influence on what `Sync` returns: when `CleanSSH`, `ConfigSSH` and the
removal of the lock file succeed, `Sync` returns the listed cloud and no error. -/
theorem Sync_dns_refresh (env : Env) (quiet : Bool) (st : State) (cloud : Cloud)
    (hcreate : env.OsCreate st.trace env.lockFile = none)
    (hflock : env.Flock (st.trace ++ [Call.OsCreate env.lockFile]) = none)
    (hlist : env.ListCloud (st.trace ++ [Call.OsCreate env.lockFile, Call.Flock]) =
      Except.ok cloud)
    (hpersist : env.SyncHosts
      (st.trace ++ [Call.OsCreate env.lockFile, Call.Flock, Call.ListCloud]) cloud = none) :
    (((Sync env quiet st).2.trace.drop st.trace.length).any Call.isSyncDNS = true ↔
        (env.ProviderActive env.gceProviderName = true ∧
          env.gceDefaultProject ∈ env.gceProjects ∧
          env.ProviderActive env.awsProviderName = true)) ∧
      (∀ answer : List Call → List VM → Option ExtErr,
        Sync { env with SyncDNS := answer } quiet st = Sync env quiet st) ∧
      ((∀ tr p, env.CleanSSH tr p = none) → (∀ tr p, env.ConfigSSH tr p = none) →
        (∀ tr, env.OsRemove tr env.lockFile = none) →
        (Sync env quiet st).1 = Except.ok cloud) := by
  refine ⟨?_, fun answer => Sync_SyncDNS_irrelevant env answer quiet st, ?_⟩
  · rw [Sync_listed env quiet st cloud hcreate hflock hlist hpersist, ← refreshDNS_iff,
      syncDNSStep_eq]
    by_cases hr : refreshDNS env = true
    · rw [if_pos hr]
      obtain ⟨calls, hc, hno⟩ := syncSSHAndUnlock_calls env cloud
        ({ st with trace := st.trace ++ [Call.OsCreate env.lockFile, Call.Flock,
          Call.ListCloud, Call.SyncHosts cloud] }.record
            (Call.SyncDNS (cloud.Clusters.flatMap (fun nc => nc.2.VMs))))
      simp only [State.record] at hc ⊢
      rw [hc]
      simp [hr, Call.isSyncDNS]
    · rw [if_neg hr]
      obtain ⟨calls, hc, hno⟩ := syncSSHAndUnlock_calls env cloud
        { st with trace := st.trace ++ [Call.OsCreate env.lockFile, Call.Flock,
          Call.ListCloud, Call.SyncHosts cloud] }
      simp only [State.record] at hc ⊢
      rw [hc]
      simp [hr, Call.isSyncDNS, hno]
  · intro hclean hconfig hremove
    rw [Sync_listed env quiet st cloud hcreate hflock hlist hpersist]
    exact syncSSHAndUnlock_ok env cloud _ hclean hconfig hremove

theorem Sync_dns_refresh_witness :
    ((Sync failingDNSEnv false initialState).2.trace.drop initialState.trace.length).any
        Call.isSyncDNS = true ∧
      (Sync failingDNSEnv false initialState).1 =
        Except.ok { Clusters := [("alice-perf", alicePerf)] } :=
  have h := Sync_dns_refresh failingDNSEnv false initialState
    { Clusters := [("alice-perf", alicePerf)] } rfl rfl rfl rfl
  ⟨h.1.2 ⟨rfl, by decide, rfl⟩, h.2.2 (fun _ _ => rfl) (fun _ _ => rfl) (fun _ => rfl)⟩

/-! ### The lock of `Sync` -/

theorem map_CleanSSH_ne (v : List String) (c : Call)
    (hc : ∀ p, c ≠ Call.CleanSSH p) : c ∉ v.map Call.CleanSSH := by
  intro h
  obtain ⟨p, _, hp⟩ := List.mem_map.1 h
  exact hc p hp.symm

theorem map_ConfigSSH_ne (v : List String) (c : Call)
    (hc : ∀ p, c ≠ Call.ConfigSSH p) : c ∉ v.map Call.ConfigSSH := by
  intro h
  obtain ⟨p, _, hp⟩ := List.mem_map.1 h
  exact hc p hp.symm

theorem syncSSHAndUnlock_shape (env : Env) (cloud : Cloud) (st : State) :
    ∃ v1 v2 : List String,
      ((syncSSHAndUnlock env cloud st).2.trace =
          st.trace ++ (v1.map Call.CleanSSH ++ v2.map Call.ConfigSSH) ∧
        ∃ e, (syncSSHAndUnlock env cloud st).1 = Except.error e) ∨
      ((syncSSHAndUnlock env cloud st).2.trace =
          st.trace ++ (v1.map Call.CleanSSH ++ v2.map Call.ConfigSSH ++
            [Call.OsRemove env.lockFile]) ∧
        ((syncSSHAndUnlock env cloud st).1 = Except.ok cloud ∨
          ∃ e, env.OsRemove (st.trace ++ (v1.map Call.CleanSSH ++ v2.map Call.ConfigSSH))
              env.lockFile = some e ∧
            (syncSSHAndUnlock env cloud st).1 = Except.error (Error.ext e))) := by
  unfold syncSSHAndUnlock
  obtain ⟨v1, h1⟩ := ProvidersSequential_calls env.AllProviderNames env.CleanSSH
    Call.CleanSSH st
  generalize ProvidersSequential env.AllProviderNames
    (fun p s => (env.CleanSSH s.trace p, s.record (Call.CleanSSH p))) st = r1 at h1 ⊢
  obtain ⟨e1, s1⟩ := r1
  cases e1 with
  | some err => exact ⟨v1, [], Or.inl ⟨by simpa using h1, err, rfl⟩⟩
  | none =>
    simp only at h1 ⊢
    obtain ⟨v2, h2⟩ := ProvidersSequential_calls env.AllProviderNames env.ConfigSSH
      Call.ConfigSSH s1
    generalize ProvidersSequential env.AllProviderNames
      (fun p s => (env.ConfigSSH s.trace p, s.record (Call.ConfigSSH p))) s1 = r2 at h2 ⊢
    obtain ⟨e2, s2⟩ := r2
    have hs2 : s2.trace = st.trace ++ (v1.map Call.CleanSSH ++ v2.map Call.ConfigSSH) := by
      simp only at h2
      rw [h2, h1, List.append_assoc]
    cases e2 with
    | some err => exact ⟨v1, v2, Or.inl ⟨hs2, err, rfl⟩⟩
    | none =>
      simp only
      refine ⟨v1, v2, Or.inr ?_⟩
      cases hrem : env.OsRemove s2.trace env.lockFile with
      | some err =>
        refine ⟨by simp [State.record, hs2], Or.inr ⟨err, ?_, rfl⟩⟩
        rw [← hs2]; exact hrem
      | none => exact ⟨by simp [State.record, hs2], Or.inl rfl⟩

theorem syncLocked_shape (env : Env) (st : State) :
    ∃ calls : List Call,
      (syncLocked env st).2.trace = st.trace ++ calls ∧
      Call.FileClose ∉ calls ∧
      (∀ cloud, (syncLocked env st).1 = Except.ok cloud →
        ∃ pre, calls = pre ++ [Call.OsRemove env.lockFile]) ∧
      ((∀ tr, env.OsRemove tr env.lockFile = none) →
        Call.OsRemove env.lockFile ∈ calls → ∃ cloud, (syncLocked env st).1 = Except.ok cloud) ∧
      (∀ e, env.ListCloud st.trace = Except.error e →
        calls = [Call.ListCloud] ∧ (syncLocked env st).1 = Except.error (Error.ext e)) := by
  unfold syncLocked
  cases hl : env.ListCloud st.trace with
  | error e =>
    refine ⟨[Call.ListCloud], rfl, by simp, ?_, ?_, ?_⟩
    · intro cloud h; cases h
    · intro _ h; simp at h
    · intro e2 h; cases h; exact ⟨rfl, rfl⟩
  | ok cloud =>
    simp only
    cases hp : env.SyncHosts (st.record Call.ListCloud).trace cloud with
    | some e =>
      refine ⟨[Call.ListCloud, Call.SyncHosts cloud], by simp [State.record], by simp, ?_, ?_, ?_⟩
      · intro c h; cases h
      · intro _ h; simp at h
      · intro e2 h; cases h
    | none =>
      simp only
      rw [syncDNSStep_eq]
      generalize hs3 : (if refreshDNS env = true then
        ((st.record Call.ListCloud).record (Call.SyncHosts cloud)).record
          (Call.SyncDNS (cloud.Clusters.flatMap (fun nc => nc.2.VMs)))
        else (st.record Call.ListCloud).record (Call.SyncHosts cloud)) = st3
      have h3 : ∃ dns : List Call, st3.trace = st.trace ++ ([Call.ListCloud,
          Call.SyncHosts cloud] ++ dns) ∧ Call.FileClose ∉ dns ∧
          Call.OsRemove env.lockFile ∉ dns := by
        subst hs3
        split
        · exact ⟨[Call.SyncDNS (cloud.Clusters.flatMap (fun nc => nc.2.VMs))],
            by simp [State.record], by simp, by simp⟩
        · exact ⟨[], by simp [State.record], by simp, by simp⟩
      obtain ⟨dns, hdns, hnc, hnr⟩ := h3
      have hcl1 : ∀ v : List String, Call.FileClose ∉ v.map Call.CleanSSH :=
        fun v => map_CleanSSH_ne v _ (fun p => by simp)
      have hcl2 : ∀ v : List String, Call.FileClose ∉ v.map Call.ConfigSSH :=
        fun v => map_ConfigSSH_ne v _ (fun p => by simp)
      have hrm1 : ∀ v : List String, Call.OsRemove env.lockFile ∉ v.map Call.CleanSSH :=
        fun v => map_CleanSSH_ne v _ (fun p => by simp)
      have hrm2 : ∀ v : List String, Call.OsRemove env.lockFile ∉ v.map Call.ConfigSSH :=
        fun v => map_ConfigSSH_ne v _ (fun p => by simp)
      obtain ⟨v1, v2, hsh⟩ := syncSSHAndUnlock_shape env cloud st3
      rcases hsh with ⟨htr, e, he⟩ | ⟨htr, hres⟩
      · refine ⟨[Call.ListCloud, Call.SyncHosts cloud] ++ dns ++
          (v1.map Call.CleanSSH ++ v2.map Call.ConfigSSH), ?_, ?_, ?_, ?_, ?_⟩
        · rw [htr, hdns]; simp
        · simp [hnc, hcl1, hcl2]
        · intro c h; rw [he] at h; cases h
        · intro _ h
          simp [hnr, hrm1, hrm2] at h
        · intro e2 h; cases h
      · refine ⟨[Call.ListCloud, Call.SyncHosts cloud] ++ dns ++
          (v1.map Call.CleanSSH ++ v2.map Call.ConfigSSH ++ [Call.OsRemove env.lockFile]),
          ?_, ?_, ?_, ?_, ?_⟩
        · rw [htr, hdns]; simp
        · simp [hnc, hcl1, hcl2]
        · intro c _
          exact ⟨[Call.ListCloud, Call.SyncHosts cloud] ++ dns ++
            (v1.map Call.CleanSSH ++ v2.map Call.ConfigSSH), by simp⟩
        · intro hremove _
          rcases hres with hok | ⟨e, he, _⟩
          · exact ⟨cloud, hok⟩
          · rw [hremove] at he; cases he
        · intro e2 h; cases h

theorem Sync_locked (env : Env) (quiet : Bool) (st : State)
    (hcreate : env.OsCreate st.trace env.lockFile = none)
    (hflock : env.Flock (st.trace ++ [Call.OsCreate env.lockFile]) = none) :
    Sync env quiet st =
      ((syncLocked env ((st.record (Call.OsCreate env.lockFile)).record Call.Flock)).1,
        (syncLocked env ((st.record (Call.OsCreate env.lockFile)).record Call.Flock)).2.record
          Call.FileClose) := by
  unfold Sync
  have hf : env.Flock (st.record (Call.OsCreate env.lockFile)).trace = none := hflock
  simp only [hcreate, hf]

/-- C11 (as stated) fails: when the cloud listing fails, `Sync` returns after the lock was
taken and the only calls are the creation of the lock file, the lock, the listing and the
deferred close; the lock file is not removed.  The same holds when `CleanSSH` fails. -/
theorem Sync_failure_keeps_lock_file :
    Sync failingListEnv false initialState =
      (Except.error (Error.ext { msg := "cannot list gce" }),
        { initialState with
          trace := [Call.OsCreate failingListEnv.lockFile, Call.Flock, Call.ListCloud,
            Call.FileClose] }) ∧
    (Sync failingCleanSSHEnv false initialState).2.trace =
      [Call.OsCreate failingCleanSSHEnv.lockFile, Call.Flock, Call.ListCloud,
        Call.SyncHosts { Clusters := [("alice-perf", alicePerf)] },
        Call.SyncDNS [alicePerfVM], Call.CleanSSH "aws", Call.FileClose] :=
  ⟨by rfl, by rfl⟩

/-- C11 (as amended): on every path on which `Sync` returns after the lock was taken, the
deferred `f.Close()` of the lock file is the last call, and it is made once.  The lock file is
removed by the last call before it when `Sync` returns a cloud; when the removal itself cannot
fail, the lock file is removed on no other path, so not when the listing, the persist step,
`CleanSSH` or `ConfigSSH` fails.  When the listing fails it is the only call made under the
lock: nothing has been persisted. -/
theorem Sync_lock_release (env : Env) (quiet : Bool) (st : State)
    (hcreate : env.OsCreate st.trace env.lockFile = none)
    (hflock : env.Flock (st.trace ++ [Call.OsCreate env.lockFile]) = none) :
    ∃ calls : List Call,
      (Sync env quiet st).2.trace =
        st.trace ++ [Call.OsCreate env.lockFile, Call.Flock] ++ calls ++ [Call.FileClose] ∧
      Call.FileClose ∉ calls ∧
      (∀ cloud, (Sync env quiet st).1 = Except.ok cloud →
        ∃ pre, calls = pre ++ [Call.OsRemove env.lockFile]) ∧
      ((∀ tr, env.OsRemove tr env.lockFile = none) →
        Call.OsRemove env.lockFile ∈ calls → ∃ cloud, (Sync env quiet st).1 = Except.ok cloud) ∧
      (∀ e, env.ListCloud (st.trace ++ [Call.OsCreate env.lockFile, Call.Flock]) =
          Except.error e →
        calls = [Call.ListCloud] ∧ (Sync env quiet st).1 = Except.error (Error.ext e)) := by
  rw [Sync_locked env quiet st hcreate hflock]
  obtain ⟨calls, htr, hclose, hok, hrem, hlist⟩ :=
    syncLocked_shape env ((st.record (Call.OsCreate env.lockFile)).record Call.Flock)
  refine ⟨calls, ?_, hclose, hok, hrem, ?_⟩
  · simp only [State.record] at htr ⊢
    rw [htr]
    simp
  · intro e he
    exact hlist e (by simpa [State.record] using he)

theorem Sync_lock_release_witness :
    ∃ calls : List Call,
      (Sync failingListEnv false initialState).2.trace =
        initialState.trace ++ [Call.OsCreate failingListEnv.lockFile, Call.Flock] ++ calls ++
          [Call.FileClose] ∧
      calls = [Call.ListCloud] :=
  have h := Sync_lock_release failingListEnv false initialState rfl rfl
  h.elim fun calls hc => ⟨calls, hc.1, (hc.2.2.2.2 { msg := "cannot list gce" } rfl).1⟩

/-! ### Names under a username override -/

theorem prefix_and_longer_iff (clusterName account : String) :
    (HasPrefix clusterName (account ++ "-") = true ∧
        clusterName.utf8ByteSize > account.utf8ByteSize + 1) ↔
      ∃ s : String, s ≠ "" ∧ clusterName = account ++ "-" ++ s := by
  constructor
  · rintro ⟨hp, hlen⟩
    unfold HasPrefix at hp
    rw [List.isPrefixOf_iff_prefix] at hp
    obtain ⟨t, ht⟩ := hp
    have hname : clusterName = account ++ "-" ++ String.mk t := by
      apply String.ext
      rw [String.data_append, ← ht]
    refine ⟨String.mk t, ?_, hname⟩
    intro hempty
    rw [hname, hempty] at hlen
    have e : ∀ u : String, u.utf8ByteSize = String.utf8Len u.data := fun u => rfl
    rw [e, e, String.data_append, String.data_append, String.utf8Len_append,
      String.utf8Len_append] at hlen
    have h1 : String.utf8Len ("-" : String).data = 1 := rfl
    have h0 : String.utf8Len ("" : String).data = 0 := rfl
    omega
  · rintro ⟨s, hs, rfl⟩
    exact ⟨HasPrefix_account_hyphen account s, utf8ByteSize_account_hyphen account s hs⟩

theorem verifyAgainstAccounts_single (clusterName username : String) :
    verifyAgainstAccounts clusterName [username] = Except.ok clusterName ↔
      ∃ s : String, s ≠ "" ∧ clusterName = username ++ "-" ++ s := by
  rw [← prefix_and_longer_iff]
  unfold verifyAgainstAccounts
  by_cases h : HasPrefix clusterName (username ++ "-") = true ∧
      clusterName.utf8ByteSize > username.utf8ByteSize + 1
  · simp [h.1, h.2]
  · have hany : ¬ ([username].any (fun account =>
          HasPrefix clusterName (account ++ "-") &&
            decide (clusterName.utf8ByteSize > account.utf8ByteSize + 1)) = true) := by
      simpa using h
    rw [if_neg hany]
    simp [h]

theorem verifyAgainstAccounts_ok (clusterName r : String) (accounts : List String)
    (h : verifyAgainstAccounts clusterName accounts = Except.ok r) : r = clusterName := by
  unfold verifyAgainstAccounts at h
  split at h
  · cases h; rfl
  · cases h

/-- C13: with a non-empty username override `u` and a name other than the local identifier,
`verifyClusterName(name, u)` succeeds exactly when the name matches `^[a-zA-Z0-9\-]+$` and is
`u`, a hyphen and at least one more character; a name it returns is the name it was given.
The active accounts play no part: the state is untouched and the answer of
`vm.FindActiveAccounts` is irrelevant. -/
theorem verifyClusterName_with_username (env : Env) (clusterName username : String)
    (st : State) (hu : username ≠ "") (hl : clusterName ≠ env.Local) :
    ((verifyClusterName env clusterName username st).1 = Except.ok clusterName ↔
        (alphaNumMatchString clusterName = true ∧
          ∃ s : String, s ≠ "" ∧ clusterName = username ++ "-" ++ s)) ∧
      (∀ r, (verifyClusterName env clusterName username st).1 = Except.ok r →
        r = clusterName) ∧
      (verifyClusterName env clusterName username st).2 = st ∧
      ∀ answer : List Call → Except ExtErr (List String),
        verifyClusterName { env with FindActiveAccounts := answer } clusterName username st =
          verifyClusterName env clusterName username st := by
  have hulen : username.utf8ByteSize > 0 := by
    have := (utf8ByteSize_eq_zero_iff username).not.2 hu
    omega
  by_cases h0 : clusterName.utf8ByteSize = 0
  · have hempty := (utf8ByteSize_eq_zero_iff _).1 h0
    have hv : ∀ e : Env, verifyClusterName e clusterName username st =
        (Except.error Error.blankClusterName, st) := by
      intro e; unfold verifyClusterName; rw [if_pos h0]
    rw [hv env]
    refine ⟨?_, ?_, rfl, fun answer => hv _⟩
    · subst hempty
      simp [alphaNumMatchString_empty]
    · intro r h; cases h
  · by_cases hm : alphaNumMatchString clusterName = true
    · have hv : ∀ e : Env, e.Local = env.Local → verifyClusterName e clusterName username st =
          (verifyAgainstAccounts clusterName [username], st) := by
        intro e he
        unfold verifyClusterName
        rw [if_neg h0, if_neg (by rw [he]; exact hl)]
        simp [hm, hulen]
      rw [hv env rfl]
      refine ⟨?_, ?_, rfl, fun answer => hv _ rfl⟩
      · simp only [verifyAgainstAccounts_single, hm, true_and]
      · intro r h
        exact verifyAgainstAccounts_ok _ _ _ h
    · have hv : ∀ e : Env, e.Local = env.Local → verifyClusterName e clusterName username st =
          (Except.error (Error.clusterNameMustMatch alphaNumPattern), st) := by
        intro e he
        unfold verifyClusterName
        rw [if_neg h0, if_neg (by rw [he]; exact hl)]
        simp [hm]
      rw [hv env rfl]
      refine ⟨?_, ?_, rfl, fun answer => hv _ rfl⟩
      · simp [hm]
      · intro r h; cases h

theorem verifyClusterName_with_username_witness :
    (verifyClusterName sampleEnv "joe-perf" "joe" initialState).1 = Except.ok "joe-perf" :=
  (verifyClusterName_with_username sampleEnv "joe-perf" "joe" initialState (by decide)
    (by decide)).1.2 ⟨by decide, "perf", by decide, by decide⟩

/-! ### Suggested names -/

theorem dropWhile_not_hyphen_nil (cs : List Char) (h : '-' ∉ cs) :
    cs.dropWhile (fun c => c != '-') = [] := by
  induction cs with
  | nil => rfl
  | cons c rest ih =>
    have hc : c ≠ '-' := fun e => h (by simp [e])
    have hr : '-' ∉ rest := fun e => h (List.mem_cons_of_mem _ e)
    have hb : (c != '-') = true := by simpa using hc
    simp [List.dropWhile, hb, ih hr]

theorem dropWhile_not_hyphen_split (pre post : List Char) (h : '-' ∉ pre) :
    (pre ++ '-' :: post).dropWhile (fun c => c != '-') = '-' :: post := by
  induction pre with
  | nil => simp [List.dropWhile]
  | cons c rest ih =>
    have hc : c ≠ '-' := fun e => h (by simp [e])
    have hr : '-' ∉ rest := fun e => h (List.mem_cons_of_mem _ e)
    have hb : (c != '-') = true := by simpa using hc
    simp [List.dropWhile, hb, ih hr]

theorem suggestionSuffix_no_hyphen (clusterName : String) (h : '-' ∉ clusterName.data) :
    suggestionSuffix clusterName = clusterName := by
  unfold suggestionSuffix
  rw [dropWhile_not_hyphen_nil _ h]

theorem suggestionSuffix_after_first_hyphen (pre post : String) (h : '-' ∉ pre.data) :
    suggestionSuffix (pre ++ "-" ++ post) = post := by
  unfold suggestionSuffix
  have hd : (pre ++ "-" ++ post).data = pre.data ++ '-' :: post.data := by
    simp [String.data_append]
  rw [hd, dropWhile_not_hyphen_split _ _ h]

theorem verifyAgainstAccounts_error (clusterName name1 : String)
    (accounts suggestions : List String)
    (h : verifyAgainstAccounts clusterName accounts =
      Except.error (Error.malformedClusterName name1 suggestions)) :
    name1 = clusterName ∧
      suggestions =
        accounts.map (fun account => account ++ "-" ++ suggestionSuffix clusterName) := by
  unfold verifyAgainstAccounts at h
  split at h
  · cases h
  · simp only [Except.error.injEq, Error.malformedClusterName.injEq] at h
    exact ⟨h.1.symm, h.2.symm⟩

/-- C14: when `verifyClusterName` rejects a name for lack of a matching owner prefix, the
error carries the name and, for each candidate account in order, the suggestion
`<account>-<suffix>`.  The candidates are the username override alone when one is given, else
the accounts collected from the active ones; the suffix is what follows the first hyphen of
the name, or the whole name when it has no hyphen. -/
theorem verifyClusterName_suggestions (env : Env) (clusterName username : String)
    (st : State) (name1 : String) (suggestions : List String)
    (h : (verifyClusterName env clusterName username st).1 =
      Except.error (Error.malformedClusterName name1 suggestions)) :
    name1 = clusterName ∧
      ∃ (candidates : List String) (suffix : String),
        ((username ≠ "" ∧ candidates = [username]) ∨
          (username = "" ∧ ∃ active, env.FindActiveAccounts st.trace = Except.ok active ∧
            candidates = collectAccounts env.DNSSafeAccount active [] [])) ∧
        suggestions = candidates.map (fun account => account ++ "-" ++ suffix) ∧
        ('-' ∉ clusterName.data → suffix = clusterName) ∧
        (∀ pre post : String, clusterName = pre ++ "-" ++ post → '-' ∉ pre.data →
          suffix = post) := by
  have hsuffix : ('-' ∉ clusterName.data → suggestionSuffix clusterName = clusterName) ∧
      (∀ pre post : String, clusterName = pre ++ "-" ++ post → '-' ∉ pre.data →
        suggestionSuffix clusterName = post) :=
    ⟨suggestionSuffix_no_hyphen clusterName,
      fun pre post he hp => he ▸ suggestionSuffix_after_first_hyphen pre post hp⟩
  unfold verifyClusterName at h
  split at h
  · cases h
  · split at h
    · cases h
    · split at h
      · cases h
      · split at h
        · rename_i hulen
          obtain ⟨hn, hs⟩ := verifyAgainstAccounts_error _ _ _ _ h
          have hu : username ≠ "" := by
            intro he; subst he; exact absurd hulen (by decide)
          exact ⟨hn, [username], suggestionSuffix clusterName, Or.inl ⟨hu, rfl⟩, hs, hsuffix⟩
        · rename_i hulen
          have hu : username = "" := by
            apply (utf8ByteSize_eq_zero_iff username).1
            omega
          split at h
          · cases h
          · rename_i active hactive
            obtain ⟨hn, hs⟩ := verifyAgainstAccounts_error _ _ _ _ h
            exact ⟨hn, _, suggestionSuffix clusterName,
              Or.inr ⟨hu, active, hactive, rfl⟩, hs, hsuffix⟩

theorem verifyClusterName_suggestions_witness :
    "joe-perf" = "joe-perf" ∧
      ∃ (candidates : List String) (suffix : String),
        (("" ≠ "" ∧ candidates = [""]) ∨
          ("" = "" ∧ ∃ active, aliceEnv.FindActiveAccounts initialState.trace =
              Except.ok active ∧
            candidates = collectAccounts aliceEnv.DNSSafeAccount active [] [])) ∧
        ["alice-perf"] = candidates.map (fun account => account ++ "-" ++ suffix) ∧
        ('-' ∉ ("joe-perf" : String).data → suffix = "joe-perf") ∧
        (∀ pre post : String, "joe-perf" = pre ++ "-" ++ post → '-' ∉ pre.data →
          suffix = post) :=
  verifyClusterName_suggestions aliceEnv "joe-perf" "" initialState "joe-perf" ["alice-perf"]
    (by rfl)

/-! ### One suggestion per distinct account -/

theorem collectAccounts_fresh (clean : String → String) (active seen accounts : List String) :
    ∃ fresh : List String, fresh.Nodup ∧ fresh.Sublist active ∧
      (∀ a, a ∈ fresh ↔ a ∈ active ∧ a ∉ seen) ∧
      collectAccounts clean active seen accounts = accounts ++ fresh.map clean := by
  induction active generalizing seen accounts with
  | nil => exact ⟨[], List.nodup_nil, List.Sublist.refl _, by simp, by simp [collectAccounts]⟩
  | cons a rest ih =>
    unfold collectAccounts
    by_cases hs : seen.contains a = true
    · rw [if_pos hs]
      have hmem : a ∈ seen := by simpa using hs
      obtain ⟨fresh, hnd, hsub, hiff, heq⟩ := ih seen accounts
      refine ⟨fresh, hnd, List.Sublist.cons _ hsub, ?_, heq⟩
      intro x
      rw [hiff x]
      constructor
      · rintro ⟨h1, h2⟩
        exact ⟨List.mem_cons_of_mem _ h1, h2⟩
      · rintro ⟨h1, h2⟩
        rcases List.mem_cons.1 h1 with rfl | h1
        · exact absurd hmem h2
        · exact ⟨h1, h2⟩
    · rw [if_neg hs]
      have hmem : a ∉ seen := by simpa using hs
      obtain ⟨fresh, hnd, hsub, hiff, heq⟩ := ih (a :: seen) (accounts ++ [clean a])
      refine ⟨a :: fresh, ?_, List.Sublist.cons₂ _ hsub, ?_, ?_⟩
      · refine List.nodup_cons.2 ⟨?_, hnd⟩
        intro hin
        exact ((hiff a).1 hin).2 (by simp)
      · intro x
        constructor
        · intro hx
          rcases List.mem_cons.1 hx with rfl | hx
          · exact ⟨by simp, hmem⟩
          · obtain ⟨h1, h2⟩ := (hiff x).1 hx
            exact ⟨List.mem_cons_of_mem _ h1, fun h => h2 (List.mem_cons_of_mem _ h)⟩
        · rintro ⟨h1, h2⟩
          by_cases hxa : x = a
          · simp [hxa]
          · rcases List.mem_cons.1 h1 with h1 | h1
            · exact absurd h1 hxa
            · exact List.mem_cons_of_mem _ ((hiff x).2 ⟨h1, by simp [hxa, h2]⟩)
      · rw [heq]; simp

theorem append_suffix_injective (a b t : String) (h : a ++ "-" ++ t = b ++ "-" ++ t) :
    a = b := by
  have hd := congrArg String.data h
  simp only [String.data_append] at hd
  have h2 : a.data ++ (("-" : String).data ++ t.data) =
      b.data ++ (("-" : String).data ++ t.data) := by simpa using hd
  exact String.ext (List.append_cancel_right h2)

theorem verifyClusterName_malformed_no_username (env : Env) (clusterName : String)
    (st : State) (name1 : String) (suggestions active : List String)
    (hactive : env.FindActiveAccounts st.trace = Except.ok active)
    (h : (verifyClusterName env clusterName "" st).1 =
      Except.error (Error.malformedClusterName name1 suggestions)) :
    suggestions = (collectAccounts env.DNSSafeAccount active [] []).map
      (fun account => account ++ "-" ++ suggestionSuffix clusterName) := by
  unfold verifyClusterName at h
  split at h
  · cases h
  · split at h
    · cases h
    · split at h
      · cases h
      · split at h
        · rename_i hulen
          exact absurd hulen (by decide)
        · rw [hactive] at h
          exact (verifyAgainstAccounts_error _ _ _ _ h).2

/-- C15 (as stated) fails: with the active accounts `Alice`, `alice` and `Alice`, two of them
distinct, the rejected name `bob-perf` gets two suggestions, and the two are equal. -/
theorem verifyClusterName_equal_suggestions :
    (verifyClusterName twoAlicesEnv "bob-perf" "" initialState).1 =
      Except.error (Error.malformedClusterName "bob-perf" ["alice-perf", "alice-perf"]) := by
  rfl

theorem firstOccurrences_mem (l : List String) (x : String) :
    x ∈ firstOccurrences l ↔ x ∈ l := by
  induction l with
  | nil => simp [firstOccurrences]
  | cons a rest ih =>
    simp only [firstOccurrences, List.mem_cons, List.mem_filter, ih]
    by_cases h : x = a
    · simp [h]
    · simp [h]

theorem firstOccurrences_nodup (l : List String) : (firstOccurrences l).Nodup := by
  induction l with
  | nil => simp [firstOccurrences]
  | cons a rest ih =>
    simp only [firstOccurrences]
    refine List.nodup_cons.2 ⟨?_, ih.filter _⟩
    simp [List.mem_filter]

theorem firstOccurrences_sublist (l : List String) : (firstOccurrences l).Sublist l := by
  induction l with
  | nil => simp [firstOccurrences]
  | cons a rest ih =>
    simp only [firstOccurrences]
    exact List.Sublist.cons₂ _ ((List.filter_sublist _).trans ih)

theorem indexOf_filter_lt (p : String → Bool) (t : List String) (x y : String)
    (hx : x ∈ t) (hy : y ∈ t) (hpx : p x = true) (hpy : p y = true) :
    (t.filter p).indexOf x < (t.filter p).indexOf y ↔ t.indexOf x < t.indexOf y := by
  induction t with
  | nil => cases hx
  | cons c rest ih =>
    by_cases hcx : c = x
    · subst hcx
      rw [List.filter_cons_of_pos hpx]
      by_cases hcy : c = y
      · subst hcy
        simp
      · simp [List.indexOf_cons_ne _ hcy]
    · by_cases hcy : c = y
      · subst hcy
        rw [List.filter_cons_of_pos hpy]
        simp
      · have hx2 : x ∈ rest := by
          rcases List.mem_cons.1 hx with h | h
          · exact absurd h.symm hcx
          · exact h
        have hy2 : y ∈ rest := by
          rcases List.mem_cons.1 hy with h | h
          · exact absurd h.symm hcy
          · exact h
        rw [List.indexOf_cons_ne _ hcx, List.indexOf_cons_ne _ hcy]
        by_cases hpc : p c = true
        · rw [List.filter_cons_of_pos hpc, List.indexOf_cons_ne _ hcx,
            List.indexOf_cons_ne _ hcy]
          have := ih hx2 hy2
          omega
        · rw [List.filter_cons_of_neg hpc]
          have := ih hx2 hy2
          omega

theorem firstOccurrences_order (l : List String) (x y : String) (hx : x ∈ l) (hy : y ∈ l) :
    (firstOccurrences l).indexOf x < (firstOccurrences l).indexOf y ↔
      l.indexOf x < l.indexOf y := by
  induction l with
  | nil => cases hx
  | cons a rest ih =>
    simp only [firstOccurrences]
    by_cases hax : a = x
    · subst hax
      by_cases hay : a = y
      · subst hay
        simp
      · simp [List.indexOf_cons_ne _ hay]
    · by_cases hay : a = y
      · subst hay
        simp
      · have hx2 : x ∈ rest := by
          rcases List.mem_cons.1 hx with h | h
          · exact absurd h.symm hax
          · exact h
        have hy2 : y ∈ rest := by
          rcases List.mem_cons.1 hy with h | h
          · exact absurd h.symm hay
          · exact h
        rw [List.indexOf_cons_ne _ hax, List.indexOf_cons_ne _ hay,
          List.indexOf_cons_ne _ hax, List.indexOf_cons_ne _ hay]
        have h1 := indexOf_filter_lt (fun z => z != a) (firstOccurrences rest) x y
          ((firstOccurrences_mem rest x).2 hx2) ((firstOccurrences_mem rest y).2 hy2)
          (by simpa using fun h => hax h.symm) (by simpa using fun h => hay h.symm)
        have h2 := ih hx2 hy2
        omega

theorem firstOccurrences_example :
    firstOccurrences ["bob", "alice", "bob", "carol", "alice"] = ["bob", "alice", "carol"] := by
  decide

theorem collectAccounts_firstOccurrences (clean : String → String)
    (active seen accounts : List String) :
    collectAccounts clean active seen accounts =
      accounts ++ ((firstOccurrences active).filter (fun x => !seen.contains x)).map clean := by
  induction active generalizing seen accounts with
  | nil => simp [collectAccounts, firstOccurrences]
  | cons a rest ih =>
    unfold collectAccounts
    by_cases hs : seen.contains a = true
    · rw [if_pos hs, ih]
      have hmem : a ∈ seen := by simpa using hs
      simp only [firstOccurrences, List.filter_cons, hs, Bool.not_true, Bool.false_eq_true,
        if_false, List.filter_filter]
      congr 2
      apply List.filter_congr
      intro x _
      by_cases hxa : x = a
      · simp [hxa, hmem]
      · simp [hxa]
    · rw [if_neg hs, ih]
      have hmem : a ∉ seen := by simpa using hs
      have hs2 : seen.contains a = false := by simpa using hmem
      simp only [firstOccurrences, List.filter_cons, hs2, Bool.not_false, if_true,
        List.map_cons, List.filter_filter, List.append_assoc, List.singleton_append]
      congr 3
      apply List.filter_congr
      intro x _
      by_cases hxa : x = a
      · simp [hxa]
      · simp [hxa]

/-- C15 (as amended): when `verifyClusterName` rejects a name with no username override
because no account prefix matches, the suggestions are, for the distinct active accounts in
the order of their first occurrence, the sanitized account, a hyphen and the suffix: there are
as many as there are distinct active accounts, and no two are equal when
`vm.DNSSafeAccount` sends distinct active accounts to distinct names.  The order is pinned
twice: the accounts are `firstOccurrences active`, and one of them stands before another
exactly when its first occurrence among the active accounts comes first. -/
theorem verifyClusterName_suggestion_per_account (env : Env) (clusterName : String)
    (st : State) (name1 : String) (suggestions active : List String)
    (hactive : env.FindActiveAccounts st.trace = Except.ok active)
    (h : (verifyClusterName env clusterName "" st).1 =
      Except.error (Error.malformedClusterName name1 suggestions)) :
    ∃ distinct : List String, distinct = firstOccurrences active ∧
      distinct.Nodup ∧ distinct.Sublist active ∧
      (∀ a, a ∈ distinct ↔ a ∈ active) ∧
      (∀ x ∈ active, ∀ y ∈ active,
        (distinct.indexOf x < distinct.indexOf y ↔ active.indexOf x < active.indexOf y)) ∧
      suggestions = distinct.map
        (fun a => env.DNSSafeAccount a ++ "-" ++ suggestionSuffix clusterName) ∧
      suggestions.length = active.toFinset.card ∧
      ((∀ a ∈ active, ∀ b ∈ active, env.DNSSafeAccount a = env.DNSSafeAccount b → a = b) →
        suggestions.Nodup) := by
  have hs := verifyClusterName_malformed_no_username env clusterName st name1 suggestions
    active hactive h
  have hnd := firstOccurrences_nodup active
  have hiff2 : ∀ a, a ∈ firstOccurrences active ↔ a ∈ active := firstOccurrences_mem active
  have hsugg : suggestions = (firstOccurrences active).map
      (fun a => env.DNSSafeAccount a ++ "-" ++ suggestionSuffix clusterName) := by
    rw [hs, collectAccounts_firstOccurrences]
    simp [List.map_map, Function.comp_def]
  refine ⟨firstOccurrences active, rfl, hnd, firstOccurrences_sublist active, hiff2,
    fun x hx y hy => firstOccurrences_order active x y hx hy, hsugg, ?_, ?_⟩
  · rw [hsugg, List.length_map, ← List.toFinset_card_of_nodup hnd]
    congr 1
    ext a
    simp [hiff2 a]
  · intro hinj
    rw [hsugg]
    refine List.Nodup.map_on ?_ hnd
    intro a ha b hb hab
    exact hinj a ((hiff2 a).1 ha) b ((hiff2 b).1 hb) (append_suffix_injective _ _ _ hab)

theorem verifyClusterName_suggestion_per_account_witness :
    ["bob-perf", "alice-perf"] = (firstOccurrences ["bob", "alice", "bob"]).map
        (fun a => bobAliceEnv.DNSSafeAccount a ++ "-" ++ suggestionSuffix "carol-perf") ∧
      ["bob-perf", "alice-perf"].length = ["bob", "alice", "bob"].toFinset.card ∧
      ["bob-perf", "alice-perf"].Nodup :=
  (verifyClusterName_suggestion_per_account bobAliceEnv "carol-perf" initialState
    "carol-perf" ["bob-perf", "alice-perf"] ["bob", "alice", "bob"] rfl (by rfl)).elim
    fun _ hd =>
      ⟨hd.1 ▸ hd.2.2.2.2.2.1, hd.2.2.2.2.2.2.1, hd.2.2.2.2.2.2.2 (by decide)⟩

/-! ### The registry under `newCluster` -/

theorem lookup_map_set (l : List (String × SyncedCluster)) (name k : String)
    (c : SyncedCluster) :
    (l.map (fun e => if e.1 = name then (e.1, c) else e)).lookup k =
      if k = name then (l.lookup k).map (fun _ => c) else l.lookup k := by
  induction l with
  | nil => simp
  | cons e rest ih =>
    obtain ⟨n, v⟩ := e
    rw [List.map_cons]
    by_cases hn : n = name
    · have hhead : (if (n, v).1 = name then ((n, v).1, c) else (n, v)) = (n, c) := by
        simp [hn]
      simp only [hhead, List.lookup_cons, ih]
      by_cases hkn : k = n
      · have hk : k = name := hkn.trans hn
        simp [hkn, hn]
      · have hb : (k == n) = false := by simpa using hkn
        simp [hb]
    · have hhead : (if (n, v).1 = name then ((n, v).1, c) else (n, v)) = (n, v) := by
        simp [hn]
      simp only [hhead, List.lookup_cons, ih]
      by_cases hkn : k = n
      · have hk : ¬ k = name := by rw [hkn]; exact hn
        simp [hkn, hn]
      · have hb : (k == n) = false := by simpa using hkn
        simp [hb]

theorem lookup_setCluster (st : State) (name k : String) (c : SyncedCluster) :
    (setCluster st name c).Clusters.lookup k =
      if k = name then (st.Clusters.lookup k).map (fun _ => c) else st.Clusters.lookup k := by
  unfold setCluster
  exact lookup_map_set st.Clusters name k c

theorem newClusterOptions_outcome (env : Env) (opts : SyncedCluster) (name : String)
    (nodes : List Int) (c2 : SyncedCluster) (st : State) :
    ∃ c1 : SyncedCluster,
      (newClusterOptions env opts name nodes c2 st).1 = Except.ok c1 ∧
      (newClusterOptions env opts name nodes c2 st).2.Clusters =
        (setCluster st name c1).Clusters ∧
      c1.Localities = c2.Localities := by
  unfold newClusterOptions
  simp only
  split
  · exact ⟨_, rfl, rfl, rfl⟩
  · exact ⟨_, rfl, rfl, rfl⟩

theorem newClusterFound_outcome (env : Env) (opts : SyncedCluster) (name nodeNames : String)
    (c0 : SyncedCluster) (st : State) :
    ∃ c1 : SyncedCluster,
      (newClusterFound env opts name nodeNames c0 st).2.Clusters =
        (setCluster st name c1).Clusters ∧
      c1.Localities = (withRacks opts c0).Localities ∧
      ∀ c, (newClusterFound env opts name nodeNames c0 st).1 = Except.ok c → c = c1 := by
  unfold newClusterFound
  split
  · exact ⟨withRacks opts c0, rfl, rfl, fun c h => by cases h⟩
  · split
    · exact ⟨withRacks opts c0, rfl, rfl, fun c h => by cases h⟩
    · rename_i nodes _ _
      obtain ⟨c1, h1, h2, h3⟩ := newClusterOptions_outcome env opts name nodes
        (withRacks opts c0) st
      refine ⟨c1, h2, h3, ?_⟩
      intro c hc
      rw [h1] at hc
      cases hc
      rfl

theorem newCluster_outcome (env : Env) (opts : SyncedCluster) (st : State) :
    ((newCluster env opts st).2 = st ∧ ∃ e, (newCluster env opts st).1 = Except.error e) ∨
      ∃ c0 c1 : SyncedCluster,
        st.Clusters.lookup (registryKey opts.Name) = some c0 ∧
        (newCluster env opts st).2.Clusters =
          (setCluster st (registryKey opts.Name) c1).Clusters ∧
        c1.Localities = (withRacks opts c0).Localities ∧
        ∀ c, (newCluster env opts st).1 = Except.ok c → c = c1 := by
  unfold newCluster registryKey
  split
  · exact Or.inl ⟨rfl, _, rfl⟩
  · exact Or.inl ⟨rfl, _, rfl⟩
  · rename_i name more _ hsplit
    rw [hsplit]
    simp only [List.headD_cons]
    cases hlook : st.Clusters.lookup name with
    | none => exact Or.inl ⟨rfl, _, rfl⟩
    | some c0 =>
      simp only
      generalize (match more with | [n] => n | _ => "all") = nodeNames
      obtain ⟨c1, h1, h2, h3⟩ := newClusterFound_outcome env opts name nodeNames c0 st
      exact Or.inr ⟨c0, c1, rfl, h1, h2, h3⟩

/-- C17 (as stated) fails: `newCluster` with two racks rewrites the localities of the registry
entry of the local cluster, and a second call with the same options returns a cluster whose
localities carry the rack twice. -/
theorem newCluster_changes_registry :
    (localState.Clusters.lookup "local").map (fun c => c.Localities) =
      some ["", "zone=a", "zone=b"] ∧
    ((newCluster sampleEnv twoRacksOpts localState).2.Clusters.lookup "local").map
        (fun c => c.Localities) = some ["rack=0", "zone=a,rack=1", "zone=b,rack=0"] ∧
    (newCluster sampleEnv twoRacksOpts localState).1.toOption.map (fun c => c.Localities) =
      some ["rack=0", "zone=a,rack=1", "zone=b,rack=0"] ∧
    (newCluster sampleEnv twoRacksOpts
        (newCluster sampleEnv twoRacksOpts localState).2).1.toOption.map
        (fun c => c.Localities) =
      some ["rack=0,rack=0", "zone=a,rack=1,rack=1", "zone=b,rack=0,rack=0"] := by
  decide

/-- C17 (as amended): `newCluster` changes `install.Clusters` at most at the entry of the
named cluster: every other entry is the same after the call as before, and after a successful
call the entry of the named cluster is the cluster that is returned. -/
theorem newCluster_registry_frame (env : Env) (opts : SyncedCluster) (st : State) :
    (∀ k, k ≠ registryKey opts.Name →
        (newCluster env opts st).2.Clusters.lookup k = st.Clusters.lookup k) ∧
      ∀ c, (newCluster env opts st).1 = Except.ok c →
        (newCluster env opts st).2.Clusters.lookup (registryKey opts.Name) = some c := by
  rcases newCluster_outcome env opts st with ⟨hst, e, he⟩ | ⟨c0, c1, hlook, hcl, _, hret⟩
  · refine ⟨fun k _ => by rw [hst], ?_⟩
    intro c hc
    rw [he] at hc
    cases hc
  · constructor
    · intro k hk
      rw [hcl, lookup_setCluster, if_neg hk]
    · intro c hc
      rw [hcl, lookup_setCluster, if_pos rfl, hlook, hret c hc]
      rfl

theorem newCluster_registry_frame_witness :
    (newCluster sampleEnv twoRacksOpts localState).2.Clusters.lookup
        (registryKey twoRacksOpts.Name) =
      some { localCluster with
        ImplCockroach := true, NumRacks := 2, Quiet := true, Nodes := [1, 2, 3],
        Localities := ["rack=0", "zone=a,rack=1", "zone=b,rack=0"] } :=
  (newCluster_registry_frame sampleEnv twoRacksOpts localState).2 _ (by rfl)

/-! ### Racks -/

theorem mod_numRacks (i : Nat) (k : Int) (hk : k > 0) :
    (i : Int) % k = ((i % k.toNat : Nat) : Int) := by
  have h : k = ((k.toNat : Nat) : Int) := (Int.toNat_of_nonneg (le_of_lt hk)).symm
  conv_lhs => rw [h]
  exact (Int.natCast_mod i k.toNat).symm

theorem addRacks_length (numRacks : Int) (localities : List String) :
    (addRacks numRacks localities).length = localities.length := by
  simp [addRacks]

theorem addRacks_getElem? (numRacks : Int) (hk : numRacks > 0) (localities : List String)
    (i : Nat) (l : String) (h : localities[i]? = some l) :
    (addRacks numRacks localities)[i]? =
      some (l ++ ((if l ≠ "" then "," else "") ++
        ("rack=" ++ toString (i % numRacks.toNat)))) := by
  unfold addRacks
  rw [List.getElem?_map, List.getElem?_enum, h]
  simp only [Option.map_some', mod_numRacks i numRacks hk]
  have hts : toString (((i % numRacks.toNat : Nat) : Int)) = toString (i % numRacks.toNat) :=
    rfl
  rw [hts]
  by_cases hl : l = "" <;> simp [hl]

theorem withRacks_Localities (opts c0 : SyncedCluster) :
    (withRacks opts c0).Localities =
      if opts.NumRacks > 0 then addRacks opts.NumRacks c0.Localities else c0.Localities := by
  unfold withRacks
  simp only
  split <;> rfl

/-- C20: a cluster returned by `newCluster` has as many localities as its entry in the
registry had before the call.  With `NumRacks = k > 0` the locality at the 0-based index `i`
is the previous one followed by `rack=<i mod k>`, after a comma exactly when the previous one
was not empty; with `NumRacks = 0` the localities are the previous ones. -/
theorem newCluster_rack_localities (env : Env) (opts : SyncedCluster) (st : State)
    (c : SyncedCluster) (h : (newCluster env opts st).1 = Except.ok c) :
    ∃ c0, st.Clusters.lookup (registryKey opts.Name) = some c0 ∧
      c.Localities.length = c0.Localities.length ∧
      (opts.NumRacks > 0 → ∀ (i : Nat) (l : String), c0.Localities[i]? = some l →
        c.Localities[i]? =
          some (l ++ ((if l ≠ "" then "," else "") ++
            ("rack=" ++ toString (i % opts.NumRacks.toNat))))) ∧
      (opts.NumRacks = 0 → c.Localities = c0.Localities) := by
  rcases newCluster_outcome env opts st with ⟨_, e, he⟩ | ⟨c0, c1, hlook, _, hloc, hret⟩
  · rw [he] at h
    cases h
  · have hc := hret c h
    subst hc
    rw [withRacks_Localities] at hloc
    refine ⟨c0, hlook, ?_, ?_, ?_⟩
    · rw [hloc]
      split
      · exact addRacks_length _ _
      · rfl
    · intro hk i l hl
      rw [hloc, if_pos hk]
      exact addRacks_getElem? opts.NumRacks hk c0.Localities i l hl
    · intro hk
      rw [hloc, if_neg (by omega)]

theorem newCluster_rack_localities_witness :
    ∃ c0, localState.Clusters.lookup (registryKey twoRacksOpts.Name) = some c0 ∧
      ["rack=0", "zone=a,rack=1", "zone=b,rack=0"].length = c0.Localities.length ∧
      (twoRacksOpts.NumRacks > 0 → ∀ (i : Nat) (l : String), c0.Localities[i]? = some l →
        ["rack=0", "zone=a,rack=1", "zone=b,rack=0"][i]? =
          some (l ++ ((if l ≠ "" then "," else "") ++
            ("rack=" ++ toString (i % twoRacksOpts.NumRacks.toNat))))) ∧
      (twoRacksOpts.NumRacks = 0 →
        ["rack=0", "zone=a,rack=1", "zone=b,rack=0"] = c0.Localities) :=
  newCluster_rack_localities sampleEnv twoRacksOpts localState
    { localCluster with
      ImplCockroach := true, NumRacks := 2, Quiet := true, Nodes := [1, 2, 3],
      Localities := ["rack=0", "zone=a,rack=1", "zone=b,rack=0"] } (by rfl)

/-! ### The nodes that `Pprof` contacts -/

/-- C18: with the nodes 2 and 3 of a cluster of three machines selected, the workers of
`Pprof` pass the worker indices 0 and 1 to `NodePort`, the first of which is no node number,
and fetch the profiles from the machines `h1` and `h2` of the nodes 1 and 2.  For the same
selection `IP` returns the machines `h2` and `h3`, and `PgURL` passes the nodes 2 and 3 to
`NodePort`. -/
theorem Pprof_contacts_worker_index :
    (Pprof nodeListEnv nodes23Opts 30 false false 9000 localState).2.trace =
      [Call.NodePort 0, Call.TempFile ".",
        Call.HttpGet "http://h1:26256/debug/pprof/profile?seconds=30",
        Call.IoCopy ".pprof1", Call.FileSync ".pprof1", Call.TempFileClose ".pprof1",
        Call.OsRename ".pprof1" "pprof-profile-1600000000-local-0001.out",
        Call.BodyClose, Call.TempFileClose ".pprof1", Call.OsRemove ".pprof1",
        Call.NodePort 1, Call.TempFile ".",
        Call.HttpGet "http://h2:26258/debug/pprof/profile?seconds=30",
        Call.IoCopy ".pprof11", Call.FileSync ".pprof11", Call.TempFileClose ".pprof11",
        Call.OsRename ".pprof11" "pprof-profile-1600000000-local-0002.out",
        Call.BodyClose, Call.TempFileClose ".pprof11", Call.OsRemove ".pprof11"] ∧
    (IP nodeListEnv nodes23Opts true localState).1.toOption = some ["h2", "h3"] ∧
    (PgURL nodeListEnv nodes23Opts true localState).2.trace =
      [Call.NodePort 2, Call.NodePort 3] := by
  refine ⟨?_, ?_, ?_⟩ <;> decide

/-! ### List -/

theorem filterClusters_at (matcher : String → Bool) (names : List String)
    (filteredCloud : Nat) (maps : Maps) :
    filterClusters matcher names filteredCloud maps filteredCloud =
      (maps filteredCloud).filter (fun e => matcher e.1 || !names.contains e.1) := by
  induction names generalizing maps with
  | nil => simp [filterClusters]
  | cons name rest ih =>
    unfold filterClusters
    by_cases hm : matcher name = true
    · simp only [hm, Bool.not_true, Bool.false_eq_true, if_false]
      rw [ih]
      apply List.filter_congr
      intro e _
      by_cases he : e.1 = name
      · simp [he, hm]
      · simp [he]
    · have hm2 : matcher name = false := by simpa using hm
      simp only [hm2, Bool.not_false, if_true]
      rw [ih]
      simp only [deleteAt, if_true, deleteCluster, List.filter_filter]
      apply List.filter_congr
      intro e _
      by_cases he : e.1 = name
      · simp [he, hm2]
      · simp [he]

theorem filterClusters_elsewhere (matcher : String → Bool) (names : List String)
    (filteredCloud : Nat) (maps : Maps) (addr : Nat) (haddr : addr ≠ filteredCloud) :
    filterClusters matcher names filteredCloud maps addr = maps addr := by
  induction names generalizing maps with
  | nil => simp [filterClusters]
  | cons name rest ih =>
    unfold filterClusters
    by_cases hm : matcher name = true
    · simp only [hm, Bool.not_true, Bool.false_eq_true, if_false]
      exact ih maps
    · have hm2 : matcher name = false := by simpa using hm
      simp only [hm2, Bool.not_false, if_true]
      rw [ih]
      simp [deleteAt, haddr]

theorem filter_own_names (matcher : String → Bool) (clusters : List (String × Cluster)) :
    clusters.filter (fun e => matcher e.1 || !(clusters.map Prod.fst).contains e.1) =
      clusters.filter (fun e => matcher e.1) := by
  apply List.filter_congr
  intro e he
  have hmem : e.1 ∈ clusters.map Prod.fst := List.mem_map.2 ⟨e, he, rfl⟩
  simp [hmem]

theorem listLoop_filtered (matcher : String → Bool) (cloned : Maps) (filteredCloud : Nat)
    (clusters : List (String × Cluster)) (hcloud : cloned 0 = clusters)
    (hcopy : cloned filteredCloud = clusters) :
    (listLoop matcher cloned filteredCloud).1 =
        { Clusters := clusters.filter (fun e => matcher e.1) } ∧
      (listLoop matcher cloned filteredCloud).2 filteredCloud =
        clusters.filter (fun e => matcher e.1) ∧
      ∀ addr, addr ≠ filteredCloud →
        (listLoop matcher cloned filteredCloud).2 addr = cloned addr := by
  unfold listLoop
  refine ⟨?_, ?_, ?_⟩
  · simp only [filterClusters_at, hcloud, hcopy, filter_own_names]
  · simp only [filterClusters_at, hcloud, hcopy, filter_own_names]
  · intro addr haddr
    exact filterClusters_elsewhere matcher _ filteredCloud cloned addr haddr

theorem ListClusters_listed (env : Env) (quiet listMine : Bool) (clusterNamePattern : String)
    (st st1 : State) (matcher : String → Bool) (cloud : Cloud)
    (hp : listPattern env listMine clusterNamePattern st = (Except.ok matcher, st1))
    (hsync : (Sync env quiet st1).1 = Except.ok cloud) :
    ListClusters env quiet listMine clusterNamePattern st =
      (Except.ok (listLoop matcher (env.Clone (syncedMaps cloud) 0).1
          (env.Clone (syncedMaps cloud) 0).2),
        (Sync env quiet st1).2) := by
  unfold ListClusters
  rw [hp]
  simp only
  generalize Sync env quiet st1 = r at hsync ⊢
  obtain ⟨r1, r2⟩ := r
  simp only at hsync
  subst hsync
  rfl

/-- C19: `List` with a non-empty pattern and `listMine` set returns an error with the state
untouched, so without synchronizing.  Otherwise the effective pattern is the compiled given
pattern, the ownership pattern when `listMine` is set, or a pattern that matches every name.
When `Sync` then succeeds with a cloud, and `Clone` returns a cloud whose map of clusters,
at the address `filteredCloud`, has the clusters of the synchronized cloud and leaves those
of the synchronized cloud, at address 0, as they are, then `List` returns the clusters of
that cloud whose names the effective pattern matches, each as it is in the cloud and in the
same order, and leaves the state that `Sync` left.  In memory at the return the map of the
returned cloud holds these clusters, every other map is as `Clone` left it, and when the
map of the clone is not that of the synchronized cloud, the synchronized cloud has all its
clusters still: it is not modified. -/
theorem ListClusters_filters (env : Env) (quiet listMine : Bool)
    (clusterNamePattern : String) (st : State) :
    (clusterNamePattern ≠ "" → listMine = true →
        ListClusters env quiet listMine clusterNamePattern st =
          (Except.error Error.mineWithPattern, st)) ∧
      ∀ (matcher : String → Bool) (st1 : State) (cloud : Cloud) (cloned : Maps)
        (filteredCloud : Nat),
        ((clusterNamePattern ≠ "" ∧ listMine = false ∧
            env.CompilePattern clusterNamePattern = Except.ok matcher ∧ st1 = st) ∨
          (clusterNamePattern = "" ∧ listMine = true ∧
            ∃ r, userClusterNameRegexp env st = (Except.ok r, st1) ∧
              matcher = r.MatchString) ∨
          (clusterNamePattern = "" ∧ listMine = false ∧ matcher = (fun _ => true) ∧
            st1 = st)) →
        (Sync env quiet st1).1 = Except.ok cloud →
        env.Clone (syncedMaps cloud) 0 = (cloned, filteredCloud) →
        cloned 0 = cloud.Clusters →
        cloned filteredCloud = cloud.Clusters →
        ∃ maps : Maps,
          ListClusters env quiet listMine clusterNamePattern st =
            (Except.ok ({ Clusters := cloud.Clusters.filter (fun e => matcher e.1) }, maps),
              (Sync env quiet st1).2) ∧
          maps filteredCloud = cloud.Clusters.filter (fun e => matcher e.1) ∧
          (∀ addr, addr ≠ filteredCloud → maps addr = cloned addr) ∧
          (filteredCloud ≠ 0 → maps 0 = cloud.Clusters) := by
  constructor
  · intro hp hm
    unfold ListClusters listPattern
    rw [if_neg hp, hm]
    rfl
  · intro matcher st1 cloud cloned filteredCloud hpat hsync hclone hcloud hcopy
    have hlisted := ListClusters_listed env quiet listMine clusterNamePattern st st1 matcher
      cloud (by
        unfold listPattern
        rcases hpat with ⟨hp, hm, hc, hst⟩ | ⟨hp, hm, r, hr, hmr⟩ | ⟨hp, hm, hmt, hst⟩
        · rw [if_neg hp, hm, hc, hst]
          rfl
        · rw [if_pos hp, hm, hr, hmr]
          rfl
        · rw [if_pos hp, hm, hmt, hst]
          rfl) hsync
    rw [hclone] at hlisted
    obtain ⟨h1, h2, h3⟩ := listLoop_filtered matcher cloned filteredCloud cloud.Clusters
      hcloud hcopy
    refine ⟨(listLoop matcher cloned filteredCloud).2, ?_, h2, h3, ?_⟩
    · rw [hlisted, ← h1]
    · intro hne
      rw [h3 0 (fun h => hne h.symm), hcloud]

theorem ListClusters_filters_witness :
    ∃ maps : Maps,
      ListClusters twoOwnersEnv false true "" initialState =
        (Except.ok
          ({ Clusters := twoOwnersClusters.filter (fun e => aliceGroup.MatchString e.1) },
            maps),
          (Sync twoOwnersEnv false (initialState.record Call.FindActiveAccounts)).2) ∧
      maps 1 = twoOwnersClusters.filter (fun e => aliceGroup.MatchString e.1) ∧
      maps 0 = twoOwnersClusters :=
  ((ListClusters_filters twoOwnersEnv false true "" initialState).2 aliceGroup.MatchString
    (initialState.record Call.FindActiveAccounts) { Clusters := twoOwnersClusters }
    (fun a => if a = 1 then twoOwnersClusters else
      syncedMaps { Clusters := twoOwnersClusters } a) 1
    (Or.inr (Or.inl ⟨rfl, rfl, aliceGroup, by rfl, rfl⟩)) (by rfl) rfl rfl rfl).elim
    fun maps h => ⟨maps, h.1, h.2.1, h.2.2.2 (by decide)⟩

theorem ListClusters_mine_example :
    (ListClusters twoOwnersEnv false true "" initialState).1.toOption.map
        (fun listed => (listed.1, listed.2 0, listed.2 1)) =
      some ({ Clusters := [("alice-perf", alicePerf)] }, twoOwnersClusters,
        [("alice-perf", alicePerf)]) := by
  decide

theorem ListClusters_shared_map_example :
    (ListClusters sharedMapEnv false true "" initialState).1.toOption.map
        (fun listed => (listed.1, listed.2 0)) =
      some ({ Clusters := [("alice-perf", alicePerf)] }, [("alice-perf", alicePerf)]) ∧
      twoOwnersClusters ≠ [("alice-perf", alicePerf)] := by
  decide

/-! ### The ownership pattern -/

theorem tokenize_escaped (c : Char) (hc : c ∈ specialBytes) (q : List Char) :
    tokenize ('\\' :: c :: q) = (tokenize q).map (fun ts => Token.lit c :: ts) := by
  have hcases : c = '\\' ∨ c = '.' ∨ c = '+' ∨ c = '*' ∨ c = '?' ∨ c = '(' ∨ c = ')' ∨
      c = '|' ∨ c = '[' ∨ c = ']' ∨ c = '\x7b' ∨ c = '\x7d' ∨ c = '^' ∨ c = '$' := by
    simpa [specialBytes] using hc
  rcases hcases with h | h | h | h | h | h | h | h | h | h | h | h | h | h <;>
    (subst h; rfl)


theorem tokenize_plain (c : Char) (hc : c ∉ specialBytes) (q : List Char) :
    tokenize (c :: q) = (tokenize q).map (fun ts => Token.lit c :: ts) := by
  have h1 : c ≠ '\\' := fun h => hc (by rw [h]; decide)
  have h2 : c ≠ '(' := fun h => hc (by rw [h]; decide)
  have h3 : c ≠ ')' := fun h => hc (by rw [h]; decide)
  have h4 : c ≠ '|' := fun h => hc (by rw [h]; decide)
  have h5 : c ≠ '^' := fun h => hc (by rw [h]; decide)
  rw [tokenize.eq_7 c q (fun _ _ h _ => h1 h) h2 h3 h4 h5, if_neg hc]

theorem tokenize_QuoteMeta (account : List Char) (q : List Char) :
    tokenize ((QuoteMeta (String.mk account)).data ++ q) =
      (tokenize q).map (fun ts => account.map Token.lit ++ ts) := by
  induction account with
  | nil =>
    have h : (QuoteMeta (String.mk [])).data = [] := rfl
    rw [h, List.nil_append]
    cases tokenize q <;> simp
  | cons c rest ih =>
    have hq : (QuoteMeta (String.mk (c :: rest))).data =
        (if c ∈ specialBytes then ['\\', c] else [c]) ++ (QuoteMeta (String.mk rest)).data := by
      simp [QuoteMeta]
    rw [hq]
    by_cases hc : c ∈ specialBytes
    · rw [if_pos hc]
      simp only [List.cons_append, List.nil_append]
      rw [tokenize_escaped c hc, ih]
      cases tokenize q <;> simp
    · rw [if_neg hc]
      simp only [List.cons_append, List.nil_append]
      rw [tokenize_plain c hc, ih]
      cases tokenize q <;> simp

theorem tokenize_ownerGroupText (account : String) (q : List Char) :
    tokenize ((ownerGroupText account).data ++ q) =
      (tokenize q).map (fun ts => ownerGroupTokens account ++ ts) := by
  have hd : (ownerGroupText account).data ++ q =
      '(' :: '^' :: ((QuoteMeta (String.mk account.data)).data ++ '-' :: ')' :: q) := by
    simp [ownerGroupText, String.data_append]
  rw [hd, tokenize.eq_3, tokenize.eq_6, tokenize_QuoteMeta,
    tokenize_plain '-' (by decide), tokenize.eq_4]
  cases tokenize q <;> simp [ownerGroupTokens]

theorem tokenize_bar_groups (rest : List String) :
    tokenize (rest.flatMap (fun b => "|".data ++ (ownerGroupText b).data)) =
      some (rest.flatMap (fun b => Token.bar :: ownerGroupTokens b)) := by
  induction rest with
  | nil => rfl
  | cons b rest ih =>
    have h : (b :: rest).flatMap (fun b => "|".data ++ (ownerGroupText b).data) =
        '|' :: ((ownerGroupText b).data ++
          rest.flatMap (fun b => "|".data ++ (ownerGroupText b).data)) := by
      simp [List.flatMap_cons]
    rw [h, tokenize.eq_5, tokenize_ownerGroupText, ih]
    simp [List.flatMap_cons]

theorem parseTokens_lits (cs : List Char) (ts : List Token) (top : Frame)
    (stack : List Frame) :
    parseTokens (cs.map Token.lit ++ ts) top stack =
      parseTokens ts { top with cur := top.cur ++ cs.map Regexp.lit } stack := by
  induction cs generalizing top with
  | nil => simp
  | cons c rest ih =>
    simp only [List.map_cons, List.cons_append]
    rw [parseTokens, ih]
    simp

theorem parseTokens_ownerGroup (account : String) (ts : List Token) (top : Frame) :
    parseTokens (ownerGroupTokens account ++ ts) top [] =
      parseTokens ts { top with cur := top.cur ++ [ownerGroup account] } [] := by
  have h : ownerGroupTokens account ++ ts =
      Token.lparen :: Token.caret ::
        ((account.data ++ ['-']).map Token.lit ++ (Token.rparen :: ts)) := by
    simp [ownerGroupTokens]
  rw [h, parseTokens, parseTokens, parseTokens_lits, parseTokens]
  simp [ownerGroup, Frame.close, altsOf, altList]

theorem parseTokens_bar_groups (rest : List String) (alts : List Regexp) (g : Regexp) :
    parseTokens (rest.flatMap (fun b => Token.bar :: ownerGroupTokens b))
        { alts := alts, cur := [g] } [] =
      some (altsOf (alts ++ g :: rest.map ownerGroup)) := by
  induction rest generalizing alts g with
  | nil => simp [parseTokens, Frame.close, catList]
  | cons b rest ih =>
    have h : (b :: rest).flatMap (fun b => Token.bar :: ownerGroupTokens b) =
        Token.bar :: (ownerGroupTokens b ++
          rest.flatMap (fun b => Token.bar :: ownerGroupTokens b)) := by
      simp [List.flatMap_cons]
    rw [h, parseTokens, parseTokens_ownerGroup]
    simp only [List.nil_append, catList]
    rw [ih]
    simp

theorem userClusterNamePattern_fresh (active seen : List String) (pattern : String) :
    ∃ fresh : List String, fresh.Nodup ∧ fresh.Sublist active ∧
      (∀ a, a ∈ fresh ↔ a ∈ active ∧ a ∉ seen) ∧
      userClusterNamePattern active seen pattern =
        fresh.foldl (fun p a =>
          (if p.utf8ByteSize > 0 then p ++ "|" else p) ++ ownerGroupText a) pattern := by
  induction active generalizing seen pattern with
  | nil =>
    exact ⟨[], List.nodup_nil, List.Sublist.refl _, by simp, by simp [userClusterNamePattern]⟩
  | cons a rest ih =>
    unfold userClusterNamePattern
    by_cases hs : seen.contains a = true
    · rw [if_pos hs]
      have hmem : a ∈ seen := by simpa using hs
      obtain ⟨fresh, hnd, hsub, hiff, heq⟩ := ih seen pattern
      refine ⟨fresh, hnd, List.Sublist.cons _ hsub, ?_, heq⟩
      intro x
      rw [hiff x]
      constructor
      · rintro ⟨h1, h2⟩
        exact ⟨List.mem_cons_of_mem _ h1, h2⟩
      · rintro ⟨h1, h2⟩
        rcases List.mem_cons.1 h1 with rfl | h1
        · exact absurd hmem h2
        · exact ⟨h1, h2⟩
    · rw [if_neg hs]
      have hmem : a ∉ seen := by simpa using hs
      obtain ⟨fresh, hnd, hsub, hiff, heq⟩ := ih (a :: seen)
        ((if pattern.utf8ByteSize > 0 then pattern ++ "|" else pattern) ++
          ("(^" ++ QuoteMeta a ++ "-)"))
      refine ⟨a :: fresh, ?_, List.Sublist.cons₂ _ hsub, ?_, ?_⟩
      · refine List.nodup_cons.2 ⟨?_, hnd⟩
        intro hin
        exact ((hiff a).1 hin).2 (by simp)
      · intro x
        constructor
        · intro hx
          rcases List.mem_cons.1 hx with rfl | hx
          · exact ⟨by simp, hmem⟩
          · obtain ⟨h1, h2⟩ := (hiff x).1 hx
            exact ⟨List.mem_cons_of_mem _ h1, fun h => h2 (List.mem_cons_of_mem _ h)⟩
        · rintro ⟨h1, h2⟩
          by_cases hxa : x = a
          · simp [hxa]
          · rcases List.mem_cons.1 h1 with h1 | h1
            · exact absurd h1 hxa
            · exact List.mem_cons_of_mem _ ((hiff x).2 ⟨h1, by simp [hxa, h2]⟩)
      · rw [heq]
        rfl

theorem utf8ByteSize_pos_of_data (p : String) (c : Char) (cs : List Char)
    (h : p.data = c :: cs) : p.utf8ByteSize > 0 := by
  have hne : p ≠ "" := by
    intro he
    rw [he] at h
    cases h
  have := (utf8ByteSize_eq_zero_iff p).not.2 hne
  omega

theorem append_ownerGroupText_pos (p : String) (account : String) :
    (p ++ ownerGroupText account).utf8ByteSize > 0 := by
  have e : ∀ t : String, t.utf8ByteSize = String.utf8Len t.data := fun t => rfl
  have hd : (ownerGroupText account).data =
      '(' :: '^' :: ((QuoteMeta account).data ++ ['-', ')']) := by
    simp [ownerGroupText, String.data_append]
  have h1 := utf8ByteSize_pos_of_data (ownerGroupText account) _ _ hd
  rw [e] at h1
  rw [e, String.data_append, String.utf8Len_append]
  omega

theorem foldl_ownerGroups (fresh : List String) (p : String) (hp : p.utf8ByteSize > 0) :
    fresh.foldl (fun p a =>
        (if p.utf8ByteSize > 0 then p ++ "|" else p) ++ ownerGroupText a) p =
      String.intercalate.go p "|" (fresh.map ownerGroupText) := by
  induction fresh generalizing p with
  | nil => rfl
  | cons a rest ih =>
    simp only [List.foldl_cons, List.map_cons, String.intercalate.go, if_pos hp]
    exact ih _ (append_ownerGroupText_pos _ _)

theorem intercalate_go_data (p sep : String) (l : List String) :
    (String.intercalate.go p sep l).data =
      p.data ++ l.flatMap (fun x => sep.data ++ x.data) := by
  induction l generalizing p with
  | nil => simp [String.intercalate.go]
  | cons x rest ih =>
    simp only [String.intercalate.go, ih, String.data_append, List.flatMap_cons,
      List.append_assoc]

theorem foldl_ownerGroups_empty (a : String) (rest : List String) :
    (a :: rest).foldl (fun p a =>
        (if p.utf8ByteSize > 0 then p ++ "|" else p) ++ ownerGroupText a) "" =
      String.intercalate "|" ((a :: rest).map ownerGroupText) := by
  have h0 : ¬ ("" : String).utf8ByteSize > 0 := by decide
  have he : ("" : String) ++ ownerGroupText a = ownerGroupText a :=
    String.ext (by simp [String.data_append])
  simp only [List.foldl_cons, if_neg h0, he, List.map_cons, String.intercalate]
  have hpos : (ownerGroupText a).utf8ByteSize > 0 := by
    have := append_ownerGroupText_pos "" a
    rwa [he] at this
  exact foldl_ownerGroups rest _ hpos

theorem regexpCompile_ownerGroups (a : String) (rest : List String) :
    regexpCompile (String.intercalate "|" ((a :: rest).map ownerGroupText)) =
      Except.ok (altsOf ((a :: rest).map ownerGroup)) := by
  have hd : (String.intercalate "|" ((a :: rest).map ownerGroupText)).data =
      (ownerGroupText a).data ++
        rest.flatMap (fun b => "|".data ++ (ownerGroupText b).data) := by
    simp only [List.map_cons, String.intercalate, intercalate_go_data, List.flatMap_map]
  unfold regexpCompile
  rw [hd, tokenize_ownerGroupText, tokenize_bar_groups]
  simp only [Option.map_some']
  rw [parseTokens_ownerGroup]
  simp only [List.nil_append]
  rw [parseTokens_bar_groups]
  simp

theorem catList_cons_ends (r : Regexp) (rs : List Regexp) (text : List Char) (i : Nat) :
    (catList (r :: rs)).ends text i =
      (r.ends text i).flatMap (fun j => (catList rs).ends text j) := by
  cases rs with
  | nil => simp [catList, Regexp.ends]
  | cons r2 rest => rfl

theorem isPrefixOf_drop_cons (c : Char) (cs text : List Char) (i : Nat) :
    (c :: cs).isPrefixOf (text.drop i) =
      (decide (text.get? i = some c) && cs.isPrefixOf (text.drop (i + 1))) := by
  induction text generalizing i with
  | nil => simp [List.isPrefixOf]
  | cons d rest ih =>
    cases i with
    | zero =>
      simp only [List.drop_zero, List.isPrefixOf, List.get?_cons_zero, Option.some.injEq,
        List.drop_succ_cons]
      by_cases h : c = d
      · simp [h]
      · have h2 : ¬ d = c := fun e => h e.symm
        simp [h, h2]
    | succ n =>
      simp only [List.drop_succ_cons, List.get?_cons_succ]
      exact ih n

theorem lits_ends (cs text : List Char) (i : Nat) :
    (catList (cs.map Regexp.lit)).ends text i =
      if cs.isPrefixOf (text.drop i) = true then [i + cs.length] else [] := by
  induction cs generalizing i with
  | nil => simp [catList, Regexp.ends, List.isPrefixOf]
  | cons c rest ih =>
    rw [List.map_cons, catList_cons_ends, isPrefixOf_drop_cons]
    by_cases h : text.get? i = some c
    · simp only [Regexp.ends, h, if_true, List.flatMap_cons, List.flatMap_nil,
        List.append_nil, ih, decide_True, Bool.true_and, List.length_cons]
      split
      · simp
        omega
      · simp
    · have h2 : ¬ text[i]? = some c := by simpa using h
      simp [Regexp.ends, h2]

theorem ownerGroup_ends (account : String) (text : List Char) (i : Nat) :
    (ownerGroup account).ends text i =
      if i = 0 ∧ (account.data ++ ['-']).isPrefixOf text = true then
        [(account.data ++ ['-']).length]
      else [] := by
  unfold ownerGroup
  rw [Regexp.ends, catList_cons_ends]
  by_cases hi : i = 0
  · subst hi
    simp only [Regexp.ends, if_true, List.flatMap_cons, List.flatMap_nil, List.append_nil,
      lits_ends, List.drop_zero, true_and, Nat.zero_add]
  · simp [Regexp.ends, hi]

theorem ownerGroup_MatchString (account name : String) :
    (ownerGroup account).MatchString name = HasPrefix name (account ++ "-") := by
  have hd : (account ++ "-").data = account.data ++ ['-'] := by simp [String.data_append]
  unfold Regexp.MatchString HasPrefix
  rw [hd]
  by_cases hp : (account.data ++ ['-']).isPrefixOf name.data = true
  · rw [hp, List.any_eq_true]
    exact ⟨0, by simp, by simp [ownerGroup_ends, hp]⟩
  · have hf : (account.data ++ ['-']).isPrefixOf name.data = false := Bool.eq_false_iff.2 hp
    rw [hf, List.any_eq_false]
    intro i _
    simp [ownerGroup_ends, hf]

theorem altList_MatchString (r : Regexp) (rs : List Regexp) (name : String) :
    (altList r rs).MatchString name = true ↔ ∃ x ∈ r :: rs, x.MatchString name = true := by
  induction rs generalizing r with
  | nil => simp [altList]
  | cons r2 rest ih =>
    have hstep : (altList r (r2 :: rest)).MatchString name = true ↔
        (r.MatchString name = true ∨ (altList r2 rest).MatchString name = true) := by
      unfold Regexp.MatchString
      simp only [altList, Regexp.ends, List.any_eq_true]
      constructor
      · rintro ⟨i, hi, h⟩
        by_cases hr : (r.ends name.data i).isEmpty = true
        · refine Or.inr ⟨i, hi, ?_⟩
          have hnil : r.ends name.data i = [] := by simpa using hr
          simpa [hnil] using h
        · exact Or.inl ⟨i, hi, by simpa using hr⟩
      · rintro (⟨i, hi, h⟩ | ⟨i, hi, h⟩)
        · refine ⟨i, hi, ?_⟩
          cases hr : r.ends name.data i with
          | nil => simp [hr] at h
          | cons a l => simp
        · refine ⟨i, hi, ?_⟩
          cases hr : (altList r2 rest).ends name.data i with
          | nil => simp [hr] at h
          | cons a l => simp
    rw [hstep, ih]
    simp

/-- C16: for a non-empty list of active accounts the pattern that `userClusterNameRegexp`
builds is the `|`-separated list of one alternative `(^account-)`, with the account quoted,
per distinct account in the order of first occurrence.  It compiles to the alternation of the
expressions that read the account literally, and it matches a name exactly when the name
starts with an active account followed by a hyphen. -/
theorem userClusterNameRegexp_owner_prefix (env : Env) (st : State) (active : List String)
    (hactive : env.FindActiveAccounts st.trace = Except.ok active) (hne : active ≠ []) :
    ∃ (distinct : List String) (r : Regexp),
      distinct.Nodup ∧ distinct.Sublist active ∧ (∀ a, a ∈ distinct ↔ a ∈ active) ∧
      userClusterNamePattern active [] "" =
        String.intercalate "|" (distinct.map ownerGroupText) ∧
      (userClusterNameRegexp env st).1 = Except.ok r ∧
      r = altsOf (distinct.map ownerGroup) ∧
      ∀ name : String, r.MatchString name = true ↔
        ∃ a ∈ active, HasPrefix name (a ++ "-") = true := by
  obtain ⟨distinct, hnd, hsub, hiff, hpat⟩ := userClusterNamePattern_fresh active [] ""
  have hiff2 : ∀ a, a ∈ distinct ↔ a ∈ active := by
    intro a; rw [hiff a]; simp
  cases hd : distinct with
  | nil =>
    obtain ⟨a, rest, ha⟩ := List.exists_cons_of_ne_nil hne
    have : a ∈ distinct := (hiff2 a).2 (by rw [ha]; simp)
    rw [hd] at this
    cases this
  | cons a rest =>
    rw [hd] at hpat hnd hsub
    rw [foldl_ownerGroups_empty] at hpat
    refine ⟨a :: rest, altsOf ((a :: rest).map ownerGroup), hnd, hsub, ?_, hpat, ?_, rfl, ?_⟩
    · intro x; rw [← hd]; exact hiff2 x
    · unfold userClusterNameRegexp
      rw [hactive]
      simp only [hpat, regexpCompile_ownerGroups]
    · intro name
      simp only [List.map_cons, altsOf]
      rw [altList_MatchString]
      constructor
      · rintro ⟨x, hx, hm⟩
        have hx2 : x ∈ (a :: rest).map ownerGroup := by simpa using hx
        obtain ⟨b, hb, rfl⟩ := List.mem_map.1 hx2
        rw [ownerGroup_MatchString] at hm
        exact ⟨b, (hiff2 b).1 (by rw [hd]; exact hb), hm⟩
      · rintro ⟨b, hb, hm⟩
        have hb2 : b ∈ a :: rest := by rw [← hd]; exact (hiff2 b).2 hb
        refine ⟨ownerGroup b, ?_, by rw [ownerGroup_MatchString]; exact hm⟩
        have : ownerGroup b ∈ (a :: rest).map ownerGroup := List.mem_map.2 ⟨b, hb2, rfl⟩
        simpa using this

theorem userClusterNameRegexp_owner_prefix_witness :
    ∃ (distinct : List String) (r : Regexp),
      distinct.Nodup ∧ distinct.Sublist ["alice", "b.ob", "alice"] ∧
      (∀ a, a ∈ distinct ↔ a ∈ ["alice", "b.ob", "alice"]) ∧
      userClusterNamePattern ["alice", "b.ob", "alice"] [] "" =
        String.intercalate "|" (distinct.map ownerGroupText) ∧
      (userClusterNameRegexp
        { sampleEnv with FindActiveAccounts := fun _ => Except.ok ["alice", "b.ob", "alice"] }
        initialState).1 = Except.ok r ∧
      r = altsOf (distinct.map ownerGroup) ∧
      ∀ name : String, r.MatchString name = true ↔
        ∃ a ∈ ["alice", "b.ob", "alice"], HasPrefix name (a ++ "-") = true :=
  userClusterNameRegexp_owner_prefix
    { sampleEnv with FindActiveAccounts := fun _ => Except.ok ["alice", "b.ob", "alice"] }
    initialState ["alice", "b.ob", "alice"] rfl (by decide)

theorem userClusterNamePattern_example :
    userClusterNamePattern ["alice", "b.ob", "alice"] [] "" = "(^alice-)|(^b\\.ob-)" := by
  decide

end Roachprod
